import Mathlib

/-!
# Animated monsters: a shallow embedding of `animated_monsters.cpp`

The plugin keeps all of its state in global variables and is driven by four
host callbacks (`onDrawBattler`, `onBattlerDrawn`, `onDoBattlerAction`,
`onFrame`).  The embedding below turns the globals into one `State` record and
every callback into a function on that record.

Conventions of the embedding.

* C `int` values are mathematical integers.  Signed overflow is undefined in C,
  so the model describes exactly the executions in which no intermediate value
  leaves the 32-bit range; `/` and `%` are the truncating `Int.tdiv` and
  `Int.tmod`.
* The per-monster arrays `hurtTimer[8]`, `oldHP[8]`, `monsterX[8]`, ... all
  have length `MAX_MONSTERS`; they are grouped into one record `Slot` per index,
  whose fields keep the names of the arrays.
* An array access with an index outside the array is undefined behaviour; a
  callback that performs one returns `none`.
* `jumpTick` and `castTimer` are only ever assigned `0` or incremented below a
  fixed bound, so they are natural numbers.
* An image pointer is an `Option Image` (`none` is the null pointer).
-/

namespace AnimatedMonsters

/-! ## Constants and host types -/

abbrev NUM_POSES : Nat := 12
abbrev MAX_MONSTERS : Nat := 8
abbrev CAST_SPRITES : Nat := 13

/-- File an image was loaded from: `Monster\<name>\<number>.png` or
`Picture\cast\<number>.png`. -/
inductive AssetFile where
  | monsterPose (monsterName : String) (number : Int)
  | castFrame (number : Int)
  deriving DecidableEq, Repr

/-- The fields of `RPG::Image` that the plugin touches. -/
structure Image where
  file : Option AssetFile
  useMaskColor : Bool
  alpha : Int
  deriving DecidableEq, Repr

/-- Result of `RPG::Image::create()`: a blank image. -/
def Image.create : Image :=
  { file := none, useMaskColor := false, alpha := 255 }

/-- Modelled from the spec: `RPG::Image::destroy` belongs to the DynRPG library
and is not part of the sources.  The spec describes the release of a handle as
leaving no handle that references a destroyed asset, so the destroyed pointer
becomes null. -/
def Image.destroy (_h : Option Image) : Option Image := none

/-- The scenes of `RPG::Scene`; the plugin only tests for `SCENE_BATTLE`. -/
inductive Scene where
  | SCENE_MAP | SCENE_MENU | SCENE_BATTLE | SCENE_SHOP | SCENE_NAME
  | SCENE_FILE | SCENE_TITLE | SCENE_GAME_OVER | SCENE_DEBUG
  deriving DecidableEq, Repr

/-- The targets of `RPG::Target`; the plugin only tests for `TARGET_ACTOR`. -/
inductive Target where
  | TARGET_NONE | TARGET_ACTOR | TARGET_ALL_ACTORS | TARGET_MONSTER
  | TARGET_ALL_MONSTERS
  deriving DecidableEq, Repr

/-- The fields of `RPG::Action` read by `onDoBattlerAction`. -/
structure Action where
  target : Target
  skillId : Int
  targetId : Int
  deriving DecidableEq, Repr

/-- The fields of `RPG::Battler` (and `RPG::Monster`) used by the plugin. -/
structure Battler where
  x : Int
  y : Int
  hp : Int
  id : Int
  isMonster : Bool
  name : String
  image : Option Image
  action : Action
  deriving DecidableEq, Repr

/-- A call of `RPG::screen->canvas->draw(x, y, image)`. -/
structure DrawCall where
  x : Int
  y : Int
  image : Image
  deriving DecidableEq, Repr

/-! ## Plugin state -/

/-- Entry `i` of every per-monster array. -/
structure Slot where
  poseIndex : Int
  hurtTimer : Int
  oldHP : Int
  monsterSrcX : Int
  monsterSrcY : Int
  monsterDestX : Int
  monsterDestY : Int
  monsterX : Int
  monsterY : Int
  monsterMoveFrame : Int
  monsterApproach : Bool
  monsterCast : Bool
  monsterSrcSaved : Bool
  setInitialRandAtb : Bool
  monsterPoses : Fin NUM_POSES → Option Image

/-- The global variables of the plugin.  `max` and `animationType` are never
read and are left out. -/
structure State where
  castAnimation : Fin CAST_SPRITES → Option Image
  oldPose : Option Image
  resetTable : Bool
  frameTimer : Int
  castTimer : Nat
  castX : Int
  castY : Int
  doCastAnimation : Bool
  dist : Int
  castingTable : Fin 1000 → Bool
  jumpTick : Nat
  slots : Fin MAX_MONSTERS → Slot

/-- Asset number shown for each pose index. -/
def animationCycle : List Int := [1, 2, 3, 2, 4, 5, 6, 7, 8, 9, 10, 11]

/-- Vertical offsets of the jump on the way back. -/
def jumpOffset : List Int :=
  [0, -3, -5, -7, -9, -11, -12, -13, -13, -14, -14, -13, -13, -12, -11, -9, -7, -5, -3, -0]

/-- Index into an array of length `n`; `none` when the C index is out of
bounds. -/
def index? (n : Nat) (i : Int) : Option (Fin n) :=
  if h : 0 ≤ i ∧ i.toNat < n then some ⟨i.toNat, h.2⟩ else none

/-- Read of a constant table at a C index. -/
def tableAt? (t : List Int) (i : Int) : Option Int :=
  if 0 ≤ i then t[i.toNat]? else none

/-- Assignment `a[i] = v`. -/
def setAt {n : Nat} {α : Type} (a : Fin n → α) (i : Fin n) (v : α) : Fin n → α :=
  fun j => if j = i then v else a j

/-- C `abs`. -/
def cabs (a : Int) : Int := if a < 0 then -a else a

/-- Entry of the zero-initialised per-monster arrays at program start. -/
def initialSlot : Slot :=
  { poseIndex := 0, hurtTimer := 0, oldHP := 0, monsterSrcX := 0, monsterSrcY := 0,
    monsterDestX := 0, monsterDestY := 0, monsterX := 0, monsterY := 0,
    monsterMoveFrame := 0, monsterApproach := false, monsterCast := false,
    monsterSrcSaved := false, setInitialRandAtb := false,
    monsterPoses := fun _ => none }

/-- The zero-initialised globals at program start. -/
def initialState : State :=
  { castAnimation := fun _ => none, oldPose := none, resetTable := false,
    frameTimer := 0, castTimer := 0, castX := 0, castY := 0,
    doCastAnimation := false, dist := 0, castingTable := fun _ => false,
    jumpTick := 0, slots := fun _ => initialSlot }

/-! ## `onStartup` and `initializeBattle` -/

/-- `onStartup`: clears the cast table; every flagging line is commented out. -/
def onStartup (s : State) : State :=
  { s with castingTable := fun _ => false }

/-- Body of the loop of `initializeBattle` for index `i`. -/
def initializeSlot (i : Fin MAX_MONSTERS) (sl : Slot) : Slot :=
  { poseIndex := (i.val : Int).tmod 4
    hurtTimer := 0
    oldHP := 0
    monsterX := 0
    monsterY := 0
    monsterSrcX := 0
    monsterSrcY := 0
    monsterDestX := 0
    monsterDestY := 0
    monsterMoveFrame := 0
    monsterApproach := false
    monsterCast := false
    monsterSrcSaved := false
    setInitialRandAtb := false
    monsterPoses := fun j =>
      if (sl.monsterPoses j).isSome then Image.destroy (sl.monsterPoses j)
      else sl.monsterPoses j }

/-- `initializeBattle`: the loop over all slots. -/
def initializeBattle (s : State) : State :=
  { s with slots := fun i => initializeSlot i (s.slots i) }

/-! ## `onDrawBattler` -/

/-- Lines 131-165 of `onDrawBattler`: the updates of the scalar arrays at
index `id`. -/
def drawTimers (frameTimer : Int) (battler : Battler) (sl : Slot) : Slot :=
  -- save off the source and destination x/y coords
  let sl := if sl.monsterSrcSaved = false then
      { sl with monsterSrcX := battler.x, monsterSrcY := battler.y,
                monsterX := battler.x, monsterY := battler.y,
                monsterSrcSaved := true }
    else sl
  -- hurt timer / old hp
  let sl := if battler.hp < sl.oldHP then
      { sl with hurtTimer := 30, oldHP := battler.hp }
    else if battler.hp > sl.oldHP then
      { sl with oldHP := battler.hp }
    else sl
  -- hurt pose
  let sl := if sl.hurtTimer > 0 then
      { sl with poseIndex := 5 + (frameTimer - 1).tdiv 5, hurtTimer := sl.hurtTimer - 1 }
    else sl
  -- dead pose
  if battler.hp ≤ 0 then
    { sl with poseIndex := 4, monsterApproach := false }
  else sl

/-- Image created and loaded on a pose-cache miss. -/
def loadPose (battler : Battler) (number : Int) : Image :=
  { file := some (AssetFile.monsterPose battler.name number),
    useMaskColor := true, alpha := Image.create.alpha }

/-- The callback `onDrawBattler`; returns the new globals and the battler as
left for the host. -/
def onDrawBattler (s : State) (battler : Battler) (isMonster : Bool) (id : Int) :
    Option (State × Battler) :=
  if isMonster = true then
    match index? MAX_MONSTERS id with
    | none => none
    | some i =>
      let sl := drawTimers s.frameTimer battler (s.slots i)
      -- if the monster is attacking, update the X/Y coords
      let battler := if sl.monsterSrcSaved = true then
          { battler with x := sl.monsterX, y := sl.monsterY }
        else battler
      -- animationCycle[poseIndex[id]]
      match tableAt? animationCycle sl.poseIndex with
      | none => none
      | some number =>
        -- monsterPoses[id][animationCycle[poseIndex[id]]]
        match index? NUM_POSES number with
        | none => none
        | some p =>
          let sl := if (sl.monsterPoses p).isNone then
              { sl with monsterPoses := setAt sl.monsterPoses p (some (loadPose battler number)) }
            else sl
          some ({ s with slots := setAt s.slots i sl, oldPose := battler.image },
                { battler with image := sl.monsterPoses p })
  else some (s, battler)

/-! ## `onBattlerDrawn` -/

/-- Image created for cast frame `i` when the cast cache is filled. -/
def loadCast (i : Fin CAST_SPRITES) : Image :=
  { file := some (AssetFile.castFrame ((i.val : Int) + 1)), useMaskColor := true, alpha := 120 }

/-- Index `castTimer/7` used to address `castAnimation`. -/
def castFrameIndex (s : State) : Nat := s.castTimer / 7

/-- Lines 211-244 of `onBattlerDrawn`: the cast animation. -/
def castAnimationStep (s : State) : Option (State × Option DrawCall) :=
  if s.doCastAnimation = true then
    if s.castTimer < CAST_SPRITES * 7 then
      match index? CAST_SPRITES (castFrameIndex s : Int) with
      | none => none
      | some f =>
        match s.castAnimation f with
        | some img =>
          some ({ s with castTimer := s.castTimer + 1 },
                some { x := s.castX - 48, y := s.castY - 48 - 20, image := img })
        | none =>
          some ({ s with
                  castAnimation := fun i =>
                    if (s.castAnimation i).isNone then some (loadCast i) else s.castAnimation i,
                  castTimer := s.castTimer + 1 }, none)
    else some ({ s with castTimer := 0, doCastAnimation := false }, none)
  else some (s, none)

/-- The callback `onBattlerDrawn`; returns the new globals, the battler and
the draw call issued, if any. -/
def onBattlerDrawn (s : State) (battler : Battler) (isMonster : Bool) (id : Int) :
    Option (State × Battler × Option DrawCall) :=
  let restored : Option Battler :=
    if isMonster = true then
      -- the read of monsterSrcSaved[id]; the guarded block is empty
      match index? MAX_MONSTERS id with
      | none => none
      | some _ => some { battler with image := s.oldPose }
    else some battler
  match restored with
  | none => none
  | some b =>
    match castAnimationStep s with
    | none => none
    | some (s1, d) => some (s1, b, d)

/-! ## `onDoBattlerAction` -/

/-- The callback `onDoBattlerAction`; `partyMember` is the host lookup
`RPG::Actor::partyMember`, `none` standing for a null pointer. -/
def onDoBattlerAction (s : State) (partyMember : Int → Option Battler) (battler : Battler) :
    Option State :=
  if battler.isMonster = true then
    match index? MAX_MONSTERS (battler.id - 1) with
    | none => none
    | some i =>
      let sl := s.slots i
      -- prepare for movement
      let sl := { sl with monsterCast := true, monsterDestX := battler.x + 10,
                          monsterDestY := battler.y }
      let moved : Option Slot :=
        if battler.action.target = Target.TARGET_ACTOR then
          match index? 1000 battler.action.skillId with
          | none => none
          | some k =>
            if s.castingTable k = false then
              match partyMember battler.action.targetId with
              | none => none
              | some t =>
                some { sl with monsterDestX := t.x - 20, monsterDestY := t.y,
                               monsterCast := false }
            else some sl
        else some sl
      match moved with
      | none => none
      | some sl =>
        some { s with slots :=
                 setAt s.slots i ({ sl with monsterMoveFrame := 0, monsterApproach := true }) }
  else some s

/-! ## `onFrame` -/

/-- Lines 286-292: the idle advance of one slot. -/
def idleAdvance (sl : Slot) : Slot :=
  if sl.hurtTimer = 0 ∧ sl.monsterApproach = false then
    { sl with poseIndex := (sl.poseIndex + 1).tmod 4 }
  else sl

/-- Lines 280-293: the frame clock and the idle loop (its iterations touch
disjoint array entries). -/
def frameClock (s : State) : State :=
  let s := { s with frameTimer := s.frameTimer + 1 }
  if s.frameTimer > 10 then
    { s with frameTimer := 0, slots := fun i => idleAdvance (s.slots i) }
  else s

/-- Lines 305-350: the melee branch for one slot.  Returns the slot, the new
`jumpTick` and the value left in `dist`. -/
def meleeUpdate (sl : Slot) (jumpTick : Nat) : Slot × Nat × Int :=
  let mf := sl.monsterMoveFrame
  -- approach the player
  let sl := if mf < 20 then
      { sl with poseIndex := 7,
                monsterX := sl.monsterSrcX + ((sl.monsterDestX - sl.monsterSrcX) * mf).tdiv 20,
                monsterY := sl.monsterSrcY + ((sl.monsterDestY - sl.monsterSrcY) * mf).tdiv 20 }
    else sl
  let (sl, jumpTick) :=
    if mf = 25 then ({ sl with poseIndex := 9 }, jumpTick)
    else if mf = 30 then ({ sl with poseIndex := 10 }, jumpTick)
    else if mf = 35 then ({ sl with poseIndex := 11 }, 0)
    else (sl, jumpTick)
  -- distance from the starting position
  let dist := cabs (sl.monsterSrcX - sl.monsterX) + cabs (sl.monsterSrcY - sl.monsterY)
  let (sl, jumpTick) :=
    if mf > 50 ∧ dist > 3 then
      let sl := { sl with
        poseIndex := 8,
        monsterX := sl.monsterDestX + ((sl.monsterSrcX - sl.monsterDestX) * (mf - 50)).tdiv 20,
        monsterY := sl.monsterDestY + ((sl.monsterSrcY - sl.monsterDestY) * (mf - 50)).tdiv 20 }
      if jumpTick < 20 then
        ({ sl with monsterY := sl.monsterY + jumpOffset.getD jumpTick 0 }, jumpTick + 1)
      else (sl, jumpTick)
    else (sl, jumpTick)
  let sl := if mf ≥ 71 ∧ dist < 3 then
      { sl with poseIndex := 1, monsterX := sl.monsterSrcX, monsterY := sl.monsterSrcY,
                monsterApproach := false, monsterMoveFrame := 0 }
    else sl
  (sl, jumpTick, dist)

/-- Lines 355-405: the casting branch for one slot.  Returns the slot, the
value left in `dist` and the anchor `(castX, castY)` when the cast animation is
activated. -/
def castUpdate (sl : Slot) : Slot × Int × Option (Int × Int) :=
  let mf := sl.monsterMoveFrame
  -- jump forward a few
  let sl := if mf < 5 then
      { sl with poseIndex := 7,
                monsterX := sl.monsterSrcX + ((sl.monsterDestX - sl.monsterSrcX) * mf).tdiv 5,
                monsterY := sl.monsterSrcY + ((sl.monsterDestY - sl.monsterSrcY) * mf).tdiv 5 }
    else sl
  -- (activate cast)
  let anchor : Option (Int × Int) :=
    if mf = 10 then some (sl.monsterX, sl.monsterY) else none
  let sl :=
    if mf = 15 then { sl with poseIndex := 9 }
    else if mf = 20 then { sl with poseIndex := 10 }
    else if mf = 25 then { sl with poseIndex := 11 }
    else sl
  let dist := cabs (sl.monsterSrcX - sl.monsterX) + cabs (sl.monsterSrcY - sl.monsterY)
  let sl := if mf > 70 ∧ dist > 3 then
      { sl with
        poseIndex := 8,
        monsterX := sl.monsterDestX + ((sl.monsterSrcX - sl.monsterDestX) * (mf - 70)).tdiv 5,
        monsterY := sl.monsterDestY + ((sl.monsterSrcY - sl.monsterDestY) * (mf - 70)).tdiv 5 }
    else sl
  -- reset movement
  let sl := if mf > 75 ∧ dist < 3 then
      { sl with poseIndex := 1, monsterX := sl.monsterSrcX, monsterY := sl.monsterSrcY,
                monsterApproach := false, monsterCast := false, monsterMoveFrame := 0 }
    else sl
  (sl, dist, anchor)

/-- Lines 298-408: one iteration of the movement loop, for index `i`. -/
def updateMonster (s : State) (i : Fin MAX_MONSTERS) : State :=
  let sl := s.slots i
  if sl.monsterApproach = true then
    if sl.monsterCast = false then
      let r := meleeUpdate sl s.jumpTick
      { s with
        slots :=
          setAt s.slots i ({ r.1 with monsterMoveFrame := r.1.monsterMoveFrame + 1 }),
        jumpTick := r.2.1, dist := r.2.2 }
    else
      let r := castUpdate sl
      let s := match r.2.2 with
        | some a => { s with castX := a.1, castY := a.2, doCastAnimation := true }
        | none => s
      { s with
        slots :=
          setAt s.slots i ({ r.1 with monsterMoveFrame := r.1.monsterMoveFrame + 1 }),
        dist := r.2.1 }
  else s

/-- The callback `onFrame`; `scene` is the value of `RPG::system->scene`. -/
def onFrame (s : State) (scene : Scene) : State :=
  if scene = Scene.SCENE_BATTLE then
    let s := frameClock s
    let s := (List.finRange MAX_MONSTERS).foldl updateMonster s
    { s with resetTable := true }
  else if s.resetTable = true then
    { initializeBattle s with resetTable := false }
  else s

/-! ## Runs of callbacks -/

/-- Successive `onDrawBattler` calls for the monster in slot `id`, one per
battler value handed in by the host. -/
def drawRun (s : State) (id : Int) : List Battler → Option State
  | [] => some s
  | b :: bs =>
    match onDrawBattler s b true id with
    | none => none
    | some r => drawRun r.1 id bs

/-- Successive `onBattlerDrawn` calls, one per `(battler, isMonster, id)`. -/
def drawnRun (s : State) : List (Battler × Bool × Int) → Option State
  | [] => some s
  | c :: cs =>
    match onBattlerDrawn s c.1 c.2.1 c.2.2 with
    | none => none
    | some r => drawnRun r.1 cs

/-- The state after `n` calls of `onFrame` in the battle scene. -/
def battleTicks : Nat → State → State
  | 0, s => s
  | n + 1, s => battleTicks n (onFrame s Scene.SCENE_BATTLE)

/-- The melee branch of `updateMonster` seen from one slot: the slot and the
jump counter before and after the iteration, the increment of
`monsterMoveFrame` included. -/
def meleeStep (p : Slot × Nat) : Slot × Nat :=
  ({ (meleeUpdate p.1 p.2).1 with
     monsterMoveFrame := (meleeUpdate p.1 p.2).1.monsterMoveFrame + 1 },
   (meleeUpdate p.1 p.2).2.1)

/-- `n` iterations of `meleeStep`. -/
def meleeSteps : Nat → Slot × Nat → Slot × Nat
  | 0, p => p
  | n + 1, p => meleeSteps n (meleeStep p)

/-- The draw call issued for the cached cast frame `img`. -/
def castDraw (s : State) (img : Image) : DrawCall :=
  { x := s.castX - 48, y := s.castY - 48 - 20, image := img }

/-- The battler handed back by `onBattlerDrawn`: a monster gets `oldPose` as
its image again. -/
def restoreImage (s : State) (battler : Battler) (isMonster : Bool) : Battler :=
  if isMonster = true then { battler with image := s.oldPose } else battler

/-- A call `(battler, isMonster, id)` whose slot id, when it is read, is inside
the per-monster arrays. -/
def slotInRange (c : Battler × Bool × Int) : Prop :=
  c.2.1 = true → ∃ i, index? MAX_MONSTERS c.2.2 = some i

/-! ## Concrete inputs -/

/-- A monster battler at `(x, y)` with the given HP and a single-actor attack
with skill 0 on party member 0. -/
def monsterAt (x y hp : Int) : Battler :=
  { x := x, y := y, hp := hp, id := 1, isMonster := true, name := "Slime", image := none,
    action := { target := Target.TARGET_ACTOR, skillId := 0, targetId := 0 } }

/-- State at program start with slot 0 changed to `sl`. -/
def stateWithSlot0 (sl : Slot) : State :=
  { initialState with slots := setAt initialState.slots 0 sl }

/-- Slot 0 has recorded 50 HP. -/
def hurtState : State := stateWithSlot0 { initialSlot with oldHP := 50 }

/-- Slot 0 has recorded 40 HP and shows the hurt pose for 10 more draws. -/
def healState : State :=
  stateWithSlot0 { initialSlot with oldHP := 40, hurtTimer := 10, poseIndex := 5 }

/-- Slot 0 is in the middle of a melee approach, at `(120, 100)`. -/
def approachState : State :=
  stateWithSlot0 { initialSlot with
    oldHP := 30, monsterSrcX := 100, monsterSrcY := 100, monsterDestX := 150,
    monsterDestY := 100, monsterX := 120, monsterY := 100, monsterMoveFrame := 9,
    monsterApproach := true, monsterSrcSaved := true, poseIndex := 7 }

/-- An actor standing at `(250, 120)`. -/
def heroActor : Battler :=
  { x := 250, y := 120, hp := 100, id := 1, isMonster := false, name := "Hero",
    image := none, action := { target := Target.TARGET_NONE, skillId := 0, targetId := 0 } }

/-- A party whose only member, number 0, is `heroActor`. -/
def oneActorParty (k : Int) : Option Battler :=
  if k = 0 then some heroActor else none

/-- A monster whose action targets the whole party. -/
def groupAttacker : Battler :=
  { monsterAt 200 100 30 with
    action := { target := Target.TARGET_ALL_ACTORS, skillId := 5, targetId := 0 } }

/-- Slot 0 starts a melee approach from `(100, 100)` towards `(150, 100)`. -/
def meleeState : State :=
  stateWithSlot0 { initialSlot with
    oldHP := 30, monsterSrcX := 100, monsterSrcY := 100, monsterDestX := 150,
    monsterDestY := 100, monsterX := 100, monsterY := 100, monsterMoveFrame := 0,
    monsterApproach := true, monsterCast := false, monsterSrcSaved := true }

/-- A state in the middle of a battle: slot 0 approaches, slot 3 shows the hurt
pose and has a cached pose image, and the reset flag is pending. -/
def midBattleState : State :=
  { approachState with
    resetTable := true, frameTimer := 7,
    slots := setAt approachState.slots 3
      { initialSlot with hurtTimer := 12, oldHP := 20, poseIndex := 6,
                         monsterSrcSaved := true,
                         monsterPoses := fun _ => some (loadPose (monsterAt 10 10 20) 6) } }

/-- The cast overlay has just been activated at `(120, 90)`. -/
def castState : State :=
  { initialState with doCastAnimation := true, castTimer := 0, castX := 120, castY := 90 }

/-! ## Single-slot views of the movement loop -/

/-- The casting branch of `updateMonster` seen from one slot, the increment of
`monsterMoveFrame` included. -/
def castStep (sl : Slot) : Slot :=
  { (castUpdate sl).1 with monsterMoveFrame := (castUpdate sl).1.monsterMoveFrame + 1 }

/-- `n` iterations of `castStep`. -/
def castSteps : Nat → Slot → Slot
  | 0, sl => sl
  | n + 1, sl => castSteps n (castStep sl)

/-- Slot 0 starts a cast sequence at `(100, 100)`; the overlay is idle. -/
def castSeqState : State :=
  stateWithSlot0 { initialSlot with
    oldHP := 30, monsterSrcX := 100, monsterSrcY := 100, monsterDestX := 110,
    monsterDestY := 100, monsterX := 100, monsterY := 100, monsterMoveFrame := 0,
    monsterApproach := true, monsterCast := true, monsterSrcSaved := true }

/-! ## Reachable states -/

/-- The states the plugin can be in: the state at program start and every
state left by a callback that returned.  A call with an index outside its
array does not return, so the slot ids of the calls are in `0..7`. -/
inductive Reachable : State → Prop where
  | start : Reachable initialState
  | startup (s : State) : Reachable s → Reachable (onStartup s)
  | draw (s : State) (b : Battler) (m : Bool) (id : Int) (r : State × Battler) :
      Reachable s → onDrawBattler s b m id = some r → Reachable r.1
  | drawn (s : State) (b : Battler) (m : Bool) (id : Int)
      (r : State × Battler × Option DrawCall) :
      Reachable s → onBattlerDrawn s b m id = some r → Reachable r.1
  | action (s : State) (pm : Int → Option Battler) (b : Battler) (r : State) :
      Reachable s → onDoBattlerAction s pm b = some r → Reachable r
  | frame (s : State) (scene : Scene) : Reachable s → Reachable (onFrame s scene)

/-- The frame clock is in `0..10` and every pose index is in `0..11`. -/
def PoseInRange (s : State) : Prop :=
  (0 ≤ s.frameTimer ∧ s.frameTimer ≤ 10) ∧
    ∀ i, 0 ≤ (s.slots i).poseIndex ∧ (s.slots i).poseIndex ≤ 11

/-- A monster whose database id is 9, one past the last slot. -/
def ninthMonster : Battler := { monsterAt 200 100 30 with id := 9 }

/-- A monster of slot 0 whose single-actor action has skill id 1000. -/
def skill1000Monster : Battler :=
  { monsterAt 200 100 30 with
    action := { target := Target.TARGET_ACTOR, skillId := 1000, targetId := 0 } }

/-- Manhattan distance of a slot from its source position (lines 329 and
388). -/
def distFromSource (sl : Slot) : Int :=
  cabs (sl.monsterSrcX - sl.monsterX) + cabs (sl.monsterSrcY - sl.monsterY)

/-- The slot written by the return update of the melee branch (lines 333-340)
for the jump counter `jt`. -/
def meleeReturn (sl : Slot) (jt : Nat) : Slot :=
  { sl with
    poseIndex := 8,
    monsterX := sl.monsterDestX +
      ((sl.monsterSrcX - sl.monsterDestX) * (sl.monsterMoveFrame - 50)).tdiv 20,
    monsterY := sl.monsterDestY +
      ((sl.monsterSrcY - sl.monsterDestY) * (sl.monsterMoveFrame - 50)).tdiv 20 +
      (if jt < 20 then jumpOffset.getD jt 0 else 0) }

/-- The slot written when a sequence completes (lines 345-349 and 399-404);
`monsterCast` is only cleared by the casting branch and is false in the melee
branch already. -/
def finishSlot (sl : Slot) : Slot :=
  { sl with poseIndex := 1, monsterX := sl.monsterSrcX, monsterY := sl.monsterSrcY,
            monsterApproach := false, monsterMoveFrame := 0 }

/-- The slot written by the return update of the casting branch (lines
391-393). -/
def castReturn (sl : Slot) : Slot :=
  { sl with
    poseIndex := 8,
    monsterX := sl.monsterDestX +
      ((sl.monsterSrcX - sl.monsterDestX) * (sl.monsterMoveFrame - 70)).tdiv 5,
    monsterY := sl.monsterDestY +
      ((sl.monsterSrcY - sl.monsterDestY) * (sl.monsterMoveFrame - 70)).tdiv 5 }

/-- A slot that is not approaching stands on its source position. -/
def SlotAtRest (sl : Slot) : Prop :=
  sl.monsterApproach = false →
    sl.monsterX = sl.monsterSrcX ∧ sl.monsterY = sl.monsterSrcY

/-- History of the draw call `onDrawBattler s b m id`: the slot whose approach
the call cuts short, because it is made for a monster with HP at most 0 while
the slot is approaching (lines 161-165), is marked in `st`. -/
def stopDraw (s : State) (b : Battler) (m : Bool) (id : Int)
    (st : Fin MAX_MONSTERS → Bool) : Fin MAX_MONSTERS → Bool :=
  if m = true ∧ b.hp ≤ 0 then
    match index? MAX_MONSTERS id with
    | none => st
    | some i => if (s.slots i).monsterApproach = true then setAt st i true else st
  else st

/-- History of the action callback: the slot `id - 1` of a monster that starts
a new sequence loses its mark. -/
def stopAction (b : Battler) (st : Fin MAX_MONSTERS → Bool) : Fin MAX_MONSTERS → Bool :=
  if b.isMonster = true then
    match index? MAX_MONSTERS (b.id - 1) with
    | none => st
    | some i => setAt st i false
  else st

/-- History of `onFrame s scene`: the battle reset (lines 410-417) removes
every mark. -/
def stopFrame (s : State) (scene : Scene) (st : Fin MAX_MONSTERS → Bool) :
    Fin MAX_MONSTERS → Bool :=
  if scene ≠ Scene.SCENE_BATTLE ∧ s.resetTable = true then fun _ => false else st

/-- The reachable states together with the history `st` of their run:
`st i = true` when the last sequence of slot `i` was cut short by a draw call
that observed the death of its monster, and the slot has neither started a new
sequence nor been reset since. -/
inductive Tracked : State → (Fin MAX_MONSTERS → Bool) → Prop where
  | start : Tracked initialState (fun _ => false)
  | startup (s : State) (st : Fin MAX_MONSTERS → Bool) :
      Tracked s st → Tracked (onStartup s) st
  | draw (s : State) (st : Fin MAX_MONSTERS → Bool) (b : Battler) (m : Bool) (id : Int)
      (r : State × Battler) :
      Tracked s st → onDrawBattler s b m id = some r → Tracked r.1 (stopDraw s b m id st)
  | drawn (s : State) (st : Fin MAX_MONSTERS → Bool) (b : Battler) (m : Bool) (id : Int)
      (r : State × Battler × Option DrawCall) :
      Tracked s st → onBattlerDrawn s b m id = some r → Tracked r.1 st
  | action (s : State) (st : Fin MAX_MONSTERS → Bool) (pm : Int → Option Battler)
      (b : Battler) (r : State) :
      Tracked s st → onDoBattlerAction s pm b = some r → Tracked r (stopAction b st)
  | frame (s : State) (st : Fin MAX_MONSTERS → Bool) (scene : Scene) :
      Tracked s st → Tracked (onFrame s scene) (stopFrame s scene st)

/-- The state after the first draw of the monster of slot 0 at `(100, 100)`
and the start of its attack on `heroActor`. -/
def attackStarted : Option State :=
  match onDrawBattler initialState (monsterAt 100 100 30) true 0 with
  | none => none
  | some r => onDoBattlerAction r.1 oneActorParty (monsterAt 100 100 30)

/-- Two battle ticks into the attack of `attackStarted`, the monster is drawn
with 0 HP. -/
def diedOnTheWay : Option State :=
  match attackStarted with
  | none => none
  | some s =>
    match onDrawBattler (battleTicks 2 s) (monsterAt 100 100 0) true 0 with
    | none => none
    | some r => some r.1

/-- Slot 0 is casting and about to process `monsterMoveFrame = 10` at
`(108, 100)` while an overlay run, anchored at `(50, 60)`, has reached
`castTimer = 40`; the reset flag is pending and the frame clock is 7. -/
def recastState : State :=
  { stateWithSlot0 { initialSlot with
      oldHP := 30, poseIndex := 7, monsterSrcX := 100, monsterSrcY := 100,
      monsterDestX := 110, monsterDestY := 100, monsterX := 108, monsterY := 100,
      monsterMoveFrame := 10, monsterApproach := true, monsterCast := true,
      monsterSrcSaved := true } with
    doCastAnimation := true, castTimer := 40, castX := 50, castY := 60,
    resetTable := true, frameTimer := 7 }

/-- Slot 0 starts a melee approach from `(100, 100)` towards `(104, 100)`, the
destination that `onDoBattlerAction` computes for a target at `(124, 100)`. -/
def stuckState : State :=
  stateWithSlot0 { initialSlot with
    oldHP := 30, monsterSrcX := 100, monsterSrcY := 100, monsterDestX := 104,
    monsterDestY := 100, monsterX := 100, monsterY := 100, monsterMoveFrame := 0,
    monsterApproach := true, monsterCast := false, monsterSrcSaved := true }

/-- One iteration of the movement loop seen from the slot it processes: the
slot and the jump counter before and after. -/
def slotStep (p : Slot × Nat) : Slot × Nat :=
  if p.1.monsterApproach = true then
    if p.1.monsterCast = false then meleeStep p else (castStep p.1, p.2)
  else p

/-- No slot other than `i` is in a melee sequence. -/
def NoOtherMelee (s : State) (i : Fin MAX_MONSTERS) : Prop :=
  ∀ j, j ≠ i → (s.slots j).monsterApproach = true → (s.slots j).monsterCast = true

/-- A slot on the way back of its melee sequence, at `monsterMoveFrame = 60`. -/
def returningSlot : Slot :=
  { initialSlot with
    oldHP := 30, poseIndex := 8, monsterSrcX := 100, monsterSrcY := 100,
    monsterDestX := 150, monsterDestY := 100, monsterX := 128, monsterY := 87,
    monsterMoveFrame := 60, monsterApproach := true, monsterCast := false,
    monsterSrcSaved := true }

/-- Slot 1 is `returningSlot`, the jump counter is 9 and every other slot is
idle. -/
def jumpStateA : State :=
  { initialState with jumpTick := 9, slots := setAt initialState.slots 1 returningSlot }

/-- The state `jumpStateA` with slot 0 in a melee sequence of its own, at
`monsterMoveFrame = 35`. -/
def jumpStateB : State :=
  { jumpStateA with
    slots := setAt jumpStateA.slots 0
      { initialSlot with
        oldHP := 20, poseIndex := 10, monsterSrcX := 50, monsterSrcY := 50,
        monsterDestX := 90, monsterDestY := 50, monsterX := 88, monsterY := 50,
        monsterMoveFrame := 35, monsterApproach := true, monsterCast := false,
        monsterSrcSaved := true } }

/-- The state `jumpStateA` with slot 0 in a cast sequence and slot 5 hurt. -/
def jumpStateC : State :=
  { jumpStateA with
    slots := setAt (setAt jumpStateA.slots 0
      { initialSlot with
        oldHP := 20, poseIndex := 7, monsterSrcX := 50, monsterSrcY := 50,
        monsterDestX := 60, monsterDestY := 50, monsterX := 54, monsterY := 50,
        monsterMoveFrame := 3, monsterApproach := true, monsterCast := true,
        monsterSrcSaved := true }) 5
      { initialSlot with oldHP := 12, hurtTimer := 9, poseIndex := 6 } }

/-- The state at program start with skill 98 flagged in the cast table, as the
commented-out line 83 of `onStartup` would leave it. -/
def flaggedState : State :=
  { initialState with castingTable := fun k => decide (k.val = 98) }

/-- A monster of slot 0 that uses skill 98 on party member 0. -/
def spellCaster : Battler :=
  { monsterAt 200 100 30 with
    action := { target := Target.TARGET_ACTOR, skillId := 98, targetId := 0 } }

/-- A monster of slot 0 whose action targets monster 5. -/
def monsterHealer : Battler :=
  { monsterAt 200 100 30 with
    action := { target := Target.TARGET_MONSTER, skillId := 3, targetId := 5 } }

/-- A party without members: every lookup yields the null pointer. -/
def emptyParty (_k : Int) : Option Battler := none

/-- A battle with two monsters, with its history: the monster of slot 1 is
drawn at `(60, 40)`, the monster of slot 0 is drawn at `(100, 100)`, starts an
attack on `heroActor`, moves for two battle ticks and is then drawn with
0 HP. -/
def twoSlotRun : Option (State × (Fin MAX_MONSTERS → Bool)) :=
  match onDrawBattler initialState (monsterAt 60 40 25) true 1 with
  | none => none
  | some r1 =>
    match onDrawBattler r1.1 (monsterAt 100 100 30) true 0 with
    | none => none
    | some r2 =>
      match onDoBattlerAction r2.1 oneActorParty (monsterAt 100 100 30) with
      | none => none
      | some s3 =>
        match onDrawBattler (battleTicks 2 s3) (monsterAt 100 100 0) true 0 with
        | none => none
        | some r4 =>
          some (r4.1,
            stopDraw (battleTicks 2 s3) (monsterAt 100 100 0) true 0
              (stopAction (monsterAt 100 100 30)
                (stopDraw r1.1 (monsterAt 100 100 30) true 0
                  (stopDraw initialState (monsterAt 60 40 25) true 1 (fun _ => false)))))

/-- The next battle after `twoSlotRun`: a frame on the map resets the arrays
and the monster of slot 0 is drawn at `(120, 80)`. -/
def nextBattleRun : Option (State × (Fin MAX_MONSTERS → Bool)) :=
  match twoSlotRun with
  | none => none
  | some p =>
    match onDrawBattler (onFrame p.1 Scene.SCENE_MAP) (monsterAt 120 80 30) true 0 with
    | none => none
    | some r =>
      some (r.1,
        stopDraw (onFrame p.1 Scene.SCENE_MAP) (monsterAt 120 80 30) true 0
          (stopFrame p.1 Scene.SCENE_MAP p.2))

/-! ## Basic facts about the tables -/

theorem index?_val {n : Nat} (i : Fin n) : index? n (i.val : Int) = some i := by
  unfold index?
  have h : 0 ≤ (i.val : Int) ∧ (i.val : Int).toNat < n := ⟨Int.ofNat_nonneg _, by simp⟩
  rw [dif_pos h]
  simp

theorem setAt_same {n : Nat} {α : Type} (a : Fin n → α) (i : Fin n) (v : α) :
    setAt a i v i = v := by
  simp [setAt]

theorem setAt_other {n : Nat} {α : Type} (a : Fin n → α) (i j : Fin n) (v : α)
    (h : j ≠ i) : setAt a i v j = a j := by
  simp [setAt, h]

/-- Every pose index in `0..11` names an asset number that addresses the pose
cache. -/
theorem pose_lookup (p : Int) (h0 : 0 ≤ p) (h1 : p ≤ 11) :
    ∃ n q, tableAt? animationCycle p = some n ∧ index? NUM_POSES n = some q := by
  interval_cases p <;> exact ⟨_, _, rfl, rfl⟩

/-- A draw call for a monster in an existing slot returns as soon as the pose
index selected by `drawTimers` is inside the pose table; the scalar fields of
the slot are those computed by `drawTimers`. -/
theorem onDrawBattler_slot (s : State) (b : Battler) (i : Fin MAX_MONSTERS)
    (h0 : 0 ≤ (drawTimers s.frameTimer b (s.slots i)).poseIndex)
    (h1 : (drawTimers s.frameTimer b (s.slots i)).poseIndex ≤ 11) :
    ∃ r, onDrawBattler s b true (i.val : Int) = some r ∧
      r.1.slots i = { drawTimers s.frameTimer b (s.slots i) with
                      monsterPoses := (r.1.slots i).monsterPoses } ∧
      r.1.frameTimer = s.frameTimer ∧
      (∀ j, j ≠ i → r.1.slots j = s.slots j) := by
  obtain ⟨n, q, hn, hq⟩ := pose_lookup _ h0 h1
  simp only [onDrawBattler, index?_val, hn, hq, if_true]
  refine ⟨_, rfl, ?_, rfl, ?_⟩
  · simp only [setAt_same]
    split <;> rfl
  · intro j hj
    exact setAt_other _ _ _ _ hj

/-- The hurt pose index is 5 or 6 for every value of the frame clock in
`0..10`. -/
theorem hurt_pose_range (ft : Int) (h0 : 0 ≤ ft) (h1 : ft ≤ 10) :
    5 ≤ 5 + (ft - 1).tdiv 5 ∧ 5 + (ft - 1).tdiv 5 ≤ 6 := by
  interval_cases ft <;> decide

/-- `drawTimers` when the observed HP is positive and below the recorded HP. -/
theorem drawTimers_hurt (ft : Int) (b : Battler) (sl : Slot) (hpos : 0 < b.hp)
    (hlow : b.hp < sl.oldHP) :
    (drawTimers ft b sl).oldHP = b.hp ∧ (drawTimers ft b sl).hurtTimer = 29 ∧
      (drawTimers ft b sl).poseIndex = 5 + (ft - 1).tdiv 5 := by
  unfold drawTimers
  by_cases hs : sl.monsterSrcSaved = false <;>
  simp [hs, hlow, not_le.mpr hpos]

/-- `drawTimers` when the observed HP is positive and equal to the recorded
HP: the timer counts down while it is positive. -/
theorem drawTimers_steady (ft : Int) (b : Battler) (sl : Slot) (hpos : 0 < b.hp)
    (heq : b.hp = sl.oldHP) :
    (drawTimers ft b sl).oldHP = b.hp ∧
      (drawTimers ft b sl).hurtTimer =
        (if sl.hurtTimer > 0 then sl.hurtTimer - 1 else sl.hurtTimer) ∧
      (drawTimers ft b sl).poseIndex =
        (if sl.hurtTimer > 0 then 5 + (ft - 1).tdiv 5 else sl.poseIndex) := by
  unfold drawTimers
  by_cases hs : sl.monsterSrcSaved = false <;>
  by_cases hh : sl.hurtTimer > 0 <;>
  simp [hs, hh, heq.symm, not_le.mpr hpos]

/-- `drawTimers` when the observed HP is above the recorded HP. -/
theorem drawTimers_heal (ft : Int) (b : Battler) (sl : Slot) (hhi : sl.oldHP < b.hp) :
    (drawTimers ft b sl).oldHP = b.hp ∧
      (drawTimers ft b sl).hurtTimer =
        (if sl.hurtTimer > 0 then sl.hurtTimer - 1 else sl.hurtTimer) ∧
      (drawTimers ft b sl).poseIndex =
        (if b.hp ≤ 0 then 4
         else if sl.hurtTimer > 0 then 5 + (ft - 1).tdiv 5 else sl.poseIndex) := by
  unfold drawTimers
  by_cases hs : sl.monsterSrcSaved = false <;>
  by_cases hh : sl.hurtTimer > 0 <;>
  by_cases hd : b.hp ≤ 0 <;>
  simp [hs, hh, hd, hhi, not_lt.mpr (le_of_lt hhi)]

/-- `drawTimers` when the observed HP is zero or negative. -/
theorem drawTimers_dead (ft : Int) (b : Battler) (sl : Slot) (hd : b.hp ≤ 0) :
    (drawTimers ft b sl).poseIndex = 4 ∧ (drawTimers ft b sl).monsterApproach = false ∧
      (drawTimers ft b sl).monsterMoveFrame = sl.monsterMoveFrame ∧
      (drawTimers ft b sl).monsterX = (if sl.monsterSrcSaved = true then sl.monsterX else b.x) ∧
      (drawTimers ft b sl).monsterY = (if sl.monsterSrcSaved = true then sl.monsterY else b.y) := by
  unfold drawTimers
  by_cases hs : sl.monsterSrcSaved = false <;>
  by_cases hlt : b.hp < sl.oldHP <;>
  by_cases hgt : b.hp > sl.oldHP <;>
  by_cases hh : sl.hurtTimer > 0 <;>
  simp [hs, hlt, hgt, hh, hd]

/-- Draw calls with an unchanged positive HP: each call lowers a positive hurt
timer by one and leaves a zero timer alone. -/
theorem drawRun_steady (bs : List Battler) (s : State) (i : Fin MAX_MONSTERS) (hp : Int)
    (hft0 : 0 ≤ s.frameTimer) (hft1 : s.frameTimer ≤ 10) (hpos : 0 < hp)
    (hold : (s.slots i).oldHP = hp) (ht : 0 ≤ (s.slots i).hurtTimer)
    (hp0 : 0 ≤ (s.slots i).poseIndex) (hp1 : (s.slots i).poseIndex ≤ 11)
    (hsame : ∀ c ∈ bs, c.hp = hp) :
    ∃ r, drawRun s (i.val : Int) bs = some r ∧ (r.slots i).oldHP = hp ∧
      (r.slots i).hurtTimer = max 0 ((s.slots i).hurtTimer - (bs.length : Int)) := by
  induction bs generalizing s with
  | nil =>
    refine ⟨s, rfl, hold, ?_⟩
    simp [ht]
  | cons c cs ih =>
    have hc : c.hp = hp := hsame c (List.mem_cons_self _ _)
    have hcpos : 0 < c.hp := by omega
    obtain ⟨e1, e2, e3⟩ := drawTimers_steady s.frameTimer c (s.slots i) hcpos (by omega)
    obtain ⟨q0, q1⟩ := hurt_pose_range s.frameTimer hft0 hft1
    have b0 : 0 ≤ (drawTimers s.frameTimer c (s.slots i)).poseIndex := by
      rw [e3]; split <;> omega
    have b1 : (drawTimers s.frameTimer c (s.slots i)).poseIndex ≤ 11 := by
      rw [e3]; split <;> omega
    obtain ⟨r, hr, hsl, hfr, _⟩ := onDrawBattler_slot s c i b0 b1
    have f1 : (r.1.slots i).oldHP = hp := by rw [hsl]; simp only; omega
    have f2 : (r.1.slots i).hurtTimer =
        (if (s.slots i).hurtTimer > 0 then (s.slots i).hurtTimer - 1
         else (s.slots i).hurtTimer) := by rw [hsl]; exact e2
    have f3 : (r.1.slots i).poseIndex = (drawTimers s.frameTimer c (s.slots i)).poseIndex := by
      rw [hsl]
    obtain ⟨r2, hr2, g1, g2⟩ := ih r.1 (by omega) (by omega) f1
      (by rw [f2]; split <;> omega) (by omega) (by omega)
      (fun d hd => hsame d (List.mem_cons_of_mem _ hd))
    refine ⟨r2, ?_, g1, ?_⟩
    · simp only [drawRun, hr]
      exact hr2
    · rw [g2, f2]
      simp only [List.length_cons, Nat.cast_add, Nat.cast_one]
      split <;> omega

/-- C1 (hurt trigger).  A draw call that observes a positive HP below the
recorded HP returns, and after it and any further draw calls with the same HP
the recorded HP is the observed HP and the hurt timer is `30 - n`, cut off at
`0`, where `n` counts the calls including the triggering one: it was set to 30,
drops by exactly one per call, is positive after each of the first 29 calls
and is 0 from the 30th call on.  The frame clock is in its range `0..10`. -/
theorem hurt_trigger_countdown (s : State) (i : Fin MAX_MONSTERS) (b : Battler)
    (bs : List Battler) (hft0 : 0 ≤ s.frameTimer) (hft1 : s.frameTimer ≤ 10)
    (hpos : 0 < b.hp) (hlow : b.hp < (s.slots i).oldHP)
    (hsame : ∀ c ∈ bs, c.hp = b.hp) :
    ∃ r, drawRun s (i.val : Int) (b :: bs) = some r ∧ (r.slots i).oldHP = b.hp ∧
      (r.slots i).hurtTimer = max 0 (30 - ((bs.length : Int) + 1)) := by
  obtain ⟨e1, e2, e3⟩ := drawTimers_hurt s.frameTimer b (s.slots i) hpos hlow
  obtain ⟨q0, q1⟩ := hurt_pose_range s.frameTimer hft0 hft1
  obtain ⟨r, hr, hsl, hfr, _⟩ := onDrawBattler_slot s b i (by omega) (by omega)
  have f1 : (r.1.slots i).oldHP = b.hp := by rw [hsl]; exact e1
  have f2 : (r.1.slots i).hurtTimer = 29 := by rw [hsl]; exact e2
  have f3 : (r.1.slots i).poseIndex = 5 + (s.frameTimer - 1).tdiv 5 := by rw [hsl]; exact e3
  obtain ⟨r2, hr2, g1, g2⟩ := drawRun_steady bs r.1 i b.hp (by omega) (by omega) hpos f1
    (by omega) (by omega) (by omega) hsame
  refine ⟨r2, ?_, g1, ?_⟩
  · simp only [drawRun, hr]
    exact hr2
  · rw [g2, f2]
    congr 1
    omega

/-- Witness of C1: recorded HP 50, observed HP 40, thirty draw calls. -/
theorem hurt_trigger_countdown_witness :
    (0 ≤ hurtState.frameTimer ∧ hurtState.frameTimer ≤ 10 ∧ 0 < (monsterAt 200 100 40).hp ∧
      (monsterAt 200 100 40).hp < (hurtState.slots 0).oldHP) ∧
    ∃ r, drawRun hurtState ((0 : Fin MAX_MONSTERS).val : Int)
        (monsterAt 200 100 40 :: List.replicate 29 (monsterAt 200 100 40)) = some r ∧
      (r.slots 0).oldHP = (monsterAt 200 100 40).hp ∧
      (r.slots 0).hurtTimer =
        max 0 (30 - (((List.replicate 29 (monsterAt 200 100 40)).length : Int) + 1)) :=
  ⟨by decide,
   hurt_trigger_countdown hurtState 0 (monsterAt 200 100 40)
     (List.replicate 29 (monsterAt 200 100 40)) (by decide) (by decide) (by decide) (by decide)
     (fun c hc => by rw [List.eq_of_mem_replicate hc])⟩

/-! ### C2: heal -/

/-- C2 as stated fails: with recorded HP 40 and `hurtTimer = 10`, a draw that
observes HP 55 returns with `hurtTimer = 9`, not 10. -/
theorem heal_timer_counterexample :
    ∃ r, onDrawBattler healState (monsterAt 200 100 55) true 0 = some r ∧
      (healState.slots 0).oldHP = 40 ∧ (healState.slots 0).hurtTimer = 10 ∧
      (r.1.slots 0).oldHP = 55 ∧ (r.1.slots 0).hurtTimer = 9 :=
  ⟨_, rfl, by decide, by decide, by decide, by decide⟩

/-- C2, amended.  A draw call that observes an HP above the recorded HP records
the observed HP and does not restart the hurt countdown: a positive hurt timer
still drops by one in that call, a zero timer stays zero. -/
theorem heal_records_hp (s : State) (i : Fin MAX_MONSTERS) (b : Battler)
    (hft0 : 0 ≤ s.frameTimer) (hft1 : s.frameTimer ≤ 10)
    (hp0 : 0 ≤ (s.slots i).poseIndex) (hp1 : (s.slots i).poseIndex ≤ 11)
    (hhi : (s.slots i).oldHP < b.hp) :
    ∃ r, onDrawBattler s b true (i.val : Int) = some r ∧ (r.1.slots i).oldHP = b.hp ∧
      (r.1.slots i).hurtTimer =
        (if (s.slots i).hurtTimer > 0 then (s.slots i).hurtTimer - 1
         else (s.slots i).hurtTimer) := by
  obtain ⟨e1, e2, e3⟩ := drawTimers_heal s.frameTimer b (s.slots i) hhi
  obtain ⟨q0, q1⟩ := hurt_pose_range s.frameTimer hft0 hft1
  have b0 : 0 ≤ (drawTimers s.frameTimer b (s.slots i)).poseIndex := by
    rw [e3]; split_ifs <;> omega
  have b1 : (drawTimers s.frameTimer b (s.slots i)).poseIndex ≤ 11 := by
    rw [e3]; split_ifs <;> omega
  obtain ⟨r, hr, hsl, _, _⟩ := onDrawBattler_slot s b i b0 b1
  refine ⟨r, hr, ?_, ?_⟩
  · rw [hsl]; exact e1
  · rw [hsl]; exact e2

/-- Witness of the amended C2: recorded HP 40, `hurtTimer = 10`, observed HP 55. -/
theorem heal_records_hp_witness :
    (0 ≤ healState.frameTimer ∧ healState.frameTimer ≤ 10 ∧
      0 ≤ (healState.slots 0).poseIndex ∧ (healState.slots 0).poseIndex ≤ 11 ∧
      (healState.slots 0).oldHP < (monsterAt 200 100 55).hp) ∧
    ∃ r, onDrawBattler healState (monsterAt 200 100 55) true ((0 : Fin MAX_MONSTERS).val : Int)
        = some r ∧ (r.1.slots 0).oldHP = (monsterAt 200 100 55).hp ∧
      (r.1.slots 0).hurtTimer =
        (if (healState.slots 0).hurtTimer > 0 then (healState.slots 0).hurtTimer - 1
         else (healState.slots 0).hurtTimer) :=
  ⟨by decide,
   heal_records_hp healState 0 (monsterAt 200 100 55) (by decide) (by decide) (by decide)
     (by decide) (by decide)⟩

/-! ### C3: death -/

/-- C3 as stated fails on the first draw of a slot: at program start the
current position of slot 0 is `(0, 0)`, and drawing a dead monster that stands
at `(200, 100)` moves it to `(200, 100)`. -/
theorem death_position_counterexample :
    ∃ r, onDrawBattler initialState (monsterAt 200 100 0) true 0 = some r ∧
      (monsterAt 200 100 0).hp ≤ 0 ∧
      (initialState.slots 0).monsterX = 0 ∧ (r.1.slots 0).monsterX = 200 :=
  ⟨_, rfl, by decide, by decide, by decide⟩

/-- C3, amended.  For every slot and every prior state, a draw call for a
monster with observed HP at most 0 returns with `poseIndex = 4` (asset file 4)
and `monsterApproach = false`, leaves `monsterMoveFrame` unchanged, and leaves
the current position unchanged when the source position of the slot has
already been captured; on the first draw of the slot the current position is
the position of the battler. -/
theorem death_forces_dead_pose (s : State) (i : Fin MAX_MONSTERS) (b : Battler)
    (hd : b.hp ≤ 0) :
    ∃ r, onDrawBattler s b true (i.val : Int) = some r ∧
      (r.1.slots i).poseIndex = 4 ∧ tableAt? animationCycle 4 = some 4 ∧
      (r.1.slots i).monsterApproach = false ∧
      (r.1.slots i).monsterMoveFrame = (s.slots i).monsterMoveFrame ∧
      ((s.slots i).monsterSrcSaved = true →
        (r.1.slots i).monsterX = (s.slots i).monsterX ∧
        (r.1.slots i).monsterY = (s.slots i).monsterY) ∧
      ((s.slots i).monsterSrcSaved = false →
        (r.1.slots i).monsterX = b.x ∧ (r.1.slots i).monsterY = b.y) := by
  obtain ⟨e1, e2, e3, e4, e5⟩ := drawTimers_dead s.frameTimer b (s.slots i) hd
  obtain ⟨r, hr, hsl, _, _⟩ := onDrawBattler_slot s b i (by omega) (by omega)
  refine ⟨r, hr, ?_, rfl, ?_, ?_, ?_, ?_⟩
  · rw [hsl]; exact e1
  · rw [hsl]; exact e2
  · rw [hsl]; exact e3
  · intro h
    rw [hsl]
    exact ⟨by rw [e4, if_pos h], by rw [e5, if_pos h]⟩
  · intro h
    rw [hsl]
    have h2 : ¬ (s.slots i).monsterSrcSaved = true := by simp [h]
    exact ⟨by rw [e4, if_neg h2], by rw [e5, if_neg h2]⟩

/-- Witness of the amended C3: the monster of slot 0 dies in the middle of its
approach. -/
theorem death_forces_dead_pose_witness :
    (monsterAt 200 100 0).hp ≤ 0 ∧
    ∃ r, onDrawBattler approachState (monsterAt 200 100 0) true
        ((0 : Fin MAX_MONSTERS).val : Int) = some r ∧
      (r.1.slots 0).poseIndex = 4 ∧ tableAt? animationCycle 4 = some 4 ∧
      (r.1.slots 0).monsterApproach = false ∧
      (r.1.slots 0).monsterMoveFrame = (approachState.slots 0).monsterMoveFrame ∧
      ((approachState.slots 0).monsterSrcSaved = true →
        (r.1.slots 0).monsterX = (approachState.slots 0).monsterX ∧
        (r.1.slots 0).monsterY = (approachState.slots 0).monsterY) ∧
      ((approachState.slots 0).monsterSrcSaved = false →
        (r.1.slots 0).monsterX = (monsterAt 200 100 0).x ∧
        (r.1.slots 0).monsterY = (monsterAt 200 100 0).y) :=
  ⟨by decide, death_forces_dead_pose approachState 0 (monsterAt 200 100 0) (by decide)⟩

/-! ### C4 and C5: the action trigger -/

/-- C4 (action trigger).  For every monster action whose slot `id - 1` and
skill id are in range, `onDoBattlerAction` returns with `monsterMoveFrame = 0`
and `monsterApproach = true`; the party member is looked up only for an
unflagged action on a single actor, and only there does it have to exist.  When
the action targets an actor and the skill is flagged in the cast table,
`monsterCast = true` and the destination is the default `(x + 10, y)`; when it
targets an actor and the skill is not flagged, `monsterCast = false` and the
destination is `(target.x - 20, target.y)`; an action of any other target kind
is treated like a flagged one. -/
theorem action_trigger (s : State) (partyMember : Int → Option Battler) (b : Battler)
    (i : Fin MAX_MONSTERS) (k : Fin 1000) (hmon : b.isMonster = true)
    (hi : index? MAX_MONSTERS (b.id - 1) = some i)
    (hk : index? 1000 b.action.skillId = some k)
    (ht : b.action.target = Target.TARGET_ACTOR → s.castingTable k = false →
      (partyMember b.action.targetId).isSome = true) :
    ∃ r, onDoBattlerAction s partyMember b = some r ∧
      (r.slots i).monsterMoveFrame = 0 ∧ (r.slots i).monsterApproach = true ∧
      (b.action.target = Target.TARGET_ACTOR → s.castingTable k = true →
        (r.slots i).monsterCast = true ∧ (r.slots i).monsterDestX = b.x + 10 ∧
        (r.slots i).monsterDestY = b.y) ∧
      (b.action.target = Target.TARGET_ACTOR → s.castingTable k = false →
        ∃ t, partyMember b.action.targetId = some t ∧
        (r.slots i).monsterCast = false ∧ (r.slots i).monsterDestX = t.x - 20 ∧
        (r.slots i).monsterDestY = t.y) ∧
      (b.action.target ≠ Target.TARGET_ACTOR →
        (r.slots i).monsterCast = true ∧ (r.slots i).monsterDestX = b.x + 10 ∧
        (r.slots i).monsterDestY = b.y) := by
  by_cases htg : b.action.target = Target.TARGET_ACTOR
  · by_cases hc : s.castingTable k = false
    · obtain ⟨t, ht2⟩ := Option.isSome_iff_exists.mp (ht htg hc)
      simp [onDoBattlerAction, hmon, hi, hk, ht2, htg, hc, setAt_same]
    · simp [onDoBattlerAction, hmon, hi, hk, htg, hc, setAt_same]
  · simp [onDoBattlerAction, hmon, hi, htg, setAt_same]

/-- Witness of C4, one action for each case.  With skill 98 flagged,
`spellCaster` at `(200, 100)` uses it on an actor and no party member is looked
up: the slot casts towards `(210, 100)`.  With no skill flagged,
`monsterAt 200 100 30` attacks `heroActor` at `(250, 120)`: the slot walks
towards `(230, 120)`.  `monsterHealer` targets monster 5, which is no party
member: the slot casts towards `(210, 100)`. -/
theorem action_trigger_witness :
    (flaggedState.castingTable 98 = true ∧
      ∃ r, onDoBattlerAction flaggedState emptyParty spellCaster = some r ∧
        (r.slots 0).monsterMoveFrame = 0 ∧ (r.slots 0).monsterApproach = true ∧
        (r.slots 0).monsterCast = true ∧ (r.slots 0).monsterDestX = 210 ∧
        (r.slots 0).monsterDestY = 100) ∧
    (initialState.castingTable 0 = false ∧
      ∃ r, onDoBattlerAction initialState oneActorParty (monsterAt 200 100 30) = some r ∧
        (r.slots 0).monsterMoveFrame = 0 ∧ (r.slots 0).monsterApproach = true ∧
        (r.slots 0).monsterCast = false ∧ (r.slots 0).monsterDestX = 230 ∧
        (r.slots 0).monsterDestY = 120) ∧
    (emptyParty monsterHealer.action.targetId = none ∧
      ∃ r, onDoBattlerAction flaggedState emptyParty monsterHealer = some r ∧
        (r.slots 0).monsterMoveFrame = 0 ∧ (r.slots 0).monsterApproach = true ∧
        (r.slots 0).monsterCast = true ∧ (r.slots 0).monsterDestX = 210 ∧
        (r.slots 0).monsterDestY = 100) := by
  refine ⟨⟨rfl, ?_⟩, ⟨rfl, ?_⟩, ⟨rfl, ?_⟩⟩
  · obtain ⟨r, hr, h1, h2, h3, _, _⟩ :=
      action_trigger flaggedState emptyParty spellCaster 0 98 rfl rfl rfl
        (fun _ h => absurd h (by decide))
    obtain ⟨c1, c2, c3⟩ := h3 rfl rfl
    exact ⟨r, hr, h1, h2, c1, c2, c3⟩
  · obtain ⟨r, hr, h1, h2, _, h4, _⟩ :=
      action_trigger initialState oneActorParty (monsterAt 200 100 30) 0 0 rfl rfl rfl
        (fun _ _ => rfl)
    obtain ⟨t, ht, c1, c2, c3⟩ := h4 rfl rfl
    have e : t = heroActor := (Option.some.inj ht).symm
    rw [e] at c2 c3
    exact ⟨r, hr, h1, h2, c1, c2, c3⟩
  · obtain ⟨r, hr, h1, h2, _, _, h5⟩ :=
      action_trigger flaggedState emptyParty monsterHealer 0 3 rfl rfl rfl
        (fun h _ => absurd h (by decide))
    obtain ⟨c1, c2, c3⟩ := h5 (by decide)
    exact ⟨r, hr, h1, h2, c1, c2, c3⟩

/-- C5 (default movement), the code evaluated.  `onStartup` flags no skill.
After it, `groupAttacker` at `(200, 100)` performs skill 5 on the whole party
and `onDoBattlerAction` returns with `monsterCast = true` and the default
destination `(210, 100)`: the monster runs the cast sequence and does not
approach its targets.  Only an action on a single actor clears `monsterCast`:
the attack of `monsterAt 200 100 30` on `heroActor` walks towards
`(230, 120)`. -/
theorem startup_group_action_casts :
    (∀ k, (onStartup initialState).castingTable k = false) ∧
    (groupAttacker.action.target = Target.TARGET_ALL_ACTORS ∧
      groupAttacker.action.skillId = 5 ∧
      ∃ r, onDoBattlerAction (onStartup initialState) oneActorParty groupAttacker = some r ∧
        (r.slots 0).monsterApproach = true ∧ (r.slots 0).monsterCast = true ∧
        (r.slots 0).monsterDestX = 210 ∧ (r.slots 0).monsterDestY = 100) ∧
    (∃ r, onDoBattlerAction (onStartup initialState) oneActorParty (monsterAt 200 100 30)
        = some r ∧
      (r.slots 0).monsterApproach = true ∧ (r.slots 0).monsterCast = false ∧
      (r.slots 0).monsterDestX = 230 ∧ (r.slots 0).monsterDestY = 120) :=
  ⟨fun _ => rfl, ⟨rfl, rfl, _, rfl, by decide, by decide, by decide, by decide⟩,
   ⟨_, rfl, by decide, by decide, by decide, by decide⟩⟩

/-! ## Structure of `onFrame` -/

theorem updateMonster_rest (s : State) (i : Fin MAX_MONSTERS)
    (h : (s.slots i).monsterApproach = false) : updateMonster s i = s := by
  unfold updateMonster
  simp [h]

/-- The melee branch of `updateMonster`. -/
theorem updateMonster_melee_eq (s : State) (i : Fin MAX_MONSTERS)
    (ha : (s.slots i).monsterApproach = true) (hc : (s.slots i).monsterCast = false) :
    updateMonster s i =
      { s with
        slots := setAt s.slots i
          ({ (meleeUpdate (s.slots i) s.jumpTick).1 with
             monsterMoveFrame := (meleeUpdate (s.slots i) s.jumpTick).1.monsterMoveFrame + 1 }),
        jumpTick := (meleeUpdate (s.slots i) s.jumpTick).2.1,
        dist := (meleeUpdate (s.slots i) s.jumpTick).2.2 } := by
  unfold updateMonster
  rw [if_pos ha, if_pos hc]

/-- The casting branch of `updateMonster`: the slot it writes. -/
theorem updateMonster_cast_eq (s : State) (i : Fin MAX_MONSTERS)
    (ha : (s.slots i).monsterApproach = true) (hc : (s.slots i).monsterCast = true) :
    (updateMonster s i).slots =
        setAt s.slots i
          ({ (castUpdate (s.slots i)).1 with
             monsterMoveFrame := (castUpdate (s.slots i)).1.monsterMoveFrame + 1 }) ∧
      (updateMonster s i).frameTimer = s.frameTimer ∧
      (updateMonster s i).jumpTick = s.jumpTick := by
  have hc2 : ¬ (s.slots i).monsterCast = false := by simp [hc]
  unfold updateMonster
  rw [if_pos ha, if_neg hc2]
  refine ⟨?_, ?_, ?_⟩ <;> (dsimp only; split <;> rfl)

theorem updateMonster_other (s : State) (i j : Fin MAX_MONSTERS) (h : j ≠ i) :
    (updateMonster s i).slots j = s.slots j := by
  cases ha : (s.slots i).monsterApproach
  · rw [updateMonster_rest s i ha]
  · cases hc : (s.slots i).monsterCast
    · rw [updateMonster_melee_eq s i ha hc]
      exact setAt_other _ _ _ _ h
    · rw [(updateMonster_cast_eq s i ha hc).1]
      exact setAt_other _ _ _ _ h

theorem updateMonster_frameTimer (s : State) (i : Fin MAX_MONSTERS) :
    (updateMonster s i).frameTimer = s.frameTimer := by
  cases ha : (s.slots i).monsterApproach
  · rw [updateMonster_rest s i ha]
  · cases hc : (s.slots i).monsterCast
    · rw [updateMonster_melee_eq s i ha hc]
    · exact (updateMonster_cast_eq s i ha hc).2.1

/-- The melee branch of `updateMonster`: the slot and the jump counter. -/
theorem updateMonster_melee (s : State) (i : Fin MAX_MONSTERS)
    (ha : (s.slots i).monsterApproach = true) (hc : (s.slots i).monsterCast = false) :
    (updateMonster s i).slots i =
        { (meleeUpdate (s.slots i) s.jumpTick).1 with
          monsterMoveFrame := (meleeUpdate (s.slots i) s.jumpTick).1.monsterMoveFrame + 1 } ∧
      (updateMonster s i).jumpTick = (meleeUpdate (s.slots i) s.jumpTick).2.1 := by
  rw [updateMonster_melee_eq s i ha hc]
  exact ⟨setAt_same _ _ _, rfl⟩

/-- The movement loop leaves the frame clock alone. -/
theorem moveLoop_frameTimer (l : List (Fin MAX_MONSTERS)) (s : State) :
    (l.foldl updateMonster s).frameTimer = s.frameTimer := by
  induction l generalizing s with
  | nil => rfl
  | cons a l ih => rw [List.foldl_cons, ih, updateMonster_frameTimer]

/-- The movement loop does not touch a slot that is not among its indices. -/
theorem moveLoop_not_mem (l : List (Fin MAX_MONSTERS)) (s : State) (i : Fin MAX_MONSTERS)
    (h : i ∉ l) : (l.foldl updateMonster s).slots i = s.slots i := by
  induction l generalizing s with
  | nil => rfl
  | cons a l ih =>
    rw [List.foldl_cons, ih _ (fun hm => h (List.mem_cons_of_mem _ hm))]
    exact updateMonster_other s a i (fun e => h (e ▸ List.mem_cons_self _ _))

/-- The movement loop does not touch a slot that is not approaching. -/
theorem moveLoop_rest (l : List (Fin MAX_MONSTERS)) (s : State) (i : Fin MAX_MONSTERS)
    (h : (s.slots i).monsterApproach = false) :
    (l.foldl updateMonster s).slots i = s.slots i := by
  induction l generalizing s with
  | nil => rfl
  | cons a l ih =>
    have hs : (updateMonster s a).slots i = s.slots i := by
      by_cases e : a = i
      · subst e
        rw [updateMonster_rest s a h]
      · exact updateMonster_other s a i (fun x => e x.symm)
    rw [List.foldl_cons, ih _ (by rw [hs]; exact h), hs]

/-- When none of the indices is approaching the movement loop does nothing. -/
theorem moveLoop_all_rest (l : List (Fin MAX_MONSTERS)) (s : State)
    (h : ∀ j ∈ l, (s.slots j).monsterApproach = false) : l.foldl updateMonster s = s := by
  induction l generalizing s with
  | nil => rfl
  | cons a l ih =>
    rw [List.foldl_cons, updateMonster_rest s a (h a (List.mem_cons_self _ _))]
    exact ih s (fun j hj => h j (List.mem_cons_of_mem _ hj))

/-- When slot `i` is the only one that may be approaching, the movement loop
is its iteration for `i`. -/
theorem moveLoop_single (l : List (Fin MAX_MONSTERS)) (s : State) (i : Fin MAX_MONSTERS)
    (hn : l.Nodup) (hi : i ∈ l)
    (h : ∀ j, j ≠ i → (s.slots j).monsterApproach = false) :
    l.foldl updateMonster s = updateMonster s i := by
  induction l generalizing s with
  | nil => exact absurd hi (List.not_mem_nil _)
  | cons a l ih =>
    rw [List.foldl_cons]
    have hnd := List.nodup_cons.mp hn
    by_cases e : a = i
    · subst e
      apply moveLoop_all_rest
      intro j hj
      have hja : j ≠ a := fun x => hnd.1 (x ▸ hj)
      rw [updateMonster_other s a j hja]
      exact h j hja
    · rw [updateMonster_rest s a (h a e)]
      have hi2 : i ∈ l := by
        rcases List.mem_cons.mp hi with x | x
        · exact absurd x.symm e
        · exact x
      exact ih s hnd.2 hi2 h

/-- Some value of `jumpTick` is handed to the iteration for slot `i`: the slot
after the loop is the slot produced by `updateMonster` from a state with the
same slot `i`. -/
theorem moveLoop_slot (l : List (Fin MAX_MONSTERS)) (s : State) (i : Fin MAX_MONSTERS)
    (hn : l.Nodup) (hi : i ∈ l) :
    ∃ pre : State, pre.slots i = s.slots i ∧
      (l.foldl updateMonster s).slots i = (updateMonster pre i).slots i := by
  induction l generalizing s with
  | nil => exact absurd hi (List.not_mem_nil _)
  | cons a l ih =>
    rw [List.foldl_cons]
    have hnd := List.nodup_cons.mp hn
    by_cases e : a = i
    · subst e
      exact ⟨s, rfl, moveLoop_not_mem l _ a hnd.1⟩
    · have hi2 : i ∈ l := by
        rcases List.mem_cons.mp hi with x | x
        · exact absurd x.symm e
        · exact x
      obtain ⟨pre, h1, h2⟩ := ih (updateMonster s a) hnd.2 hi2
      exact ⟨pre, by rw [h1, updateMonster_other s a i (fun x => e x.symm)], h2⟩

theorem onFrame_battle (s : State) :
    onFrame s Scene.SCENE_BATTLE =
      { (List.finRange MAX_MONSTERS).foldl updateMonster (frameClock s) with
        resetTable := true } := by
  simp [onFrame]

theorem frameClock_approach (s : State) (j : Fin MAX_MONSTERS) :
    ((frameClock s).slots j).monsterApproach = (s.slots j).monsterApproach := by
  unfold frameClock
  by_cases h : s.frameTimer + 1 > 10
  · simp only [h, if_true, idleAdvance]
    split <;> rfl
  · simp only [h, if_false]

/-- The frame clock does not touch an approaching slot. -/
theorem frameClock_approaching (s : State) (i : Fin MAX_MONSTERS)
    (h : (s.slots i).monsterApproach = true) : (frameClock s).slots i = s.slots i := by
  unfold frameClock
  by_cases h2 : s.frameTimer + 1 > 10
  · simp [h2, idleAdvance, h]
  · simp only [h2, if_false]

theorem frameClock_jumpTick (s : State) : (frameClock s).jumpTick = s.jumpTick := by
  unfold frameClock
  by_cases h : s.frameTimer + 1 > 10
  · simp only [h, if_true]
  · simp only [h, if_false]

theorem battleTicks_succ (n : Nat) (s : State) :
    battleTicks (n + 1) s = onFrame (battleTicks n s) Scene.SCENE_BATTLE := by
  induction n generalizing s with
  | zero => rfl
  | succ n ih =>
    show battleTicks (n + 1) (onFrame s Scene.SCENE_BATTLE) = _
    rw [ih]
    rfl

/-- One battle tick of an approaching melee slot is `meleeUpdate` for some
value of the jump counter, followed by the increment of `monsterMoveFrame`. -/
theorem onFrame_melee_slot (s : State) (i : Fin MAX_MONSTERS)
    (ha : (s.slots i).monsterApproach = true) (hc : (s.slots i).monsterCast = false) :
    ∃ jt, ((onFrame s Scene.SCENE_BATTLE).slots i) =
      { (meleeUpdate (s.slots i) jt).1 with
        monsterMoveFrame := (meleeUpdate (s.slots i) jt).1.monsterMoveFrame + 1 } := by
  rw [onFrame_battle]
  obtain ⟨pre, h1, h2⟩ := moveLoop_slot (List.finRange MAX_MONSTERS) (frameClock s) i
    (List.nodup_finRange _) (List.mem_finRange i)
  rw [frameClock_approaching s i ha] at h1
  refine ⟨pre.jumpTick, ?_⟩
  show ((List.finRange MAX_MONSTERS).foldl updateMonster (frameClock s)).slots i = _
  rw [h2, (updateMonster_melee pre i (by rw [h1]; exact ha) (by rw [h1]; exact hc)).1, h1]

/-- The melee branch during the first 20 values of `monsterMoveFrame`. -/
theorem meleeUpdate_approach (sl : Slot) (jt : Nat) (h1 : sl.monsterMoveFrame < 20) :
    (meleeUpdate sl jt).1 =
      { sl with
        poseIndex := 7,
        monsterX := sl.monsterSrcX +
          ((sl.monsterDestX - sl.monsterSrcX) * sl.monsterMoveFrame).tdiv 20,
        monsterY := sl.monsterSrcY +
          ((sl.monsterDestY - sl.monsterSrcY) * sl.monsterMoveFrame).tdiv 20 } := by
  have a1 : ¬ sl.monsterMoveFrame = 25 := by omega
  have a2 : ¬ sl.monsterMoveFrame = 30 := by omega
  have a3 : ¬ sl.monsterMoveFrame = 35 := by omega
  have a4 : ¬ sl.monsterMoveFrame > 50 := by omega
  have a5 : ¬ sl.monsterMoveFrame ≥ 71 := by omega
  simp only [meleeUpdate, h1, a1, a2, a3, a4, a5, if_true, if_false, false_and]

/-- The slot of a melee approach after `k + 1` battle ticks, for `k < 20`. -/
theorem approach_phase (s : State) (i : Fin MAX_MONSTERS)
    (ha : (s.slots i).monsterApproach = true) (hc : (s.slots i).monsterCast = false)
    (hm : (s.slots i).monsterMoveFrame = 0) (k : Nat) (hk : k < 20) :
    (battleTicks (k + 1) s).slots i =
      { s.slots i with
        poseIndex := 7,
        monsterX := (s.slots i).monsterSrcX +
          (((s.slots i).monsterDestX - (s.slots i).monsterSrcX) * (k : Int)).tdiv 20,
        monsterY := (s.slots i).monsterSrcY +
          (((s.slots i).monsterDestY - (s.slots i).monsterSrcY) * (k : Int)).tdiv 20,
        monsterMoveFrame := (k : Int) + 1 } := by
  induction k with
  | zero =>
    show (onFrame s Scene.SCENE_BATTLE).slots i = _
    obtain ⟨jt, h⟩ := onFrame_melee_slot s i ha hc
    rw [h, meleeUpdate_approach _ _ (by omega), hm]
    simp
  | succ k ih =>
    have ih2 := ih (by omega)
    rw [battleTicks_succ]
    obtain ⟨jt, h⟩ := onFrame_melee_slot (battleTicks (k + 1) s) i
      (by rw [ih2]; exact ha) (by rw [ih2]; exact hc)
    rw [h, meleeUpdate_approach _ _ (by rw [ih2]; simp only; omega), ih2]
    simp

/-! ### C6: the melee approach -/

/-- C6 (melee approach), the code evaluated.  Slot 0 of `meleeState` starts a
melee approach from source `(100, 100)` towards destination `(150, 100)` with
`monsterMoveFrame = 0`.  After 20 battle ticks it stands at `(147, 100)`, three
pixels short of the destination, with `monsterMoveFrame = 20`: the last
interpolation step taken is the one for `monsterMoveFrame = 19`, with the
factor 19/20. -/
theorem approach_stops_short_of_destination :
    ((meleeState.slots 0).monsterSrcX = 100 ∧ (meleeState.slots 0).monsterSrcY = 100 ∧
      (meleeState.slots 0).monsterDestX = 150 ∧ (meleeState.slots 0).monsterDestY = 100 ∧
      (meleeState.slots 0).monsterX = 100 ∧ (meleeState.slots 0).monsterY = 100 ∧
      (meleeState.slots 0).monsterMoveFrame = 0 ∧
      (meleeState.slots 0).monsterApproach = true ∧
      (meleeState.slots 0).monsterCast = false) ∧
    ((battleTicks 20 meleeState).slots 0).monsterX = 147 ∧
    ((battleTicks 20 meleeState).slots 0).monsterY = 100 ∧
    ((battleTicks 20 meleeState).slots 0).monsterMoveFrame = 20 := by
  have h := approach_phase meleeState 0 rfl rfl rfl 19 (by decide)
  refine ⟨⟨rfl, rfl, rfl, rfl, rfl, rfl, rfl, rfl, rfl⟩, ?_, ?_, ?_⟩
  · rw [h]; decide
  · rw [h]; decide
  · rw [h]; decide

/-! ### C7: the melee round trip -/

theorem meleeSteps_succ (n : Nat) (p : Slot × Nat) :
    meleeSteps (n + 1) p = meleeStep (meleeSteps n p) := by
  induction n generalizing p with
  | zero => rfl
  | succ n ih =>
    show meleeSteps (n + 1) (meleeStep p) = _
    rw [ih]
    rfl

/-- A slot that is not approaching is not approaching after a battle tick. -/
theorem onFrame_rest_approach (s : State) (j : Fin MAX_MONSTERS)
    (h : (s.slots j).monsterApproach = false) :
    ((onFrame s Scene.SCENE_BATTLE).slots j).monsterApproach = false := by
  rw [onFrame_battle]
  show (((List.finRange MAX_MONSTERS).foldl updateMonster (frameClock s)).slots j).monsterApproach
    = false
  have h2 : ((frameClock s).slots j).monsterApproach = false := by
    rw [frameClock_approach]; exact h
  rw [moveLoop_rest _ _ j h2]
  exact h2

/-- One battle tick when slot `i` is in a melee sequence and no other slot is
approaching: slot `i` and the jump counter make one `meleeStep`. -/
theorem onFrame_single (s : State) (i : Fin MAX_MONSTERS)
    (ha : (s.slots i).monsterApproach = true) (hc : (s.slots i).monsterCast = false)
    (ho : ∀ j, j ≠ i → (s.slots j).monsterApproach = false) :
    ((onFrame s Scene.SCENE_BATTLE).slots i, (onFrame s Scene.SCENE_BATTLE).jumpTick) =
      meleeStep (s.slots i, s.jumpTick) := by
  rw [onFrame_battle]
  have ho2 : ∀ j, j ≠ i → ((frameClock s).slots j).monsterApproach = false := by
    intro j hj
    rw [frameClock_approach]
    exact ho j hj
  have hi : (frameClock s).slots i = s.slots i := frameClock_approaching s i ha
  have hl := moveLoop_single (List.finRange MAX_MONSTERS) (frameClock s) i
    (List.nodup_finRange _) (List.mem_finRange i) ho2
  have hm := updateMonster_melee (frameClock s) i (by rw [hi]; exact ha) (by rw [hi]; exact hc)
  show (((List.finRange MAX_MONSTERS).foldl updateMonster (frameClock s)).slots i,
    ((List.finRange MAX_MONSTERS).foldl updateMonster (frameClock s)).jumpTick) = _
  rw [hl, hm.1, hm.2, hi, frameClock_jumpTick]
  rfl

/-- Battle ticks when slot `i` is in a melee sequence and no other slot is
approaching: as long as the sequence runs, slot `i` and the jump counter
follow `meleeSteps`. -/
theorem battleTicks_single (n : Nat) (s : State) (i : Fin MAX_MONSTERS)
    (ho : ∀ j, j ≠ i → (s.slots j).monsterApproach = false)
    (hrun : ∀ k, k < n →
      (meleeSteps k (s.slots i, s.jumpTick)).1.monsterApproach = true ∧
      (meleeSteps k (s.slots i, s.jumpTick)).1.monsterCast = false) :
    ((battleTicks n s).slots i, (battleTicks n s).jumpTick) =
        meleeSteps n (s.slots i, s.jumpTick) ∧
      ∀ j, j ≠ i → ((battleTicks n s).slots j).monsterApproach = false := by
  induction n with
  | zero => exact ⟨rfl, ho⟩
  | succ n ih =>
    obtain ⟨h1, h2⟩ := ih (fun k hk => hrun k (by omega))
    have hr := hrun n (by omega)
    rw [← h1] at hr
    rw [battleTicks_succ, meleeSteps_succ, ← h1]
    exact ⟨onFrame_single _ i hr.1 hr.2 h2, fun j hj => onFrame_rest_approach _ j (h2 j hj)⟩

/-- The melee sequence from `(100, 100)` to `(150, 100)` and back, tick by
tick: pose, position, move counter and jump counter after `k ≤ 71` steps. -/
theorem round_trip_trace (pose hurt hp : Int) (saved atb : Bool)
    (poses : Fin NUM_POSES → Option Image) (jt : Nat) (k : Nat) (hk : k ≤ 71) :
    meleeSteps k
      (⟨pose, hurt, hp, 100, 100, 150, 100, 100, 100, 0, true, false, saved, atb, poses⟩, jt) =
      (⟨if k = 0 then pose else if k ≤ 25 then 7 else if k ≤ 30 then 9
          else if k ≤ 35 then 10 else if k ≤ 51 then 11 else 8,
        hurt, hp, 100, 100, 150, 100,
        if k = 0 then 100 else if k ≤ 51 then 100 + (50 * ((min k 20 : Nat) - 1 : Int)).tdiv 20
          else 150 + (-50 * ((k : Int) - 51)).tdiv 20,
        if k ≤ 51 then 100 else 100 + jumpOffset.getD (k - 52) 0,
        (k : Int), true, false, saved, atb, poses⟩,
       if k ≤ 35 then jt else if k ≤ 51 then 0 else k - 51) := by
  induction k with
  | zero => rfl
  | succ k ih =>
    rw [meleeSteps_succ, ih (by omega)]
    have hk2 : k < 71 := by omega
    clear ih hk
    interval_cases k <;> rfl

/-- The step for `monsterMoveFrame = 71` ends the sequence of
`round_trip_trace`: the slot is back at `(100, 100)` with pose 1, and the move
counter, reset to 0, has been incremented to 1. -/
theorem round_trip_end (pose hurt hp : Int) (saved atb : Bool)
    (poses : Fin NUM_POSES → Option Image) (jt : Nat) :
    meleeSteps 72
      (⟨pose, hurt, hp, 100, 100, 150, 100, 100, 100, 0, true, false, saved, atb, poses⟩, jt) =
      (⟨1, hurt, hp, 100, 100, 150, 100, 100, 100, 1, false, false, saved, atb, poses⟩, 20) := by
  rw [meleeSteps_succ, round_trip_trace _ _ _ _ _ _ _ 71 (le_refl _)]
  rfl

/-- C7 (melee round trip).  With source `(100, 100)`, destination `(150, 100)`,
current position `(100, 100)`, `monsterMoveFrame = 0`, `monsterApproach = true`,
`monsterCast = false` and no other slot approaching, after 72 battle ticks the
current position is `(100, 100)`, `monsterApproach` is false and `poseIndex`
is 1. -/
theorem melee_round_trip (s : State) (i : Fin MAX_MONSTERS)
    (hsx : (s.slots i).monsterSrcX = 100) (hsy : (s.slots i).monsterSrcY = 100)
    (hdx : (s.slots i).monsterDestX = 150) (hdy : (s.slots i).monsterDestY = 100)
    (hx : (s.slots i).monsterX = 100) (hy : (s.slots i).monsterY = 100)
    (hm : (s.slots i).monsterMoveFrame = 0)
    (ha : (s.slots i).monsterApproach = true) (hc : (s.slots i).monsterCast = false)
    (ho : ∀ j, j ≠ i → (s.slots j).monsterApproach = false) :
    ((battleTicks 72 s).slots i).monsterX = 100 ∧
      ((battleTicks 72 s).slots i).monsterY = 100 ∧
      ((battleTicks 72 s).slots i).monsterApproach = false ∧
      ((battleTicks 72 s).slots i).poseIndex = 1 := by
  have key : ∀ sl : Slot, sl.monsterSrcX = 100 → sl.monsterSrcY = 100 →
      sl.monsterDestX = 150 → sl.monsterDestY = 100 → sl.monsterX = 100 → sl.monsterY = 100 →
      sl.monsterMoveFrame = 0 → sl.monsterApproach = true → sl.monsterCast = false →
      sl = ⟨sl.poseIndex, sl.hurtTimer, sl.oldHP, 100, 100, 150, 100, 100, 100, 0, true, false,
        sl.monsterSrcSaved, sl.setInitialRandAtb, sl.monsterPoses⟩ := by
    intro sl h1 h2 h3 h4 h5 h6 h7 h8 h9
    cases sl
    simp only at h1 h2 h3 h4 h5 h6 h7 h8 h9
    subst h1 h2 h3 h4 h5 h6 h7 h8 h9
    rfl
  have hsl := key (s.slots i) hsx hsy hdx hdy hx hy hm ha hc
  have hrun : ∀ k, k < 72 →
      (meleeSteps k (s.slots i, s.jumpTick)).1.monsterApproach = true ∧
      (meleeSteps k (s.slots i, s.jumpTick)).1.monsterCast = false := by
    intro k hk
    rw [hsl, round_trip_trace _ _ _ _ _ _ _ k (by omega)]
    exact ⟨rfl, rfl⟩
  have h72 := (battleTicks_single 72 s i ho hrun).1
  rw [hsl, round_trip_end] at h72
  obtain ⟨hs, _⟩ := Prod.mk.inj h72
  rw [hs]
  exact ⟨rfl, rfl, rfl, rfl⟩

/-- Witness of C7: slot 0 of `meleeState`. -/
theorem melee_round_trip_witness :
    ((meleeState.slots 0).monsterSrcX = 100 ∧ (meleeState.slots 0).monsterSrcY = 100 ∧
      (meleeState.slots 0).monsterDestX = 150 ∧ (meleeState.slots 0).monsterDestY = 100 ∧
      (meleeState.slots 0).monsterX = 100 ∧ (meleeState.slots 0).monsterY = 100 ∧
      (meleeState.slots 0).monsterMoveFrame = 0 ∧
      (meleeState.slots 0).monsterApproach = true ∧
      (meleeState.slots 0).monsterCast = false ∧
      ∀ j : Fin MAX_MONSTERS, j ≠ 0 → (meleeState.slots j).monsterApproach = false) ∧
    (((battleTicks 72 meleeState).slots 0).monsterX = 100 ∧
      ((battleTicks 72 meleeState).slots 0).monsterY = 100 ∧
      ((battleTicks 72 meleeState).slots 0).monsterApproach = false ∧
      ((battleTicks 72 meleeState).slots 0).poseIndex = 1) :=
  ⟨⟨rfl, rfl, rfl, rfl, rfl, rfl, rfl, rfl, rfl, by decide⟩,
   melee_round_trip meleeState 0 rfl rfl rfl rfl rfl rfl rfl rfl rfl (by decide)⟩

/-! ### C8: the idle cycle -/

theorem battleTicks_add (m n : Nat) (s : State) :
    battleTicks (m + n) s = battleTicks n (battleTicks m s) := by
  induction m generalizing s with
  | zero => simp [battleTicks]
  | succ m ih =>
    have e : m + 1 + n = (m + n) + 1 := by omega
    rw [e]
    show battleTicks (m + n) (onFrame s Scene.SCENE_BATTLE) = _
    rw [ih]
    rfl

/-- A battle tick of a slot that is not approaching is the frame clock alone. -/
theorem onFrame_rest_slot (s : State) (i : Fin MAX_MONSTERS)
    (hr : (s.slots i).monsterApproach = false) :
    (onFrame s Scene.SCENE_BATTLE).slots i = (frameClock s).slots i ∧
      (onFrame s Scene.SCENE_BATTLE).frameTimer = (frameClock s).frameTimer := by
  rw [onFrame_battle]
  have h2 : ((frameClock s).slots i).monsterApproach = false := by
    rw [frameClock_approach]; exact hr
  exact ⟨moveLoop_rest _ _ i h2, moveLoop_frameTimer _ _⟩

/-- While the frame clock is below 10 a battle tick only increments it. -/
theorem onFrame_rest_count (s : State) (i : Fin MAX_MONSTERS)
    (hr : (s.slots i).monsterApproach = false) (hft : s.frameTimer < 10) :
    (onFrame s Scene.SCENE_BATTLE).slots i = s.slots i ∧
      (onFrame s Scene.SCENE_BATTLE).frameTimer = s.frameTimer + 1 := by
  obtain ⟨h1, h2⟩ := onFrame_rest_slot s i hr
  have hn : ¬ s.frameTimer + 1 > 10 := by omega
  rw [h1, h2]
  simp [frameClock, hn]

/-- The battle tick that finds the frame clock at 10 resets it and advances the
idle pose. -/
theorem onFrame_rest_rollover (s : State) (i : Fin MAX_MONSTERS)
    (hr : (s.slots i).monsterApproach = false) (hh : (s.slots i).hurtTimer = 0)
    (hft : s.frameTimer = 10) :
    (onFrame s Scene.SCENE_BATTLE).slots i =
        { s.slots i with poseIndex := ((s.slots i).poseIndex + 1).tmod 4 } ∧
      (onFrame s Scene.SCENE_BATTLE).frameTimer = 0 := by
  obtain ⟨h1, h2⟩ := onFrame_rest_slot s i hr
  rw [h1, h2]
  simp [frameClock, hft, idleAdvance, hh, hr]

/-- From a frame clock of 0, the first 10 battle ticks leave an idle slot as
it is and the 11th advances its pose and returns the clock to 0. -/
theorem idle_cycle (s : State) (i : Fin MAX_MONSTERS) (hft : s.frameTimer = 0)
    (hh : (s.slots i).hurtTimer = 0) (hr : (s.slots i).monsterApproach = false) :
    (∀ k, k ≤ 10 → (battleTicks k s).slots i = s.slots i ∧
        (battleTicks k s).frameTimer = (k : Int)) ∧
      (battleTicks 11 s).slots i =
        { s.slots i with poseIndex := ((s.slots i).poseIndex + 1).tmod 4 } ∧
      (battleTicks 11 s).frameTimer = 0 := by
  have h10 : ∀ k, k ≤ 10 → (battleTicks k s).slots i = s.slots i ∧
      (battleTicks k s).frameTimer = (k : Int) := by
    intro k
    induction k with
    | zero => intro _; exact ⟨rfl, by simp [battleTicks, hft]⟩
    | succ k ih =>
      intro hk
      obtain ⟨e1, e2⟩ := ih (by omega)
      rw [battleTicks_succ]
      obtain ⟨f1, f2⟩ := onFrame_rest_count (battleTicks k s) i (by rw [e1]; exact hr)
        (by rw [e2]; omega)
      exact ⟨by rw [f1, e1], by rw [f2, e2]; push_cast; rfl⟩
  refine ⟨h10, ?_⟩
  obtain ⟨e1, e2⟩ := h10 10 (le_refl _)
  have e : battleTicks 11 s = onFrame (battleTicks 10 s) Scene.SCENE_BATTLE :=
    battleTicks_succ 10 s
  obtain ⟨f1, f2⟩ := onFrame_rest_rollover (battleTicks 10 s) i (by rw [e1]; exact hr)
    (by rw [e1]; exact hh) (by rw [e2]; rfl)
  rw [e, f1, f2, e1]
  exact ⟨rfl, rfl⟩

/-- C8 (idle cycling rate), the code at the start state: slot 0 is idle with
`poseIndex = 0` and the frame clock is 0.  After 10 battle ticks the pose is
still 0; it advances on the 11th tick, stays 1 up to tick 21 and advances again
on tick 22.  Consecutive advances are 11 calls of `onFrame` apart, not 10. -/
theorem idle_advance_every_11_ticks :
    ((battleTicks 10 initialState).slots 0).poseIndex = 0 ∧
      ((battleTicks 11 initialState).slots 0).poseIndex = 1 ∧
      ((battleTicks 21 initialState).slots 0).poseIndex = 1 ∧
      ((battleTicks 22 initialState).slots 0).poseIndex = 2 := by
  obtain ⟨a1, a2, a3⟩ := idle_cycle initialState 0 rfl rfl rfl
  have b2 : ((battleTicks 11 initialState).slots 0).hurtTimer = 0 := by rw [a2]; rfl
  have b3 : ((battleTicks 11 initialState).slots 0).monsterApproach = false := by rw [a2]; rfl
  obtain ⟨c1, c2, _⟩ := idle_cycle (battleTicks 11 initialState) 0 a3 b2 b3
  have e21 : battleTicks 21 initialState = battleTicks 10 (battleTicks 11 initialState) :=
    battleTicks_add 11 10 initialState
  have e22 : battleTicks 22 initialState = battleTicks 11 (battleTicks 11 initialState) :=
    battleTicks_add 11 11 initialState
  refine ⟨?_, ?_, ?_, ?_⟩
  · rw [(a1 10 (le_refl _)).1]; rfl
  · rw [a2]; rfl
  · rw [e21, (c1 10 (le_refl _)).1, a2]; rfl
  · rw [e22, c2, a2]; rfl

/-! ### C9: the reset after a battle -/

theorem onDrawBattler_resetTable (s : State) (b : Battler) (m : Bool) (id : Int)
    (r : State × Battler) (h : onDrawBattler s b m id = some r) :
    r.1.resetTable = s.resetTable := by
  unfold onDrawBattler at h
  split at h
  · split at h
    · exact absurd h (by simp)
    · dsimp only at h
      split at h
      · exact absurd h (by simp)
      · split at h
        · exact absurd h (by simp)
        · rw [← Option.some.inj h]
  · rw [← Option.some.inj h]

theorem castAnimationStep_resetTable (s : State) (r : State × Option DrawCall)
    (h : castAnimationStep s = some r) : r.1.resetTable = s.resetTable := by
  unfold castAnimationStep at h
  split at h
  · split at h
    · split at h
      · exact absurd h (by simp)
      · split at h
        · rw [← Option.some.inj h]
        · rw [← Option.some.inj h]
    · rw [← Option.some.inj h]
  · rw [← Option.some.inj h]

theorem onBattlerDrawn_resetTable (s : State) (b : Battler) (m : Bool) (id : Int)
    (r : State × Battler × Option DrawCall) (h : onBattlerDrawn s b m id = some r) :
    r.1.resetTable = s.resetTable := by
  unfold onBattlerDrawn at h
  simp only at h
  split at h
  · exact absurd h (by simp)
  · split at h
    · exact absurd h (by simp)
    · rename_i s1 d hc
      rw [← Option.some.inj h]
      exact castAnimationStep_resetTable s (s1, d) hc

theorem onDoBattlerAction_resetTable (s : State) (pm : Int → Option Battler) (b : Battler)
    (r : State) (h : onDoBattlerAction s pm b = some r) : r.resetTable = s.resetTable := by
  unfold onDoBattlerAction at h
  split at h
  · split at h
    · exact absurd h (by simp)
    · simp only at h
      split at h
      · exact absurd h (by simp)
      · rw [← Option.some.inj h]
  · rw [← Option.some.inj h]

/-- C9 (battle-end reset).  A battle tick sets the pending-reset flag and the
draw and action callbacks keep it.  With the flag set, a call of `onFrame` in
a scene other than the battle resets every slot `i` to its defaults
(`poseIndex = i mod 4`, timers, recorded HP, coordinates and move counter 0,
flags false), leaves no cached pose handle and clears the flag; every further
call of `onFrame` outside the battle leaves the state as it is. -/
theorem battle_end_reset (s : State) (scene : Scene) (hsc : scene ≠ Scene.SCENE_BATTLE)
    (hflag : s.resetTable = true) :
    (∀ t : State, (onFrame t Scene.SCENE_BATTLE).resetTable = true) ∧
    (∀ (t : State) (b : Battler) (m : Bool) (id : Int) (r : State × Battler),
      onDrawBattler t b m id = some r → r.1.resetTable = t.resetTable) ∧
    (∀ (t : State) (b : Battler) (m : Bool) (id : Int) (r : State × Battler × Option DrawCall),
      onBattlerDrawn t b m id = some r → r.1.resetTable = t.resetTable) ∧
    (∀ (t : State) (pm : Int → Option Battler) (b : Battler) (r : State),
      onDoBattlerAction t pm b = some r → r.resetTable = t.resetTable) ∧
    (∀ i : Fin MAX_MONSTERS, (onFrame s scene).slots i =
      { poseIndex := ((i.val % 4 : Nat) : Int), hurtTimer := 0, oldHP := 0,
        monsterSrcX := 0, monsterSrcY := 0, monsterDestX := 0, monsterDestY := 0,
        monsterX := 0, monsterY := 0, monsterMoveFrame := 0, monsterApproach := false,
        monsterCast := false, monsterSrcSaved := false, setInitialRandAtb := false,
        monsterPoses := fun _ => none }) ∧
    (onFrame s scene).resetTable = false ∧
    (∀ scene2, scene2 ≠ Scene.SCENE_BATTLE →
      onFrame (onFrame s scene) scene2 = onFrame s scene) := by
  have hs : onFrame s scene = { initializeBattle s with resetTable := false } := by
    simp [onFrame, hsc, hflag]
  refine ⟨fun t => by rw [onFrame_battle], onDrawBattler_resetTable, onBattlerDrawn_resetTable,
    onDoBattlerAction_resetTable, ?_, by rw [hs], ?_⟩
  · intro i
    rw [hs]
    show initializeSlot i (s.slots i) = _
    unfold initializeSlot
    have h4 : ((i.val : Int)).tmod 4 = ((i.val % 4 : Nat) : Int) := by
      rw [Int.tmod_eq_emod (Int.ofNat_nonneg _) (by decide)]
      push_cast
      rfl
    have hp : (fun j => if ((s.slots i).monsterPoses j).isSome = true
          then Image.destroy ((s.slots i).monsterPoses j) else (s.slots i).monsterPoses j) =
        fun _ => none := by
      funext j
      cases h : (s.slots i).monsterPoses j <;> simp [Image.destroy]
    rw [h4, hp]
  · intro scene2 h2
    rw [hs]
    simp [onFrame, h2]

/-- Witness of C9: the battle ends while slot 0 approaches and slot 3 is hurt. -/
theorem battle_end_reset_witness :
    (Scene.SCENE_MAP ≠ Scene.SCENE_BATTLE ∧ midBattleState.resetTable = true) ∧
    (∀ i : Fin MAX_MONSTERS, (onFrame midBattleState Scene.SCENE_MAP).slots i =
      { poseIndex := ((i.val % 4 : Nat) : Int), hurtTimer := 0, oldHP := 0,
        monsterSrcX := 0, monsterSrcY := 0, monsterDestX := 0, monsterDestY := 0,
        monsterX := 0, monsterY := 0, monsterMoveFrame := 0, monsterApproach := false,
        monsterCast := false, monsterSrcSaved := false, setInitialRandAtb := false,
        monsterPoses := fun _ => none }) ∧
    (onFrame midBattleState Scene.SCENE_MAP).resetTable = false :=
  ⟨⟨by decide, rfl⟩,
   (battle_end_reset midBattleState Scene.SCENE_MAP (by decide) rfl).2.2.2.2.1,
   (battle_end_reset midBattleState Scene.SCENE_MAP (by decide) rfl).2.2.2.2.2.1⟩

/-! ### C10: the cast overlay -/

theorem index?_nat (n m : Nat) (h : m < n) : index? n (m : Int) = some ⟨m, h⟩ :=
  index?_val (⟨m, h⟩ : Fin n)

/-- The overlay step while the overlay is active and `castTimer < 91`. -/
theorem castAnimationStep_active (s : State) (ha : s.doCastAnimation = true)
    (hk : s.castTimer < 91) :
    ∃ (r : State × Option DrawCall) (f : Fin CAST_SPRITES),
      castAnimationStep s = some r ∧ f.val = s.castTimer / 7 ∧
      r.2 = (s.castAnimation f).map (castDraw s) ∧
      r.1.doCastAnimation = true ∧ r.1.castTimer = s.castTimer + 1 ∧
      r.1.castX = s.castX ∧ r.1.castY = s.castY := by
  have hf : s.castTimer / 7 < CAST_SPRITES := by
    show s.castTimer / 7 < 13
    omega
  have hi : index? CAST_SPRITES (castFrameIndex s : Int) = some ⟨s.castTimer / 7, hf⟩ :=
    index?_nat _ _ hf
  unfold castAnimationStep
  rw [if_pos ha, if_pos (show s.castTimer < CAST_SPRITES * 7 from hk)]
  simp only [hi]
  cases hc : s.castAnimation ⟨s.castTimer / 7, hf⟩ with
  | none => exact ⟨_, ⟨s.castTimer / 7, hf⟩, rfl, rfl, by rw [hc]; rfl, ha, rfl, rfl, rfl⟩
  | some img => exact ⟨_, ⟨s.castTimer / 7, hf⟩, rfl, rfl, by rw [hc]; rfl, ha, rfl, rfl, rfl⟩

/-- The overlay step once `castTimer` has reached 91. -/
theorem castAnimationStep_end (s : State) (ha : s.doCastAnimation = true)
    (hk : 91 ≤ s.castTimer) :
    castAnimationStep s = some ({ s with castTimer := 0, doCastAnimation := false }, none) := by
  unfold castAnimationStep
  rw [if_pos ha, if_neg (show ¬ s.castTimer < CAST_SPRITES * 7 from by show ¬ s.castTimer < 91; omega)]

theorem castAnimationStep_inactive (s : State) (ha : s.doCastAnimation = false) :
    castAnimationStep s = some (s, none) := by
  unfold castAnimationStep
  rw [if_neg (by simp [ha])]

/-- A call with its slot id in range is the overlay step, with the image of
the battler restored. -/
theorem onBattlerDrawn_eq (s : State) (c : Battler × Bool × Int) (hv : slotInRange c)
    (r : State × Option DrawCall) (hr : castAnimationStep s = some r) :
    onBattlerDrawn s c.1 c.2.1 c.2.2 = some (r.1, restoreImage s c.1 c.2.1, r.2) := by
  unfold onBattlerDrawn restoreImage
  cases hm : c.2.1 with
  | false => simp [hr]
  | true =>
    obtain ⟨i, hi⟩ := hv hm
    simp [hi, hr]

/-- Calls while the overlay is active and `castTimer` stays at most 91: each
call increments `castTimer`. -/
theorem drawnRun_active (cs : List (Battler × Bool × Int)) (s : State)
    (ha : s.doCastAnimation = true) (hk : s.castTimer + cs.length ≤ 91)
    (hv : ∀ c ∈ cs, slotInRange c) :
    ∃ r, drawnRun s cs = some r ∧ r.doCastAnimation = true ∧
      r.castTimer = s.castTimer + cs.length ∧ r.castX = s.castX ∧ r.castY = s.castY := by
  induction cs generalizing s with
  | nil => exact ⟨s, rfl, ha, rfl, rfl, rfl⟩
  | cons c cs ih =>
    have hl : s.castTimer + (cs.length + 1) ≤ 91 := hk
    obtain ⟨r, f, hr, _, _, h1, h2, h3, h4⟩ := castAnimationStep_active s ha (by omega)
    have hd := onBattlerDrawn_eq s c (hv c (List.mem_cons_self _ _)) r hr
    obtain ⟨r2, g0, g1, g2, g3, g4⟩ := ih r.1 h1 (by rw [h2]; omega)
      (fun d hd => hv d (List.mem_cons_of_mem _ hd))
    refine ⟨r2, ?_, g1, ?_, by rw [g3, h3], by rw [g4, h4]⟩
    · simp only [drawnRun, hd]
      exact g0
    · rw [g2, h2, List.length_cons]
      omega

/-- Calls that take an active overlay past `castTimer = 91`: the last one
deactivates it. -/
theorem drawnRun_finish (cs : List (Battler × Bool × Int)) (s : State)
    (ha : s.doCastAnimation = true) (hk : s.castTimer ≤ 91)
    (hl : s.castTimer + cs.length = 92)
    (hv : ∀ c ∈ cs, slotInRange c) :
    ∃ r, drawnRun s cs = some r ∧ r.doCastAnimation = false ∧ r.castTimer = 0 := by
  induction cs generalizing s with
  | nil => simp only [List.length_nil] at hl; omega
  | cons c cs ih =>
    have hl2 : s.castTimer + (cs.length + 1) = 92 := hl
    by_cases he : s.castTimer = 91
    · have hnil : cs = [] := List.length_eq_zero.mp (by omega)
      subst hnil
      have hd := onBattlerDrawn_eq s c (hv c (List.mem_cons_self _ _)) _
        (castAnimationStep_end s ha (by omega))
      exact ⟨{ s with castTimer := 0, doCastAnimation := false },
        by simp only [drawnRun, hd], rfl, rfl⟩
    · obtain ⟨r, f, hr, _, _, h1, h2, _, _⟩ := castAnimationStep_active s ha (by omega)
      have hd := onBattlerDrawn_eq s c (hv c (List.mem_cons_self _ _)) r hr
      obtain ⟨r2, g0, g1, g2⟩ := ih r.1 h1 (by rw [h2]; omega) (by rw [h2]; omega)
        (fun d hd => hv d (List.mem_cons_of_mem _ hd))
      refine ⟨r2, ?_, g1, g2⟩
      simp only [drawnRun, hd]
      exact g0

/-- C10 (cast overlay timeline).  From an active overlay with `castTimer = 0`:
after `n ≤ 91` calls of `onBattlerDrawn` the overlay is active with
`castTimer = n` and its anchor unchanged, and for `n < 91` the next call reads
frame `n / 7`, which is below 13, draws it at `(castX - 48, castY - 68)` when
it is cached, stays active and increments `castTimer`; frame `f` is the one
read in the calls numbered `7 f` to `7 f + 6`; 92 calls end with the overlay
inactive and `castTimer = 0`.  While the overlay is inactive a call leaves the
state unchanged. -/
theorem cast_overlay_timeline (s : State) (ha : s.doCastAnimation = true)
    (h0 : s.castTimer = 0) :
    (∀ cs : List (Battler × Bool × Int), cs.length ≤ 91 → (∀ c ∈ cs, slotInRange c) →
      ∃ r, drawnRun s cs = some r ∧ r.doCastAnimation = true ∧ r.castTimer = cs.length ∧
        r.castX = s.castX ∧ r.castY = s.castY ∧
        (cs.length < 91 → ∀ c, slotInRange c →
          ∃ (r2 : State × Battler × Option DrawCall) (f : Fin CAST_SPRITES),
            onBattlerDrawn r c.1 c.2.1 c.2.2 = some r2 ∧
            castFrameIndex r = cs.length / 7 ∧ f.val = castFrameIndex r ∧
            r2.2.2 = (r.castAnimation f).map (castDraw r) ∧
            r2.1.doCastAnimation = true ∧ r2.1.castTimer = cs.length + 1)) ∧
    (∀ f k : Nat, f < CAST_SPRITES → (k / 7 = f ↔ 7 * f ≤ k ∧ k < 7 * f + 7)) ∧
    (∀ cs : List (Battler × Bool × Int), cs.length = 92 → (∀ c ∈ cs, slotInRange c) →
      ∃ r, drawnRun s cs = some r ∧ r.doCastAnimation = false ∧ r.castTimer = 0) ∧
    (∀ (t : State) (c : Battler × Bool × Int), t.doCastAnimation = false → slotInRange c →
      onBattlerDrawn t c.1 c.2.1 c.2.2 = some (t, restoreImage t c.1 c.2.1, none)) := by
  refine ⟨?_, ?_, ?_, ?_⟩
  · intro cs hl hv
    obtain ⟨r, g0, g1, g2, g3, g4⟩ := drawnRun_active cs s ha (by rw [h0]; omega) hv
    rw [h0, Nat.zero_add] at g2
    refine ⟨r, g0, g1, g2, g3, g4, ?_⟩
    intro hlt c hc
    obtain ⟨r2, f, hr, e1, e2, e3, e4, _, _⟩ :=
      castAnimationStep_active r g1 (by rw [g2]; omega)
    refine ⟨_, f, onBattlerDrawn_eq r c hc r2 hr, by rw [castFrameIndex, g2], e1, e2, e3, ?_⟩
    rw [← g2]
    exact e4
  · intro f k _
    omega
  · intro cs hl hv
    exact drawnRun_finish cs s ha (by rw [h0]; omega) (by rw [h0, hl]) hv
  · intro t c ht hc
    exact onBattlerDrawn_eq t c hc _ (castAnimationStep_inactive t ht)

/-- Witness of C10: three calls on `castState`, two for monsters and one for an
actor. -/
theorem cast_overlay_timeline_witness :
    (castState.doCastAnimation = true ∧ castState.castTimer = 0) ∧
    ∃ r, drawnRun castState
        [(monsterAt 200 100 30, true, 0), (monsterAt 180 60 12, true, 1), (heroActor, false, 0)]
        = some r ∧ r.doCastAnimation = true ∧ r.castTimer = 3 ∧
      r.castX = castState.castX ∧ r.castY = castState.castY :=
  ⟨⟨rfl, rfl⟩,
   by
    obtain ⟨r, g0, g1, g2, g3, g4, _⟩ :=
      (cast_overlay_timeline castState rfl rfl).1
        [(monsterAt 200 100 30, true, 0), (monsterAt 180 60 12, true, 1), (heroActor, false, 0)]
        (by decide)
        (by
          intro c hc
          simp only [List.mem_cons, List.mem_singleton, List.not_mem_nil, or_false] at hc
          rcases hc with h | h | h <;> subst h <;> intro hm
          · exact ⟨0, rfl⟩
          · exact ⟨1, rfl⟩
          · exact absurd hm (by decide))
    exact ⟨r, g0, g1, g2, g3, g4⟩⟩

/-! ## The cast sequence -/

theorem castSteps_succ (n : Nat) (sl : Slot) :
    castSteps (n + 1) sl = castStep (castSteps n sl) := by
  induction n generalizing sl with
  | zero => rfl
  | succ n ih =>
    show castSteps (n + 1) (castStep sl) = _
    rw [ih]
    rfl

/-- The casting branch of `updateMonster`, seen from the slot it writes. -/
theorem updateMonster_cast (s : State) (i : Fin MAX_MONSTERS)
    (ha : (s.slots i).monsterApproach = true) (hc : (s.slots i).monsterCast = true) :
    (updateMonster s i).slots i = castStep (s.slots i) := by
  rw [(updateMonster_cast_eq s i ha hc).1]
  exact setAt_same _ _ _

/-- One battle tick of a slot in a cast sequence is one `castStep`, whatever
the other slots do. -/
theorem onFrame_cast_slot (s : State) (i : Fin MAX_MONSTERS)
    (ha : (s.slots i).monsterApproach = true) (hc : (s.slots i).monsterCast = true) :
    (onFrame s Scene.SCENE_BATTLE).slots i = castStep (s.slots i) := by
  rw [onFrame_battle]
  obtain ⟨pre, h1, h2⟩ := moveLoop_slot (List.finRange MAX_MONSTERS) (frameClock s) i
    (List.nodup_finRange _) (List.mem_finRange i)
  rw [frameClock_approaching s i ha] at h1
  show ((List.finRange MAX_MONSTERS).foldl updateMonster (frameClock s)).slots i = _
  rw [h2, updateMonster_cast pre i (by rw [h1]; exact ha) (by rw [h1]; exact hc), h1]

/-- Battle ticks of a slot in a cast sequence follow `castSteps` as long as the
sequence runs. -/
theorem battleTicks_cast (n : Nat) (s : State) (i : Fin MAX_MONSTERS)
    (hrun : ∀ k, k < n →
      (castSteps k (s.slots i)).monsterApproach = true ∧
      (castSteps k (s.slots i)).monsterCast = true) :
    (battleTicks n s).slots i = castSteps n (s.slots i) := by
  induction n with
  | zero => rfl
  | succ n ih =>
    have h1 := ih (fun k hk => hrun k (by omega))
    have hr := hrun n (by omega)
    rw [← h1] at hr
    rw [battleTicks_succ, castSteps_succ, ← h1]
    exact onFrame_cast_slot _ i hr.1 hr.2

/-- Truncating quotients by 5 that occur in the cast sequence. -/
theorem tdiv_facts :
    Int.tdiv 0 5 = 0 ∧ Int.tdiv 10 5 = 2 ∧ Int.tdiv 20 5 = 4 ∧ Int.tdiv 30 5 = 6 ∧
      Int.tdiv 40 5 = 8 ∧ Int.tdiv (-10) 5 = -2 ∧ Int.tdiv (-20) 5 = -4 ∧
      Int.tdiv (-30) 5 = -6 ∧ Int.tdiv (-40) 5 = -8 := by decide

set_option maxHeartbeats 1000000 in
/-- The cast sequence from `(a, b)` with destination `(a + 10, b)`, tick by
tick: pose, position and move counter after `k ≤ 76` steps. -/
theorem cast_trace (a b pose hurt hp : Int) (sv atb : Bool)
    (poses : Fin NUM_POSES → Option Image) (k : Nat) (hk : k ≤ 76) :
    castSteps k ⟨pose, hurt, hp, a, b, a + 10, b, a, b, 0, true, true, sv, atb, poses⟩ =
      ⟨if k = 0 then pose else if k ≤ 15 then 7 else if k ≤ 20 then 9
          else if k ≤ 25 then 10 else if k ≤ 71 then 11 else 8,
        hurt, hp, a, b, a + 10, b,
        a + (if k = 0 then 0 else if k ≤ 5 then 2 * ((k : Int) - 1) else if k ≤ 72 then 8
          else if k ≤ 75 then 2 * (76 - (k : Int)) else 2),
        b, (k : Int), true, true, sv, atb, poses⟩ := by
  induction k with
  | zero => simp [castSteps]
  | succ k ih =>
    rw [castSteps_succ, ih (by omega)]
    have hk2 : k < 76 := by omega
    clear ih hk
    obtain ⟨t0, t1, t2, t3, t4, t5, t6, t7, t8⟩ := tdiv_facts
    interval_cases k <;>
      simp [castStep, castUpdate, cabs, t0, t1, t2, t3, t4, t5, t6, t7, t8] <;> omega

/-- The step for `monsterMoveFrame = 76` ends the cast sequence: the slot is
back at its source with pose 1, both flags are cleared, and the move counter,
reset to 0, has been incremented to 1. -/
theorem cast_end (a b pose hurt hp : Int) (sv atb : Bool)
    (poses : Fin NUM_POSES → Option Image) :
    castSteps 77 ⟨pose, hurt, hp, a, b, a + 10, b, a, b, 0, true, true, sv, atb, poses⟩ =
      ⟨1, hurt, hp, a, b, a + 10, b, a, b, 1, false, false, sv, atb, poses⟩ := by
  rw [castSteps_succ, cast_trace _ _ _ _ _ _ _ _ 76 (le_refl _)]
  simp [castStep, castUpdate, cabs]

/-- A slot with the fields of the start of a cast sequence at `(a, b)`. -/
theorem cast_start_eq (sl : Slot) (a b : Int) (hsx : sl.monsterSrcX = a)
    (hsy : sl.monsterSrcY = b) (hdx : sl.monsterDestX = a + 10) (hdy : sl.monsterDestY = b)
    (hx : sl.monsterX = a) (hy : sl.monsterY = b) (hm : sl.monsterMoveFrame = 0)
    (ha : sl.monsterApproach = true) (hc : sl.monsterCast = true) :
    sl = ⟨sl.poseIndex, sl.hurtTimer, sl.oldHP, a, b, a + 10, b, a, b, 0, true, true,
      sl.monsterSrcSaved, sl.setInitialRandAtb, sl.monsterPoses⟩ := by
  cases sl
  simp only at hsx hsy hdx hdy hx hy hm ha hc
  subst hsx hsy hdx hdy hx hy hm ha hc
  rfl

/-- The anchor reported by the casting branch at `monsterMoveFrame = 10` is the
current position, which that step does not change. -/
theorem castUpdate_activate (sl : Slot) (hm : sl.monsterMoveFrame = 10) :
    (castUpdate sl).2.2 = some (sl.monsterX, sl.monsterY) ∧
      (castUpdate sl).1.monsterX = sl.monsterX ∧ (castUpdate sl).1.monsterY = sl.monsterY := by
  simp [castUpdate, hm]

/-- The loop iteration of a casting slot at `monsterMoveFrame = 10`: the overlay
is switched on, the anchor is the current position of the slot, and
`castTimer` is not written. -/
theorem updateMonster_activate (s : State) (i : Fin MAX_MONSTERS)
    (ha : (s.slots i).monsterApproach = true) (hc : (s.slots i).monsterCast = true)
    (hm : (s.slots i).monsterMoveFrame = 10) :
    (updateMonster s i).doCastAnimation = true ∧
      (updateMonster s i).castX = (s.slots i).monsterX ∧
      (updateMonster s i).castY = (s.slots i).monsterY ∧
      (updateMonster s i).castTimer = s.castTimer ∧
      ((updateMonster s i).slots i).monsterX = (s.slots i).monsterX ∧
      ((updateMonster s i).slots i).monsterY = (s.slots i).monsterY := by
  obtain ⟨e1, e2, e3⟩ := castUpdate_activate (s.slots i) hm
  have hc2 : ¬ (s.slots i).monsterCast = false := by simp [hc]
  refine ⟨?_, ?_, ?_, ?_, ?_, ?_⟩
  · unfold updateMonster
    rw [if_pos ha, if_neg hc2]
    simp only [e1]
  · unfold updateMonster
    rw [if_pos ha, if_neg hc2]
    simp only [e1]
  · unfold updateMonster
    rw [if_pos ha, if_neg hc2]
    simp only [e1]
  · unfold updateMonster
    rw [if_pos ha, if_neg hc2]
    simp only [e1]
  · rw [updateMonster_cast s i ha hc]
    exact e2
  · rw [updateMonster_cast s i ha hc]
    exact e3

/-- A battle tick when slot `i` is the only slot that approaches: the state
after the tick is the loop iteration for `i` on the state left by the frame
clock, with the reset flag set. -/
theorem onFrame_single_eq (s : State) (i : Fin MAX_MONSTERS)
    (ho : ∀ j, j ≠ i → (s.slots j).monsterApproach = false) :
    onFrame s Scene.SCENE_BATTLE =
      { updateMonster (frameClock s) i with resetTable := true } := by
  rw [onFrame_battle]
  have ho2 : ∀ j, j ≠ i → ((frameClock s).slots j).monsterApproach = false := by
    intro j hj
    rw [frameClock_approach]
    exact ho j hj
  rw [moveLoop_single (List.finRange MAX_MONSTERS) (frameClock s) i
    (List.nodup_finRange _) (List.mem_finRange i) ho2]

theorem frameClock_cast_globals (s : State) :
    (frameClock s).castTimer = s.castTimer ∧ (frameClock s).castX = s.castX ∧
      (frameClock s).castY = s.castY ∧
      (frameClock s).doCastAnimation = s.doCastAnimation := by
  unfold frameClock
  by_cases h : s.frameTimer + 1 > 10
  · simp only [h, if_true, and_self]
  · simp only [h, if_false, and_self]

/-- Battle ticks keep every slot other than `i` at rest when they were at
rest. -/
theorem battleTicks_others_rest (n : Nat) (s : State) (i : Fin MAX_MONSTERS)
    (ho : ∀ j, j ≠ i → (s.slots j).monsterApproach = false) :
    ∀ j, j ≠ i → ((battleTicks n s).slots j).monsterApproach = false := by
  induction n with
  | zero => exact ho
  | succ n ih =>
    intro j hj
    rw [battleTicks_succ]
    exact onFrame_rest_approach _ j (ih j hj)

/-! ### C11: the cast round trip -/

/-- C11 (cast sequence round trip).  For every source `(a, b)`, a cast sequence
that starts at rest with destination `(a + 10, b)` stands at `(a + 8, b)` with
`monsterMoveFrame = 10` after 10 battle ticks; the loop iteration that then
processes the slot switches the overlay on with the anchor at that position,
and so does the 11th tick as a whole when no other slot is approaching; after
77 battle ticks the current position is the source, and `monsterApproach` and
`monsterCast` are false. -/
theorem cast_round_trip (s : State) (i : Fin MAX_MONSTERS) (a b : Int)
    (hsx : (s.slots i).monsterSrcX = a) (hsy : (s.slots i).monsterSrcY = b)
    (hdx : (s.slots i).monsterDestX = a + 10) (hdy : (s.slots i).monsterDestY = b)
    (hx : (s.slots i).monsterX = a) (hy : (s.slots i).monsterY = b)
    (hm : (s.slots i).monsterMoveFrame = 0)
    (ha : (s.slots i).monsterApproach = true) (hc : (s.slots i).monsterCast = true) :
    (((battleTicks 10 s).slots i).monsterMoveFrame = 10 ∧
      ((battleTicks 10 s).slots i).monsterX = a + 8 ∧
      ((battleTicks 10 s).slots i).monsterY = b) ∧
    (∀ t : State, t.slots i = (battleTicks 10 s).slots i →
      (updateMonster t i).doCastAnimation = true ∧
      (updateMonster t i).castX = a + 8 ∧ (updateMonster t i).castY = b ∧
      ((updateMonster t i).slots i).monsterX = a + 8 ∧
      ((updateMonster t i).slots i).monsterY = b) ∧
    ((∀ j, j ≠ i → (s.slots j).monsterApproach = false) →
      (battleTicks 11 s).doCastAnimation = true ∧
      (battleTicks 11 s).castX = ((battleTicks 11 s).slots i).monsterX ∧
      (battleTicks 11 s).castY = ((battleTicks 11 s).slots i).monsterY) ∧
    (((battleTicks 77 s).slots i).monsterX = a ∧
      ((battleTicks 77 s).slots i).monsterY = b ∧
      ((battleTicks 77 s).slots i).monsterApproach = false ∧
      ((battleTicks 77 s).slots i).monsterCast = false) := by
  have hsl := cast_start_eq (s.slots i) a b hsx hsy hdx hdy hx hy hm ha hc
  have hrun : ∀ k, k < 77 →
      (castSteps k (s.slots i)).monsterApproach = true ∧
      (castSteps k (s.slots i)).monsterCast = true := by
    intro k hk
    rw [hsl, cast_trace _ _ _ _ _ _ _ _ k (by omega)]
    exact ⟨rfl, rfl⟩
  have h10 : (battleTicks 10 s).slots i =
      ⟨7, (s.slots i).hurtTimer, (s.slots i).oldHP, a, b, a + 10, b, a + 8, b, 10, true, true,
        (s.slots i).monsterSrcSaved, (s.slots i).setInitialRandAtb,
        (s.slots i).monsterPoses⟩ := by
    rw [battleTicks_cast 10 s i (fun k hk => hrun k (by omega)), hsl,
      cast_trace _ _ _ _ _ _ _ _ 10 (by omega)]
    simp
  have hact : ∀ t : State, t.slots i = (battleTicks 10 s).slots i →
      (updateMonster t i).doCastAnimation = true ∧
      (updateMonster t i).castX = a + 8 ∧ (updateMonster t i).castY = b ∧
      ((updateMonster t i).slots i).monsterX = a + 8 ∧
      ((updateMonster t i).slots i).monsterY = b := by
    intro t ht
    rw [h10] at ht
    obtain ⟨e1, e2, e3, _, e5, e6⟩ := updateMonster_activate t i (by rw [ht]) (by rw [ht])
      (by rw [ht])
    rw [ht] at e2 e3 e5 e6
    exact ⟨e1, e2, e3, e5, e6⟩
  refine ⟨?_, hact, ?_, ?_⟩
  · rw [h10]
    exact ⟨rfl, rfl, rfl⟩
  · intro ho
    have ho10 := battleTicks_others_rest 10 s i ho
    have e11 : battleTicks 11 s = onFrame (battleTicks 10 s) Scene.SCENE_BATTLE :=
      battleTicks_succ 10 s
    have hfc : (frameClock (battleTicks 10 s)).slots i = (battleTicks 10 s).slots i :=
      frameClock_approaching _ i (by rw [h10])
    rw [e11, onFrame_single_eq _ i ho10]
    generalize frameClock (battleTicks 10 s) = u at hfc
    obtain ⟨e1, e2, e3, e4, e5⟩ := hact u hfc
    refine ⟨?_, ?_, ?_⟩
    · show (updateMonster u i).doCastAnimation = true
      exact e1
    · show (updateMonster u i).castX = ((updateMonster u i).slots i).monsterX
      rw [e2, e4]
    · show (updateMonster u i).castY = ((updateMonster u i).slots i).monsterY
      rw [e3, e5]
  · rw [battleTicks_cast 77 s i hrun, hsl, cast_end]
    exact ⟨rfl, rfl, rfl, rfl⟩

/-- Witness of C11: slot 0 of `castSeqState` casts from `(100, 100)`. -/
theorem cast_round_trip_witness :
    ((castSeqState.slots 0).monsterSrcX = 100 ∧ (castSeqState.slots 0).monsterSrcY = 100 ∧
      (castSeqState.slots 0).monsterDestX = 100 + 10 ∧
      (castSeqState.slots 0).monsterDestY = 100 ∧
      (castSeqState.slots 0).monsterX = 100 ∧ (castSeqState.slots 0).monsterY = 100 ∧
      (castSeqState.slots 0).monsterMoveFrame = 0 ∧
      (castSeqState.slots 0).monsterApproach = true ∧
      (castSeqState.slots 0).monsterCast = true) ∧
    (((battleTicks 77 castSeqState).slots 0).monsterX = 100 ∧
      ((battleTicks 77 castSeqState).slots 0).monsterY = 100 ∧
      ((battleTicks 77 castSeqState).slots 0).monsterApproach = false ∧
      ((battleTicks 77 castSeqState).slots 0).monsterCast = false) :=
  ⟨⟨rfl, rfl, rfl, rfl, rfl, rfl, rfl, rfl, rfl⟩,
   (cast_round_trip castSeqState 0 100 100 rfl rfl rfl rfl rfl rfl rfl rfl rfl).2.2.2⟩

/-! ## What a callback that returns has done -/

/-- A draw call that returns either was not for a monster and changed nothing,
or wrote slot `id` with the scalars of `drawTimers` and saved the old image. -/
theorem onDrawBattler_inv (s : State) (b : Battler) (m : Bool) (id : Int)
    (r : State × Battler) (h : onDrawBattler s b m id = some r) :
    r.1 = s ∨ ∃ (i : Fin MAX_MONSTERS) (sl : Slot) (op : Option Image),
      m = true ∧ index? MAX_MONSTERS id = some i ∧
      sl = { drawTimers s.frameTimer b (s.slots i) with monsterPoses := sl.monsterPoses } ∧
      r.1 = { s with slots := setAt s.slots i sl, oldPose := op } := by
  unfold onDrawBattler at h
  split at h
  · rename_i hm
    split at h
    · exact absurd h (by simp)
    · rename_i i hi
      dsimp only at h
      split at h
      · exact absurd h (by simp)
      · split at h
        · exact absurd h (by simp)
        · right
          rw [← Option.some.inj h]
          refine ⟨i, _, _, hm, hi, ?_, rfl⟩
          split <;> rfl
  · left
    rw [← Option.some.inj h]

/-- The overlay step writes only the overlay globals. -/
theorem castAnimationStep_keeps (s : State) (r : State × Option DrawCall)
    (h : castAnimationStep s = some r) :
    r.1.slots = s.slots ∧ r.1.frameTimer = s.frameTimer ∧ r.1.jumpTick = s.jumpTick := by
  unfold castAnimationStep at h
  split at h
  · split at h
    · split at h
      · exact absurd h (by simp)
      · split at h
        · rw [← Option.some.inj h]; exact ⟨rfl, rfl, rfl⟩
        · rw [← Option.some.inj h]; exact ⟨rfl, rfl, rfl⟩
    · rw [← Option.some.inj h]; exact ⟨rfl, rfl, rfl⟩
  · rw [← Option.some.inj h]; exact ⟨rfl, rfl, rfl⟩

theorem onBattlerDrawn_keeps (s : State) (b : Battler) (m : Bool) (id : Int)
    (r : State × Battler × Option DrawCall) (h : onBattlerDrawn s b m id = some r) :
    r.1.slots = s.slots ∧ r.1.frameTimer = s.frameTimer ∧ r.1.jumpTick = s.jumpTick := by
  unfold onBattlerDrawn at h
  simp only at h
  split at h
  · exact absurd h (by simp)
  · split at h
    · exact absurd h (by simp)
    · rename_i s1 d hc
      rw [← Option.some.inj h]
      exact castAnimationStep_keeps s (s1, d) hc

/-- An action callback that returns either was not for a monster and changed
nothing, or wrote slot `id - 1`, leaving it approaching with its pose, source
and position as they were. -/
theorem onDoBattlerAction_inv (s : State) (pm : Int → Option Battler) (b : Battler)
    (r : State) (h : onDoBattlerAction s pm b = some r) :
    r = s ∨ ∃ (i : Fin MAX_MONSTERS) (sl : Slot),
      index? MAX_MONSTERS (b.id - 1) = some i ∧
      r = { s with slots := setAt s.slots i sl } ∧
      sl.poseIndex = (s.slots i).poseIndex ∧ sl.monsterApproach = true := by
  unfold onDoBattlerAction at h
  split at h
  · split at h
    · exact absurd h (by simp)
    · rename_i i hi
      simp only at h
      split at h
      · exact absurd h (by simp)
      · rename_i sl hsl
        right
        refine ⟨i, _, hi, (Option.some.inj h).symm, ?_, rfl⟩
        show sl.poseIndex = (s.slots i).poseIndex
        split at hsl
        · split at hsl
          · exact absurd hsl (by simp)
          · split at hsl
            · split at hsl
              · exact absurd hsl (by simp)
              · rw [← Option.some.inj hsl]
            · rw [← Option.some.inj hsl]
        · rw [← Option.some.inj hsl]
  · left
    rw [← Option.some.inj h]

/-! ## The pose index -/

/-- The pose chosen by `drawTimers` is the dead pose, the hurt pose or the pose
it found. -/
theorem drawTimers_pose (ft : Int) (b : Battler) (sl : Slot) :
    (drawTimers ft b sl).poseIndex = 4 ∨
      (drawTimers ft b sl).poseIndex = 5 + (ft - 1).tdiv 5 ∨
      (drawTimers ft b sl).poseIndex = sl.poseIndex := by
  unfold drawTimers
  by_cases hs : sl.monsterSrcSaved = false <;>
  by_cases hlt : b.hp < sl.oldHP <;>
  by_cases hgt : b.hp > sl.oldHP <;>
  by_cases hh : sl.hurtTimer > 0 <;>
  by_cases hd : b.hp ≤ 0 <;>
  simp [hs, hlt, hgt, hh, hd]

/-- The melee branch leaves the pose as it is or sets one of the poses 1, 7, 8,
9, 10, 11. -/
theorem meleeUpdate_pose (sl : Slot) (jt : Nat) (h0 : 0 ≤ sl.poseIndex)
    (h1 : sl.poseIndex ≤ 11) :
    0 ≤ (meleeUpdate sl jt).1.poseIndex ∧ (meleeUpdate sl jt).1.poseIndex ≤ 11 := by
  unfold meleeUpdate
  dsimp only
  split_ifs <;> first | omega | (dsimp only; omega)

/-- The casting branch leaves the pose as it is or sets one of the poses 1, 7,
8, 9, 10, 11. -/
theorem castUpdate_pose (sl : Slot) (h0 : 0 ≤ sl.poseIndex) (h1 : sl.poseIndex ≤ 11) :
    0 ≤ (castUpdate sl).1.poseIndex ∧ (castUpdate sl).1.poseIndex ≤ 11 := by
  unfold castUpdate
  dsimp only
  split_ifs <;> first | omega | (dsimp only; omega)

theorem idle_pose_range (p : Int) (h0 : 0 ≤ p) (h1 : p ≤ 11) :
    0 ≤ (p + 1).tmod 4 ∧ (p + 1).tmod 4 ≤ 11 := by
  interval_cases p <;> decide

theorem frameClock_poseInRange (s : State) (h : PoseInRange s) : PoseInRange (frameClock s) := by
  obtain ⟨⟨f0, f1⟩, hp⟩ := h
  unfold frameClock
  by_cases hc : s.frameTimer + 1 > 10
  · simp only [hc, if_true]
    refine ⟨⟨le_refl _, by show (0 : Int) ≤ 10; decide⟩, fun i => ?_⟩
    show 0 ≤ (idleAdvance (s.slots i)).poseIndex ∧ (idleAdvance (s.slots i)).poseIndex ≤ 11
    unfold idleAdvance
    split
    · exact idle_pose_range _ (hp i).1 (hp i).2
    · exact hp i
  · simp only [hc, if_false]
    exact ⟨⟨by show 0 ≤ s.frameTimer + 1; omega, by show s.frameTimer + 1 ≤ 10; omega⟩, hp⟩

theorem updateMonster_poseInRange (s : State) (i : Fin MAX_MONSTERS) (h : PoseInRange s) :
    PoseInRange (updateMonster s i) := by
  obtain ⟨hf, hp⟩ := h
  refine ⟨by rw [updateMonster_frameTimer]; exact hf, fun j => ?_⟩
  by_cases e : j = i
  · subst e
    cases ha : (s.slots j).monsterApproach
    · rw [updateMonster_rest s j ha]
      exact hp j
    · cases hc : (s.slots j).monsterCast
      · rw [(updateMonster_melee s j ha hc).1]
        exact meleeUpdate_pose _ _ (hp j).1 (hp j).2
      · rw [updateMonster_cast s j ha hc]
        exact castUpdate_pose _ (hp j).1 (hp j).2
  · rw [updateMonster_other s i j e]
    exact hp j

theorem moveLoop_poseInRange (l : List (Fin MAX_MONSTERS)) (s : State) (h : PoseInRange s) :
    PoseInRange (l.foldl updateMonster s) := by
  induction l generalizing s with
  | nil => exact h
  | cons a l ih => exact ih _ (updateMonster_poseInRange s a h)

theorem initializeSlot_pose (i : Fin MAX_MONSTERS) (sl : Slot) :
    0 ≤ (initializeSlot i sl).poseIndex ∧ (initializeSlot i sl).poseIndex ≤ 11 := by
  show 0 ≤ (i.val : Int).tmod 4 ∧ (i.val : Int).tmod 4 ≤ 11
  fin_cases i <;> decide

theorem onFrame_poseInRange (s : State) (scene : Scene) (h : PoseInRange s) :
    PoseInRange (onFrame s scene) := by
  unfold onFrame
  by_cases hb : scene = Scene.SCENE_BATTLE
  · rw [if_pos hb]
    exact moveLoop_poseInRange _ _ (frameClock_poseInRange s h)
  · rw [if_neg hb]
    by_cases hr : s.resetTable = true
    · rw [if_pos hr]
      exact ⟨h.1, fun i => initializeSlot_pose i (s.slots i)⟩
    · rw [if_neg hr]
      exact h

theorem onDrawBattler_poseInRange (s : State) (b : Battler) (m : Bool) (id : Int)
    (r : State × Battler) (hr : onDrawBattler s b m id = some r) (h : PoseInRange s) :
    PoseInRange r.1 := by
  rcases onDrawBattler_inv s b m id r hr with e | ⟨i, sl, op, _, _, hsl, e⟩
  · rw [e]; exact h
  · obtain ⟨hf, hp⟩ := h
    rw [e]
    refine ⟨hf, fun j => ?_⟩
    show 0 ≤ (setAt s.slots i sl j).poseIndex ∧ (setAt s.slots i sl j).poseIndex ≤ 11
    by_cases ej : j = i
    · subst ej
      rw [setAt_same, hsl]
      show 0 ≤ (drawTimers s.frameTimer b (s.slots j)).poseIndex ∧
        (drawTimers s.frameTimer b (s.slots j)).poseIndex ≤ 11
      obtain ⟨q0, q1⟩ := hurt_pose_range s.frameTimer hf.1 hf.2
      have hj := hp j
      rcases drawTimers_pose s.frameTimer b (s.slots j) with p | p | p <;> rw [p] <;> omega
    · rw [setAt_other _ _ _ _ ej]
      exact hp j

theorem onDoBattlerAction_poseInRange (s : State) (pm : Int → Option Battler) (b : Battler)
    (r : State) (hr : onDoBattlerAction s pm b = some r) (h : PoseInRange s) :
    PoseInRange r := by
  rcases onDoBattlerAction_inv s pm b r hr with e | ⟨i, sl, _, e, hpose, _⟩
  · rw [e]; exact h
  · obtain ⟨hf, hp⟩ := h
    rw [e]
    refine ⟨hf, fun j => ?_⟩
    show 0 ≤ (setAt s.slots i sl j).poseIndex ∧ (setAt s.slots i sl j).poseIndex ≤ 11
    by_cases ej : j = i
    · subst ej
      rw [setAt_same, hpose]
      exact hp j
    · rw [setAt_other _ _ _ _ ej]
      exact hp j

/-- Every reachable state has its frame clock in `0..10` and its pose indices
in `0..11`. -/
theorem reachable_poseInRange (s : State) (h : Reachable s) : PoseInRange s := by
  induction h with
  | start =>
    exact ⟨⟨le_refl _, by show (0 : Int) ≤ 10; decide⟩,
      fun _ => ⟨le_refl _, by show (0 : Int) ≤ 11; decide⟩⟩
  | startup s _ ih => exact ih
  | draw s b m id r _ hr ih => exact onDrawBattler_poseInRange s b m id r hr ih
  | drawn s b m id r _ hr ih =>
    obtain ⟨e1, e2, _⟩ := onBattlerDrawn_keeps s b m id r hr
    exact ⟨by rw [e2]; exact ih.1, fun i => by rw [e1]; exact ih.2 i⟩
  | action s pm b r _ hr ih => exact onDoBattlerAction_poseInRange s pm b r hr ih
  | frame s scene _ ih => exact onFrame_poseInRange s scene ih

/-- Asset numbers of the pose table: every pose index in `0..11` names an
asset in `1..11`, which addresses the pose cache. -/
theorem pose_asset_range (p : Int) (h0 : 0 ≤ p) (h1 : p ≤ 11) :
    ∃ n q, tableAt? animationCycle p = some n ∧ 1 ≤ n ∧ n ≤ 11 ∧
      index? NUM_POSES n = some q := by
  interval_cases p <;> exact ⟨_, _, rfl, by decide, by decide, rfl⟩

/-- `drawTimers` leaves the pose cache of the slot alone. -/
theorem drawTimers_monsterPoses (ft : Int) (b : Battler) (sl : Slot) :
    (drawTimers ft b sl).monsterPoses = sl.monsterPoses := by
  unfold drawTimers
  by_cases hs : sl.monsterSrcSaved = false <;>
  by_cases hlt : b.hp < sl.oldHP <;>
  by_cases hgt : b.hp > sl.oldHP <;>
  by_cases hh : sl.hurtTimer > 0 <;>
  by_cases hd : b.hp ≤ 0 <;>
  simp [hs, hlt, hgt, hh, hd]

/-- A draw call for a monster in an existing slot, when the pose index selected
by `drawTimers` is inside the pose table: the call returns, the asset number
of the pose is in `1..11` and addresses the pose cache, the image handed to
the host is the cache entry of that number, and the only file the call can
load is the one of that number, on a cache miss. -/
theorem onDrawBattler_request (s : State) (b : Battler) (i : Fin MAX_MONSTERS)
    (h0 : 0 ≤ (drawTimers s.frameTimer b (s.slots i)).poseIndex)
    (h1 : (drawTimers s.frameTimer b (s.slots i)).poseIndex ≤ 11) :
    ∃ r n q, onDrawBattler s b true (i.val : Int) = some r ∧
      tableAt? animationCycle (r.1.slots i).poseIndex = some n ∧
      1 ≤ n ∧ n ≤ 11 ∧ index? NUM_POSES n = some q ∧
      r.2.image = (r.1.slots i).monsterPoses q ∧
      ((s.slots i).monsterPoses q = none →
        ∃ img, (r.1.slots i).monsterPoses q = some img ∧
          img.file = some (AssetFile.monsterPose b.name n)) ∧
      (∀ img, (s.slots i).monsterPoses q = some img →
        (r.1.slots i).monsterPoses q = some img) ∧
      (∀ p, p ≠ q → (r.1.slots i).monsterPoses p = (s.slots i).monsterPoses p) := by
  obtain ⟨n, q, hn, n1, n11, hq⟩ := pose_asset_range _ h0 h1
  have hp := drawTimers_monsterPoses s.frameTimer b (s.slots i)
  simp only [onDrawBattler, index?_val, hn, hq, if_true]
  refine ⟨_, n, q, rfl, ?_, n1, n11, hq, ?_, ?_, ?_, ?_⟩
  · simp only [setAt_same]
    split <;> exact hn
  · simp only [setAt_same]
  · intro hnone
    simp only [setAt_same, hp, hnone, Option.isNone_none, if_true]
    refine ⟨_, rfl, ?_⟩
    show some (AssetFile.monsterPose _ n) = _
    split <;> rfl
  · intro img himg
    simp only [setAt_same, hp, himg, Option.isNone_some]
    simp [hp, himg]
  · intro p hpq
    simp only [setAt_same]
    split
    · simp only [setAt_other _ _ _ _ hpq, hp]
    · rw [hp]

/-! ## A run that ends with a death on the way -/

/-- Every state produced by the run of `diedOnTheWay` is reachable. -/
theorem diedOnTheWay_reachable (s : State) (h : diedOnTheWay = some s) : Reachable s := by
  unfold diedOnTheWay at h
  split at h
  · exact absurd h (by simp)
  · rename_i s1 h1
    split at h
    · exact absurd h (by simp)
    · rename_i r3 h3
      rw [← Option.some.inj h]
      have hs1 : Reachable s1 := by
        unfold attackStarted at h1
        split at h1
        · exact absurd h1 (by simp)
        · rename_i r0 h0
          exact Reachable.action _ _ _ _ (Reachable.draw _ _ _ _ _ Reachable.start h0) h1
      have h2 : Reachable (battleTicks 2 s1) :=
        Reachable.frame _ Scene.SCENE_BATTLE (Reachable.frame _ Scene.SCENE_BATTLE hs1)
      exact Reachable.draw _ _ _ _ _ h2 h3

/-- The run of `diedOnTheWay`, evaluated: the slot is not approaching and
stands at `(106, 101)`, its source is `(100, 100)`. -/
theorem diedOnTheWay_fields :
    diedOnTheWay.map (fun s =>
      ((s.slots 0).monsterApproach, (s.slots 0).monsterX, (s.slots 0).monsterY,
       (s.slots 0).monsterSrcX, (s.slots 0).monsterSrcY)) =
      some (false, 106, 101, 100, 100) := by
  decide

/-- The pose of slot 0 at the end of the run of `diedOnTheWay` is the dead
pose. -/
theorem diedOnTheWay_pose :
    diedOnTheWay.map (fun s => (s.slots 0).poseIndex) = some 4 := by
  decide

/-! ### C12: the pose index stays inside the pose table -/

/-- C12 (pose index in bounds).  In every state reachable from the start state
through the callbacks, every slot has `poseIndex` in `0..11` and the asset
number `animationCycle[poseIndex]` is in `1..11` and inside the pose cache; the
frame clock is in `0..10`, so the hurt pose index `5 + (frameTimer - 1) / 5`
is 5 or 6 at every draw.  A draw call for any monster in any slot `0..7` made
in such a state returns: the pose index it selects is inside the pose table,
the asset number `n` it reads there is in `1..11` and addresses the pose
cache, the image handed to the host is the cache entry `n`, and the only file
the call requests is `Monster\<name>\<n>.png`, when that entry is empty; an
entry that is filled is kept and no other entry is touched. -/
theorem pose_index_in_bounds (s : State) (h : Reachable s) :
    (∀ i : Fin MAX_MONSTERS,
      0 ≤ (s.slots i).poseIndex ∧ (s.slots i).poseIndex ≤ 11 ∧
      ∃ n q, tableAt? animationCycle (s.slots i).poseIndex = some n ∧ 1 ≤ n ∧ n ≤ 11 ∧
        index? NUM_POSES n = some q) ∧
    (0 ≤ s.frameTimer ∧ s.frameTimer ≤ 10) ∧
    (5 + (s.frameTimer - 1).tdiv 5 = 5 ∨ 5 + (s.frameTimer - 1).tdiv 5 = 6) ∧
    (∀ (b : Battler) (i : Fin MAX_MONSTERS), ∃ r n q,
      onDrawBattler s b true (i.val : Int) = some r ∧
      tableAt? animationCycle (r.1.slots i).poseIndex = some n ∧
      1 ≤ n ∧ n ≤ 11 ∧ index? NUM_POSES n = some q ∧
      r.2.image = (r.1.slots i).monsterPoses q ∧
      ((s.slots i).monsterPoses q = none →
        ∃ img, (r.1.slots i).monsterPoses q = some img ∧
          img.file = some (AssetFile.monsterPose b.name n)) ∧
      (∀ img, (s.slots i).monsterPoses q = some img →
        (r.1.slots i).monsterPoses q = some img) ∧
      (∀ p, p ≠ q → (r.1.slots i).monsterPoses p = (s.slots i).monsterPoses p)) := by
  obtain ⟨hf, hp⟩ := reachable_poseInRange s h
  obtain ⟨q0, q1⟩ := hurt_pose_range s.frameTimer hf.1 hf.2
  refine ⟨fun i => ⟨(hp i).1, (hp i).2, pose_asset_range _ (hp i).1 (hp i).2⟩, hf, ?_, ?_⟩
  · omega
  · intro b i
    have hi := hp i
    have hd : 0 ≤ (drawTimers s.frameTimer b (s.slots i)).poseIndex ∧
        (drawTimers s.frameTimer b (s.slots i)).poseIndex ≤ 11 := by
      rcases drawTimers_pose s.frameTimer b (s.slots i) with p | p | p <;> rw [p] <;> omega
    exact onDrawBattler_request s b i hd.1 hd.2

/-- Witness of C12: the state at the end of the run of `diedOnTheWay`, reached
through two draw calls, an action and two battle ticks; slot 0 shows the dead
pose 4 there. -/
theorem pose_index_in_bounds_witness :
    ∃ s, diedOnTheWay = some s ∧ Reachable s ∧ (s.slots 0).poseIndex = 4 ∧
      (∀ i : Fin MAX_MONSTERS,
        0 ≤ (s.slots i).poseIndex ∧ (s.slots i).poseIndex ≤ 11 ∧
        ∃ n q, tableAt? animationCycle (s.slots i).poseIndex = some n ∧ 1 ≤ n ∧ n ≤ 11 ∧
          index? NUM_POSES n = some q) ∧
      (0 ≤ s.frameTimer ∧ s.frameTimer ≤ 10) ∧
      (5 + (s.frameTimer - 1).tdiv 5 = 5 ∨ 5 + (s.frameTimer - 1).tdiv 5 = 6) ∧
      (∀ (b : Battler) (i : Fin MAX_MONSTERS), ∃ r n q,
        onDrawBattler s b true (i.val : Int) = some r ∧
        tableAt? animationCycle (r.1.slots i).poseIndex = some n ∧
        1 ≤ n ∧ n ≤ 11 ∧ index? NUM_POSES n = some q ∧
        r.2.image = (r.1.slots i).monsterPoses q ∧
        ((s.slots i).monsterPoses q = none →
          ∃ img, (r.1.slots i).monsterPoses q = some img ∧
            img.file = some (AssetFile.monsterPose b.name n)) ∧
        (∀ img, (s.slots i).monsterPoses q = some img →
          (r.1.slots i).monsterPoses q = some img) ∧
        (∀ p, p ≠ q → (r.1.slots i).monsterPoses p = (s.slots i).monsterPoses p)) := by
  obtain ⟨s, hs, hpose⟩ := Option.map_eq_some'.mp diedOnTheWay_pose
  exact ⟨s, hs, diedOnTheWay_reachable s hs, hpose,
    pose_index_in_bounds s (diedOnTheWay_reachable s hs)⟩

/-! ### C13: ids outside the arrays -/

theorem index?_none (n : Nat) (i : Int) (h : i < 0 ∨ (n : Int) ≤ i) : index? n i = none := by
  unfold index?
  rw [dif_neg]
  intro hc
  omega

/-- C13 as stated fails: nothing rejects or clamps an id.  A draw call for
slot id 8, an action of the monster with database id 9 and a single-actor
action with skill id 1000 all index past the end of their array. -/
theorem unchecked_ids_counterexample :
    onDrawBattler initialState (monsterAt 200 100 30) true 8 = none ∧
      onDoBattlerAction initialState oneActorParty ninthMonster = none ∧
      onDoBattlerAction initialState oneActorParty skill1000Monster = none :=
  ⟨rfl, rfl, rfl⟩

/-- C13, amended.  The callbacks do not check their ids.  For a battler that is
not a monster both leave the state unchanged whatever the id.  For a monster,
`onDrawBattler` with a slot id outside `0..7`, `onDoBattlerAction` with
`id - 1` outside `0..7`, and `onDoBattlerAction` for a single-actor action with
a skill id outside `0..999` read an array outside its bounds; with the slot id
in `0..7` and the pose index and frame clock in range the draw call stays
inside every array. -/
theorem unchecked_ids (s : State) (pm : Int → Option Battler) (b : Battler) (id : Int) :
    onDrawBattler s b false id = some (s, b) ∧
    ((id < 0 ∨ 8 ≤ id) → onDrawBattler s b true id = none) ∧
    (b.isMonster = false → onDoBattlerAction s pm b = some s) ∧
    (b.isMonster = true → (b.id - 1 < 0 ∨ 8 ≤ b.id - 1) →
      onDoBattlerAction s pm b = none) ∧
    (b.isMonster = true → (∃ i, index? MAX_MONSTERS (b.id - 1) = some i) →
      b.action.target = Target.TARGET_ACTOR →
      (b.action.skillId < 0 ∨ 1000 ≤ b.action.skillId) →
      onDoBattlerAction s pm b = none) ∧
    (∀ i : Fin MAX_MONSTERS, PoseInRange s →
      ∃ r, onDrawBattler s b true (i.val : Int) = some r) := by
  refine ⟨by simp [onDrawBattler], ?_, ?_, ?_, ?_, ?_⟩
  · intro h
    have hn := index?_none MAX_MONSTERS id (by simpa using h)
    simp [onDrawBattler, hn]
  · intro h
    simp [onDoBattlerAction, h]
  · intro hm h
    have hn := index?_none MAX_MONSTERS (b.id - 1) (by simpa using h)
    simp [onDoBattlerAction, hm, hn]
  · intro hm ⟨i, hi⟩ ht h
    have hn := index?_none 1000 b.action.skillId (by simpa using h)
    simp [onDoBattlerAction, hm, hi, ht, hn]
  · intro i ⟨hf, hp⟩
    obtain ⟨q0, q1⟩ := hurt_pose_range s.frameTimer hf.1 hf.2
    have hi := hp i
    have hb : 0 ≤ (drawTimers s.frameTimer b (s.slots i)).poseIndex ∧
        (drawTimers s.frameTimer b (s.slots i)).poseIndex ≤ 11 := by
      rcases drawTimers_pose s.frameTimer b (s.slots i) with p | p | p <;> rw [p] <;> omega
    obtain ⟨r, hr, _⟩ := onDrawBattler_slot s b i hb.1 hb.2
    exact ⟨r, hr⟩

/-- Witness of the amended C13: slot id 8 and slot id -1 at the start state. -/
theorem unchecked_ids_witness :
    ((8 : Int) < 0 ∨ (8 : Int) ≤ 8) ∧
    onDrawBattler initialState (monsterAt 200 100 30) true 8 = none ∧
    onDrawBattler initialState heroActor false 8 = some (initialState, heroActor) :=
  ⟨by decide,
   (unchecked_ids initialState oneActorParty (monsterAt 200 100 30) 8).2.1 (by decide),
   (unchecked_ids initialState oneActorParty heroActor 8).1⟩

/-! ## The melee branch by range of `monsterMoveFrame` -/

/-- The melee branch for `20 ≤ monsterMoveFrame ≤ 50`: only the pose and the
jump counter can change. -/
theorem meleeUpdate_wait (sl : Slot) (jt : Nat) (h0 : 20 ≤ sl.monsterMoveFrame)
    (h1 : sl.monsterMoveFrame ≤ 50) :
    (meleeUpdate sl jt).1 =
        { sl with poseIndex :=
            if sl.monsterMoveFrame = 25 then 9 else if sl.monsterMoveFrame = 30 then 10
            else if sl.monsterMoveFrame = 35 then 11 else sl.poseIndex } ∧
      (meleeUpdate sl jt).2.1 = (if sl.monsterMoveFrame = 35 then 0 else jt) := by
  have a1 : ¬ sl.monsterMoveFrame < 20 := by omega
  have a4 : ¬ sl.monsterMoveFrame > 50 := by omega
  have a5 : ¬ sl.monsterMoveFrame ≥ 71 := by omega
  simp only [meleeUpdate, a1, a4, a5, if_false, false_and]
  split_ifs <;> first | exact ⟨rfl, rfl⟩ | omega

/-- The melee branch for `50 < monsterMoveFrame < 71`: the return update runs
while the distance from the source is above 3. -/
theorem meleeUpdate_back (sl : Slot) (jt : Nat) (h0 : 50 < sl.monsterMoveFrame)
    (h1 : sl.monsterMoveFrame < 71) :
    (meleeUpdate sl jt).1 = (if distFromSource sl > 3 then meleeReturn sl jt else sl) ∧
      (meleeUpdate sl jt).2.1 = (if distFromSource sl > 3 ∧ jt < 20 then jt + 1 else jt) := by
  have a1 : ¬ sl.monsterMoveFrame < 20 := by omega
  have a2 : ¬ sl.monsterMoveFrame = 25 := by omega
  have a3 : ¬ sl.monsterMoveFrame = 30 := by omega
  have a4 : ¬ sl.monsterMoveFrame = 35 := by omega
  have a5 : sl.monsterMoveFrame > 50 := by omega
  have a6 : ¬ sl.monsterMoveFrame ≥ 71 := by omega
  simp only [meleeUpdate, distFromSource, meleeReturn, a1, a2, a3, a4, a5, a6, if_false,
    false_and, true_and]
  split_ifs <;> simp_all

/-- The melee branch for `71 ≤ monsterMoveFrame`: the return update while the
distance is above 3, the completion when it is below 3, nothing when it is
exactly 3. -/
theorem meleeUpdate_last (sl : Slot) (jt : Nat) (h0 : 71 ≤ sl.monsterMoveFrame) :
    (meleeUpdate sl jt).1 =
        (if distFromSource sl > 3 then meleeReturn sl jt
         else if distFromSource sl < 3 then finishSlot sl else sl) ∧
      (meleeUpdate sl jt).2.1 = (if distFromSource sl > 3 ∧ jt < 20 then jt + 1 else jt) := by
  have a1 : ¬ sl.monsterMoveFrame < 20 := by omega
  have a2 : ¬ sl.monsterMoveFrame = 25 := by omega
  have a3 : ¬ sl.monsterMoveFrame = 30 := by omega
  have a4 : ¬ sl.monsterMoveFrame = 35 := by omega
  have a5 : sl.monsterMoveFrame > 50 := by omega
  have a6 : sl.monsterMoveFrame ≥ 71 := by omega
  simp only [meleeUpdate, distFromSource, meleeReturn, finishSlot, a1, a2, a3, a4, a5, a6,
    if_false, true_and]
  split_ifs <;> first | exact ⟨rfl, rfl⟩ | omega | simp_all

/-! ## The casting branch by range of `monsterMoveFrame` -/

/-- The casting branch for `monsterMoveFrame < 5`. -/
theorem castUpdate_forward (sl : Slot) (h1 : sl.monsterMoveFrame < 5) :
    (castUpdate sl).1 =
      { sl with
        poseIndex := 7,
        monsterX := sl.monsterSrcX +
          ((sl.monsterDestX - sl.monsterSrcX) * sl.monsterMoveFrame).tdiv 5,
        monsterY := sl.monsterSrcY +
          ((sl.monsterDestY - sl.monsterSrcY) * sl.monsterMoveFrame).tdiv 5 } := by
  have a1 : ¬ sl.monsterMoveFrame = 15 := by omega
  have a2 : ¬ sl.monsterMoveFrame = 20 := by omega
  have a3 : ¬ sl.monsterMoveFrame = 25 := by omega
  have a4 : ¬ sl.monsterMoveFrame > 70 := by omega
  have a5 : ¬ sl.monsterMoveFrame > 75 := by omega
  simp only [castUpdate, h1, a1, a2, a3, a4, a5, if_true, if_false, false_and]

/-- The casting branch for `5 ≤ monsterMoveFrame ≤ 70`: only the pose can
change. -/
theorem castUpdate_wait (sl : Slot) (h0 : 5 ≤ sl.monsterMoveFrame)
    (h1 : sl.monsterMoveFrame ≤ 70) :
    (castUpdate sl).1 =
      { sl with poseIndex :=
          if sl.monsterMoveFrame = 15 then 9 else if sl.monsterMoveFrame = 20 then 10
          else if sl.monsterMoveFrame = 25 then 11 else sl.poseIndex } := by
  have a1 : ¬ sl.monsterMoveFrame < 5 := by omega
  have a4 : ¬ sl.monsterMoveFrame > 70 := by omega
  have a5 : ¬ sl.monsterMoveFrame > 75 := by omega
  simp only [castUpdate, a1, a4, a5, if_false, false_and]
  split_ifs <;> rfl

/-- The casting branch for `70 < monsterMoveFrame ≤ 75`: the return update
runs while the distance from the source is above 3. -/
theorem castUpdate_back (sl : Slot) (h0 : 70 < sl.monsterMoveFrame)
    (h1 : sl.monsterMoveFrame ≤ 75) :
    (castUpdate sl).1 = (if distFromSource sl > 3 then castReturn sl else sl) := by
  have a1 : ¬ sl.monsterMoveFrame < 5 := by omega
  have a2 : ¬ sl.monsterMoveFrame = 15 := by omega
  have a3 : ¬ sl.monsterMoveFrame = 20 := by omega
  have a4 : ¬ sl.monsterMoveFrame = 25 := by omega
  have a5 : sl.monsterMoveFrame > 70 := by omega
  have a6 : ¬ sl.monsterMoveFrame > 75 := by omega
  simp only [castUpdate, distFromSource, castReturn, a1, a2, a3, a4, a5, a6, if_false,
    false_and, true_and]

/-- The casting branch for `75 < monsterMoveFrame`: the return update while the
distance is above 3, the completion when it is below 3, nothing when it is
exactly 3. -/
theorem castUpdate_last (sl : Slot) (h0 : 75 < sl.monsterMoveFrame) :
    (castUpdate sl).1 =
      (if distFromSource sl > 3 then castReturn sl
       else if distFromSource sl < 3 then { finishSlot sl with monsterCast := false }
       else sl) := by
  have a1 : ¬ sl.monsterMoveFrame < 5 := by omega
  have a2 : ¬ sl.monsterMoveFrame = 15 := by omega
  have a3 : ¬ sl.monsterMoveFrame = 20 := by omega
  have a4 : ¬ sl.monsterMoveFrame = 25 := by omega
  have a5 : sl.monsterMoveFrame > 70 := by omega
  have a6 : sl.monsterMoveFrame > 75 := by omega
  simp only [castUpdate, distFromSource, castReturn, finishSlot, a1, a2, a3, a4, a5, a6,
    if_false, true_and]
  split_ifs <;> first | rfl | omega

/-! ## The resting position -/

/-- When the melee branch clears the approach flag it has put the slot on its
source position. -/
theorem meleeUpdate_rest (sl : Slot) (jt : Nat) (ha : sl.monsterApproach = true)
    (h : (meleeUpdate sl jt).1.monsterApproach = false) :
    (meleeUpdate sl jt).1.monsterX = (meleeUpdate sl jt).1.monsterSrcX ∧
      (meleeUpdate sl jt).1.monsterY = (meleeUpdate sl jt).1.monsterSrcY := by
  have hne : ¬ sl.monsterApproach = false := by simp [ha]
  by_cases h1 : sl.monsterMoveFrame < 20
  · rw [meleeUpdate_approach sl jt h1] at h
    exact absurd h hne
  · by_cases h2 : sl.monsterMoveFrame ≤ 50
    · rw [(meleeUpdate_wait sl jt (by omega) h2).1] at h
      exact absurd h hne
    · by_cases h3 : sl.monsterMoveFrame < 71
      · rw [(meleeUpdate_back sl jt (by omega) h3).1] at h
        split_ifs at h <;> exact absurd h hne
      · rw [(meleeUpdate_last sl jt (by omega)).1] at h ⊢
        split_ifs at h ⊢
        · exact absurd h hne
        · exact ⟨rfl, rfl⟩
        · exact absurd h hne

/-- When the casting branch clears the approach flag it has put the slot on its
source position. -/
theorem castUpdate_rest (sl : Slot) (ha : sl.monsterApproach = true)
    (h : (castUpdate sl).1.monsterApproach = false) :
    (castUpdate sl).1.monsterX = (castUpdate sl).1.monsterSrcX ∧
      (castUpdate sl).1.monsterY = (castUpdate sl).1.monsterSrcY := by
  have hne : ¬ sl.monsterApproach = false := by simp [ha]
  by_cases h1 : sl.monsterMoveFrame < 5
  · rw [castUpdate_forward sl h1] at h
    exact absurd h hne
  · by_cases h2 : sl.monsterMoveFrame ≤ 70
    · rw [castUpdate_wait sl (by omega) h2] at h
      exact absurd h hne
    · by_cases h3 : sl.monsterMoveFrame ≤ 75
      · rw [castUpdate_back sl (by omega) h3] at h
        split_ifs at h <;> exact absurd h hne
      · rw [castUpdate_last sl (by omega)] at h ⊢
        split_ifs at h ⊢
        · exact absurd h hne
        · exact ⟨rfl, rfl⟩
        · exact absurd h hne

/-- `drawTimers` keeps a slot at rest on its source unless it stops an
approach because the monster died. -/
theorem drawTimers_atRest (ft : Int) (b : Battler) (sl : Slot)
    (hg : ¬ (b.hp ≤ 0 ∧ sl.monsterApproach = true))
    (h : sl.monsterApproach = false →
      sl.monsterX = sl.monsterSrcX ∧ sl.monsterY = sl.monsterSrcY)
    (hr : (drawTimers ft b sl).monsterApproach = false) :
    (drawTimers ft b sl).monsterX = (drawTimers ft b sl).monsterSrcX ∧
      (drawTimers ft b sl).monsterY = (drawTimers ft b sl).monsterSrcY := by
  unfold drawTimers at hr ⊢
  by_cases hs : sl.monsterSrcSaved = false <;>
  by_cases hlt : b.hp < sl.oldHP <;>
  by_cases hgt : b.hp > sl.oldHP <;>
  by_cases hh : sl.hurtTimer > 0 <;>
  by_cases hd : b.hp ≤ 0 <;>
  simp [hs, hlt, hgt, hh, hd] at hr ⊢ <;> simp_all

theorem idleAdvance_fields (sl : Slot) :
    (idleAdvance sl).monsterApproach = sl.monsterApproach ∧
      (idleAdvance sl).monsterX = sl.monsterX ∧ (idleAdvance sl).monsterY = sl.monsterY ∧
      (idleAdvance sl).monsterSrcX = sl.monsterSrcX ∧
      (idleAdvance sl).monsterSrcY = sl.monsterSrcY := by
  unfold idleAdvance
  split <;> exact ⟨rfl, rfl, rfl, rfl, rfl⟩

theorem idleAdvance_slotAtRest (sl : Slot) (h : SlotAtRest sl) :
    SlotAtRest (idleAdvance sl) := by
  obtain ⟨e1, e2, e3, e4, e5⟩ := idleAdvance_fields sl
  intro hi
  rw [e1] at hi
  rw [e2, e3, e4, e5]
  exact h hi

theorem frameClock_slotAtRest (s : State) (j : Fin MAX_MONSTERS)
    (h : SlotAtRest (s.slots j)) : SlotAtRest ((frameClock s).slots j) := by
  unfold frameClock
  by_cases hc : s.frameTimer + 1 > 10
  · simp only [hc, if_true]
    exact idleAdvance_slotAtRest _ h
  · simp only [hc, if_false]
    exact h

theorem updateMonster_slotAtRest (s : State) (i j : Fin MAX_MONSTERS)
    (h : SlotAtRest (s.slots j)) : SlotAtRest ((updateMonster s i).slots j) := by
  by_cases e : j = i
  · subst e
    cases ha : (s.slots j).monsterApproach
    · rw [updateMonster_rest s j ha]
      exact h
    · cases hc : (s.slots j).monsterCast
      · rw [(updateMonster_melee s j ha hc).1]
        exact fun hj => meleeUpdate_rest _ _ ha hj
      · rw [updateMonster_cast s j ha hc]
        exact fun hj => castUpdate_rest _ ha hj
  · rw [updateMonster_other s i j e]
    exact h

theorem moveLoop_slotAtRest (l : List (Fin MAX_MONSTERS)) (s : State) (j : Fin MAX_MONSTERS)
    (h : SlotAtRest (s.slots j)) : SlotAtRest ((l.foldl updateMonster s).slots j) := by
  induction l generalizing s with
  | nil => exact h
  | cons a l ih => exact ih _ (updateMonster_slotAtRest s a j h)

/-- The battle reset puts every slot on its source position. -/
theorem onFrame_reset_slotAtRest (s : State) (scene : Scene) (j : Fin MAX_MONSTERS)
    (hb : scene ≠ Scene.SCENE_BATTLE) (hr : s.resetTable = true) :
    SlotAtRest ((onFrame s scene).slots j) := by
  unfold onFrame
  rw [if_neg hb, if_pos hr]
  intro _
  exact ⟨rfl, rfl⟩

/-- A slot that satisfies the resting-position rule satisfies it after
`onFrame`. -/
theorem onFrame_slotAtRest (s : State) (scene : Scene) (j : Fin MAX_MONSTERS)
    (h : SlotAtRest (s.slots j)) : SlotAtRest ((onFrame s scene).slots j) := by
  by_cases hb : scene = Scene.SCENE_BATTLE
  · unfold onFrame
    rw [if_pos hb]
    exact moveLoop_slotAtRest _ _ j (frameClock_slotAtRest s j h)
  · by_cases hr : s.resetTable = true
    · exact onFrame_reset_slotAtRest s scene j hb hr
    · unfold onFrame
      rw [if_neg hb, if_neg hr]
      exact h

/-- A draw call never removes a mark. -/
theorem stopDraw_false (s : State) (b : Battler) (m : Bool) (id : Int)
    (st : Fin MAX_MONSTERS → Bool) (i : Fin MAX_MONSTERS)
    (h : stopDraw s b m id st i = false) : st i = false := by
  unfold stopDraw at h
  by_cases hc : m = true ∧ b.hp ≤ 0
  · rw [if_pos hc] at h
    cases hj : index? MAX_MONSTERS id with
    | none =>
      simp only [hj] at h
      exact h
    | some j =>
      simp only [hj] at h
      by_cases ha : (s.slots j).monsterApproach = true
      · rw [if_pos ha] at h
        by_cases e : i = j
        · subst e
          rw [setAt_same] at h
          exact absurd h (by decide)
        · rw [setAt_other _ _ _ _ e] at h
          exact h
      · rw [if_neg ha] at h
        exact h
  · rw [if_neg hc] at h
    exact h

/-- A slot left unmarked by the draw call for it was not stopped by that
call. -/
theorem stopDraw_same (s : State) (b : Battler) (id : Int)
    (st : Fin MAX_MONSTERS → Bool) (i : Fin MAX_MONSTERS)
    (hi : index? MAX_MONSTERS id = some i) (h : stopDraw s b true id st i = false) :
    ¬ (b.hp ≤ 0 ∧ (s.slots i).monsterApproach = true) := by
  intro hc
  unfold stopDraw at h
  rw [if_pos ⟨rfl, hc.1⟩] at h
  simp only [hi, hc.2, if_true, setAt_same] at h
  exact absurd h (by decide)

theorem stopFrame_battle (s : State) (st : Fin MAX_MONSTERS → Bool) :
    stopFrame s Scene.SCENE_BATTLE st = st := by
  simp [stopFrame]

/-- An action callback for a monster that returns wrote slot `id - 1` and left
it approaching. -/
theorem onDoBattlerAction_monster (s : State) (pm : Int → Option Battler) (b : Battler)
    (r : State) (hm : b.isMonster = true) (h : onDoBattlerAction s pm b = some r) :
    ∃ (i : Fin MAX_MONSTERS) (sl : Slot),
      index? MAX_MONSTERS (b.id - 1) = some i ∧
      r = { s with slots := setAt s.slots i sl } ∧ sl.monsterApproach = true := by
  unfold onDoBattlerAction at h
  rw [if_pos hm] at h
  split at h
  · exact absurd h (by simp)
  · rename_i i hi
    simp only at h
    split at h
    · exact absurd h (by simp)
    · exact ⟨i, _, hi, (Option.some.inj h).symm, rfl⟩

theorem onDoBattlerAction_actor (s : State) (pm : Int → Option Battler) (b : Battler)
    (hm : ¬ b.isMonster = true) : onDoBattlerAction s pm b = some s := by
  unfold onDoBattlerAction
  rw [if_neg hm]

/-- Every slot without a mark satisfies the resting-position rule. -/
theorem tracked_slotAtRest (s : State) (st : Fin MAX_MONSTERS → Bool) (h : Tracked s st) :
    ∀ i, st i = false → SlotAtRest (s.slots i) := by
  induction h with
  | start =>
    intro i _ _
    exact ⟨rfl, rfl⟩
  | startup s st _ ih => exact ih
  | draw s st b m id r _ hr ih =>
    intro i hs
    have hs0 := stopDraw_false s b m id st i hs
    rcases onDrawBattler_inv s b m id r hr with e | ⟨j, sl, op, hm, hj, hsl, e⟩
    · rw [e]
      exact ih i hs0
    · rw [e]
      show SlotAtRest (setAt s.slots j sl i)
      by_cases ej : i = j
      · subst ej
        subst hm
        rw [setAt_same, hsl]
        intro hrest
        exact drawTimers_atRest s.frameTimer b (s.slots i) (stopDraw_same s b id st i hj hs)
          (ih i hs0) hrest
      · rw [setAt_other _ _ _ _ ej]
        exact ih i hs0
  | drawn s st b m id r _ hr ih =>
    obtain ⟨e1, _, _⟩ := onBattlerDrawn_keeps s b m id r hr
    intro i hs
    rw [e1]
    exact ih i hs
  | action s st pm b r _ hr ih =>
    intro i hs
    by_cases hm : b.isMonster = true
    · obtain ⟨j, sl, hj, e, happ⟩ := onDoBattlerAction_monster s pm b r hm hr
      rw [e]
      show SlotAtRest (setAt s.slots j sl i)
      by_cases ej : i = j
      · subst ej
        rw [setAt_same]
        intro hrest
        rw [happ] at hrest
        exact absurd hrest (by decide)
      · rw [setAt_other _ _ _ _ ej]
        have hs0 : st i = false := by
          unfold stopAction at hs
          rw [if_pos hm] at hs
          simp only [hj] at hs
          rw [setAt_other _ _ _ _ ej] at hs
          exact hs
        exact ih i hs0
    · have e : r = s := by
        rw [onDoBattlerAction_actor s pm b hm] at hr
        exact (Option.some.inj hr).symm
      rw [e]
      have hs0 : st i = false := by
        unfold stopAction at hs
        rw [if_neg hm] at hs
        exact hs
      exact ih i hs0
  | frame s st scene _ ih =>
    intro i hs
    by_cases hc : scene ≠ Scene.SCENE_BATTLE ∧ s.resetTable = true
    · exact onFrame_reset_slotAtRest s scene i hc.1 hc.2
    · have hs0 : st i = false := by
        unfold stopFrame at hs
        rw [if_neg hc] at hs
        exact hs
      exact onFrame_slotAtRest s scene i (ih i hs0)

/-- The states with a history are the reachable states. -/
theorem tracked_reachable (s : State) (st : Fin MAX_MONSTERS → Bool) (h : Tracked s st) :
    Reachable s := by
  induction h with
  | start => exact Reachable.start
  | startup s st _ ih => exact Reachable.startup s ih
  | draw s st b m id r _ hr ih => exact Reachable.draw s b m id r ih hr
  | drawn s st b m id r _ hr ih => exact Reachable.drawn s b m id r ih hr
  | action s st pm b r _ hr ih => exact Reachable.action s pm b r ih hr
  | frame s st scene _ ih => exact Reachable.frame s scene ih

/-- Every reachable state has a history. -/
theorem reachable_tracked (s : State) (h : Reachable s) : ∃ st, Tracked s st := by
  induction h with
  | start => exact ⟨_, Tracked.start⟩
  | startup s _ ih =>
    obtain ⟨st, h⟩ := ih
    exact ⟨_, Tracked.startup s st h⟩
  | draw s b m id r _ hr ih =>
    obtain ⟨st, h⟩ := ih
    exact ⟨_, Tracked.draw s st b m id r h hr⟩
  | drawn s b m id r _ hr ih =>
    obtain ⟨st, h⟩ := ih
    exact ⟨_, Tracked.drawn s st b m id r h hr⟩
  | action s pm b r _ hr ih =>
    obtain ⟨st, h⟩ := ih
    exact ⟨_, Tracked.action s st pm b r h hr⟩
  | frame s scene _ ih =>
    obtain ⟨st, h⟩ := ih
    exact ⟨_, Tracked.frame s st scene h⟩

/-- Battle ticks keep the history. -/
theorem tracked_battleTicks (n : Nat) (s : State) (st : Fin MAX_MONSTERS → Bool)
    (h : Tracked s st) : Tracked (battleTicks n s) st := by
  induction n with
  | zero => exact h
  | succ n ih =>
    rw [battleTicks_succ]
    have h2 := Tracked.frame _ _ Scene.SCENE_BATTLE ih
    rw [stopFrame_battle] at h2
    exact h2

/-- The run of `twoSlotRun` is a run of the callbacks with its history. -/
theorem twoSlotRun_tracked (p : State × (Fin MAX_MONSTERS → Bool))
    (h : twoSlotRun = some p) : Tracked p.1 p.2 := by
  unfold twoSlotRun at h
  split at h
  · exact absurd h (by simp)
  · rename_i r1 h1
    split at h
    · exact absurd h (by simp)
    · rename_i r2 h2
      split at h
      · exact absurd h (by simp)
      · rename_i s3 h3
        split at h
        · exact absurd h (by simp)
        · rename_i r4 h4
          rw [← Option.some.inj h]
          exact Tracked.draw _ _ _ _ _ _
            (tracked_battleTicks 2 _ _
              (Tracked.action _ _ _ _ _
                (Tracked.draw _ _ _ _ _ _ (Tracked.draw _ _ _ _ _ _ Tracked.start h1) h2) h3))
            h4

/-- The run of `nextBattleRun` is a run of the callbacks with its history. -/
theorem nextBattleRun_tracked (p : State × (Fin MAX_MONSTERS → Bool))
    (h : nextBattleRun = some p) : Tracked p.1 p.2 := by
  unfold nextBattleRun at h
  split at h
  · exact absurd h (by simp)
  · rename_i q hq
    split at h
    · exact absurd h (by simp)
    · rename_i r hr
      rw [← Option.some.inj h]
      exact Tracked.draw _ _ _ _ _ _
        (Tracked.frame _ _ Scene.SCENE_MAP (twoSlotRun_tracked q hq)) hr

/-- The run of `twoSlotRun`, evaluated at slot 0: the slot is marked, not
approaching, and stands at `(106, 101)` with source `(100, 100)`. -/
theorem twoSlotRun_slot0 :
    twoSlotRun.map (fun p =>
      (p.2 0, (p.1.slots 0).monsterApproach, (p.1.slots 0).monsterX, (p.1.slots 0).monsterY,
       (p.1.slots 0).monsterSrcX)) =
      some (true, false, 106, 101, 100) := by
  decide

/-- The run of `twoSlotRun`, evaluated at slot 1: the slot is not marked, not
approaching, and has the source `(60, 40)`. -/
theorem twoSlotRun_slot1 :
    twoSlotRun.map (fun p =>
      (p.2 1, (p.1.slots 1).monsterApproach, (p.1.slots 1).monsterSrcX,
       (p.1.slots 1).monsterSrcY)) =
      some (false, false, 60, 40) := by
  decide

/-- The run of `nextBattleRun`, evaluated: slot 0 is no longer marked, is not
approaching, and has the source `(120, 80)`. -/
theorem nextBattleRun_fields :
    nextBattleRun.map (fun p =>
      (p.2 0, (p.1.slots 0).monsterApproach, (p.1.slots 0).monsterSrcX,
       (p.1.slots 0).monsterSrcY)) =
      some (false, false, 120, 80) := by
  decide

/-! ### C14: the resting position -/

/-- C14 as stated fails: the monster of slot 0 is drawn at `(100, 100)`, starts
an attack, moves for two battle ticks and is then drawn with 0 HP.  The state
is reachable, the slot is not approaching, and it stands at `(106, 101)` while
its source is `(100, 100)`. -/
theorem rest_off_source_counterexample :
    ∃ s, diedOnTheWay = some s ∧ Reachable s ∧ (s.slots 0).monsterApproach = false ∧
      (s.slots 0).monsterX = 106 ∧ (s.slots 0).monsterSrcX = 100 := by
  have h := diedOnTheWay_fields
  obtain ⟨s, hs, hf⟩ := Option.map_eq_some'.mp h
  have e := Prod.mk.inj hf
  have e2 := Prod.mk.inj e.2
  have e3 := Prod.mk.inj e2.2
  have e4 := Prod.mk.inj e3.2
  exact ⟨s, hs, diedOnTheWay_reachable s hs, e.1, e2.1, e4.1⟩

/-- C14, amended.  In every state reachable from the start state through the
callbacks, whatever its history `st`, every slot with `monsterApproach = false`
has its current position equal to its source position, except a slot whose
last sequence was cut short by a draw call that observed HP at most 0 while
the slot was approaching and that has neither started a new sequence nor been
reset by the battle reset since (`st i = true`).  By `reachable_tracked` and
`tracked_reachable` the states with a history are exactly the reachable
states. -/
theorem rest_position_invariant (s : State) (st : Fin MAX_MONSTERS → Bool)
    (h : Tracked s st) (i : Fin MAX_MONSTERS) (hs : st i = false)
    (hi : (s.slots i).monsterApproach = false) :
    (s.slots i).monsterX = (s.slots i).monsterSrcX ∧
      (s.slots i).monsterY = (s.slots i).monsterSrcY :=
  tracked_slotAtRest s st h i hs hi

/-- Witness of the amended C14.  At the end of `twoSlotRun` slot 0 has been
stopped on its way by the death of its monster, and slot 1, drawn at
`(60, 40)`, still stands on its source.  At the end of `nextBattleRun`, after
the battle reset and a draw at `(120, 80)`, slot 0 stands on its source
again. -/
theorem rest_position_invariant_witness :
    (∃ p, twoSlotRun = some p ∧ Tracked p.1 p.2 ∧
      (p.2 0 = true ∧ (p.1.slots 0).monsterApproach = false ∧
        (p.1.slots 0).monsterX = 106 ∧ (p.1.slots 0).monsterSrcX = 100) ∧
      (p.2 1 = false ∧ (p.1.slots 1).monsterApproach = false) ∧
      ((p.1.slots 1).monsterX = (p.1.slots 1).monsterSrcX ∧
        (p.1.slots 1).monsterY = (p.1.slots 1).monsterSrcY) ∧
      (p.1.slots 1).monsterSrcX = 60 ∧ (p.1.slots 1).monsterSrcY = 40) ∧
    (∃ p, nextBattleRun = some p ∧ Tracked p.1 p.2 ∧
      (p.2 0 = false ∧ (p.1.slots 0).monsterApproach = false) ∧
      ((p.1.slots 0).monsterX = (p.1.slots 0).monsterSrcX ∧
        (p.1.slots 0).monsterY = (p.1.slots 0).monsterSrcY) ∧
      (p.1.slots 0).monsterSrcX = 120 ∧ (p.1.slots 0).monsterSrcY = 80) := by
  constructor
  · obtain ⟨p, hp, hf⟩ := Option.map_eq_some'.mp twoSlotRun_slot0
    obtain ⟨q, hq, hg⟩ := Option.map_eq_some'.mp twoSlotRun_slot1
    have hqp : q = p := Option.some.inj (hq.symm.trans hp)
    rw [hqp] at hg
    have e1 := Prod.mk.inj hf
    have e2 := Prod.mk.inj e1.2
    have e3 := Prod.mk.inj e2.2
    have e4 := Prod.mk.inj e3.2
    have g1 := Prod.mk.inj hg
    have g2 := Prod.mk.inj g1.2
    have g3 := Prod.mk.inj g2.2
    have ht := twoSlotRun_tracked p hp
    exact ⟨p, hp, ht, ⟨e1.1, e2.1, e3.1, e4.2⟩, ⟨g1.1, g2.1⟩,
      rest_position_invariant p.1 p.2 ht 1 g1.1 g2.1, g3.1, g3.2⟩
  · obtain ⟨p, hp, hf⟩ := Option.map_eq_some'.mp nextBattleRun_fields
    have e1 := Prod.mk.inj hf
    have e2 := Prod.mk.inj e1.2
    have e3 := Prod.mk.inj e2.2
    have ht := nextBattleRun_tracked p hp
    exact ⟨p, hp, ht, ⟨e1.1, e2.1⟩,
      rest_position_invariant p.1 p.2 ht 0 e1.1 e2.1, e3.1, e3.2⟩

/-! ### C15: the move counter when a sequence completes -/

/-- The melee sequence of `meleeState`, slot 0: the slot after `k ≤ 71` battle
ticks is still approaching, and after 72 ticks it is the completed slot. -/
theorem meleeState_run :
    (∀ k, k ≤ 71 → ((battleTicks k meleeState).slots 0).monsterApproach = true) ∧
      (battleTicks 72 meleeState).slots 0 =
        ⟨1, 0, 30, 100, 100, 150, 100, 100, 100, 1, false, false, true, false,
          fun _ => none⟩ := by
  have hp : (meleeState.slots 0, meleeState.jumpTick) =
      (⟨0, 0, 30, 100, 100, 150, 100, 100, 100, 0, true, false, true, false, fun _ => none⟩,
        0) := rfl
  have ho : ∀ j : Fin MAX_MONSTERS, j ≠ 0 → (meleeState.slots j).monsterApproach = false := by
    decide
  have hrun : ∀ k, k < 72 →
      (meleeSteps k (meleeState.slots 0, meleeState.jumpTick)).1.monsterApproach = true ∧
      (meleeSteps k (meleeState.slots 0, meleeState.jumpTick)).1.monsterCast = false := by
    intro k hk
    rw [hp, round_trip_trace _ _ _ _ _ _ _ k (by omega)]
    exact ⟨rfl, rfl⟩
  constructor
  · intro k hk
    have h := (battleTicks_single k meleeState 0 ho (fun n hn => hrun n (by omega))).1
    rw [hp, round_trip_trace _ _ _ _ _ _ _ k hk] at h
    rw [(Prod.mk.inj h).1]
  · have h := (battleTicks_single 72 meleeState 0 ho hrun).1
    rw [hp, round_trip_end] at h
    exact (Prod.mk.inj h).1

/-- The cast sequence of `castSeqState`, slot 0: the slot after `k ≤ 76` battle
ticks is still approaching, and after 77 ticks it is the completed slot. -/
theorem castSeqState_run :
    (∀ k, k ≤ 76 → ((battleTicks k castSeqState).slots 0).monsterApproach = true) ∧
      (battleTicks 77 castSeqState).slots 0 =
        ⟨1, 0, 30, 100, 100, 100 + 10, 100, 100, 100, 1, false, false, true, false,
          fun _ => none⟩ := by
  have hp : castSeqState.slots 0 =
      ⟨0, 0, 30, 100, 100, 100 + 10, 100, 100, 100, 0, true, true, true, false,
        fun _ => none⟩ := rfl
  have hrun : ∀ k, k < 77 →
      (castSteps k (castSeqState.slots 0)).monsterApproach = true ∧
      (castSteps k (castSeqState.slots 0)).monsterCast = true := by
    intro k hk
    rw [hp, cast_trace _ _ _ _ _ _ _ _ k (by omega)]
    exact ⟨rfl, rfl⟩
  constructor
  · intro k hk
    rw [battleTicks_cast k castSeqState 0 (fun n hn => hrun n (by omega)), hp,
      cast_trace _ _ _ _ _ _ _ _ k hk]
  · rw [battleTicks_cast 77 castSeqState 0 hrun, hp, cast_end]

/-- C15 (completion resets the move counter), the code on a melee and a cast
sequence.  The melee sequence of `meleeState` is still running after 71 battle
ticks and completes in tick 72; the cast sequence of `castSeqState` is still
running after 76 ticks and completes in tick 77.  When the completing call of
`onFrame` returns, `monsterMoveFrame` is 1 in both cases, not 0. -/
theorem completion_leaves_move_counter_at_one :
    (((battleTicks 71 meleeState).slots 0).monsterApproach = true ∧
      ((battleTicks 72 meleeState).slots 0).monsterApproach = false ∧
      ((battleTicks 72 meleeState).slots 0).monsterMoveFrame = 1) ∧
    (((battleTicks 76 castSeqState).slots 0).monsterApproach = true ∧
      ((battleTicks 77 castSeqState).slots 0).monsterApproach = false ∧
      ((battleTicks 77 castSeqState).slots 0).monsterMoveFrame = 1) := by
  obtain ⟨m1, m2⟩ := meleeState_run
  obtain ⟨c1, c2⟩ := castSeqState_run
  refine ⟨⟨m1 71 (le_refl _), ?_, ?_⟩, ⟨c1 76 (le_refl _), ?_, ?_⟩⟩
  · rw [m2]
  · rw [m2]
  · rw [c2]
  · rw [c2]

/-! ### C16: activation of the overlay -/

/-- C16 as stated fails: when the overlay is activated while a run is in
progress at `castTimer = 40`, the overlay is active and anchored at the
position `(108, 100)` of the caster, but `castTimer` is still 40. -/
theorem activation_keeps_timer_counterexample :
    recastState.castTimer = 40 ∧
      ((recastState.slots 0).monsterMoveFrame = 10 ∧
        (recastState.slots 0).monsterApproach = true ∧
        (recastState.slots 0).monsterCast = true) ∧
      (onFrame recastState Scene.SCENE_BATTLE).doCastAnimation = true ∧
      (onFrame recastState Scene.SCENE_BATTLE).castX = 108 ∧
      (onFrame recastState Scene.SCENE_BATTLE).castY = 100 ∧
      (onFrame recastState Scene.SCENE_BATTLE).castTimer = 40 := by
  decide

/-- C16, amended.  When an approaching, casting slot processes
`monsterMoveFrame = 10`, the overlay is active immediately afterwards and its
anchor is the current position of that slot, also when a run was in progress;
`castTimer` is left as it is, so the timeline starts at 0 exactly when the
count was 0 before.  This holds for the loop iteration of the slot and, when
no other slot is approaching, for the whole battle tick. -/
theorem overlay_activation (s : State) (i : Fin MAX_MONSTERS)
    (ha : (s.slots i).monsterApproach = true) (hc : (s.slots i).monsterCast = true)
    (hm : (s.slots i).monsterMoveFrame = 10) :
    ((updateMonster s i).doCastAnimation = true ∧
      (updateMonster s i).castX = ((updateMonster s i).slots i).monsterX ∧
      (updateMonster s i).castY = ((updateMonster s i).slots i).monsterY ∧
      ((updateMonster s i).slots i).monsterX = (s.slots i).monsterX ∧
      ((updateMonster s i).slots i).monsterY = (s.slots i).monsterY ∧
      (updateMonster s i).castTimer = s.castTimer) ∧
    ((∀ j, j ≠ i → (s.slots j).monsterApproach = false) →
      (onFrame s Scene.SCENE_BATTLE).doCastAnimation = true ∧
      (onFrame s Scene.SCENE_BATTLE).castX =
        ((onFrame s Scene.SCENE_BATTLE).slots i).monsterX ∧
      (onFrame s Scene.SCENE_BATTLE).castY =
        ((onFrame s Scene.SCENE_BATTLE).slots i).monsterY ∧
      ((onFrame s Scene.SCENE_BATTLE).slots i).monsterX = (s.slots i).monsterX ∧
      ((onFrame s Scene.SCENE_BATTLE).slots i).monsterY = (s.slots i).monsterY ∧
      (onFrame s Scene.SCENE_BATTLE).castTimer = s.castTimer) := by
  constructor
  · obtain ⟨e1, e2, e3, e4, e5, e6⟩ := updateMonster_activate s i ha hc hm
    exact ⟨e1, by rw [e2, e5], by rw [e3, e6], e5, e6, e4⟩
  · intro ho
    have hfc : (frameClock s).slots i = s.slots i := frameClock_approaching s i ha
    obtain ⟨g1, _, _, _⟩ := frameClock_cast_globals s
    rw [onFrame_single_eq s i ho]
    generalize frameClock s = u at hfc g1
    obtain ⟨e1, e2, e3, e4, e5, e6⟩ := updateMonster_activate u i (by rw [hfc]; exact ha)
      (by rw [hfc]; exact hc) (by rw [hfc]; exact hm)
    rw [hfc] at e2 e3 e5 e6
    refine ⟨?_, ?_, ?_, ?_, ?_, ?_⟩
    · show (updateMonster u i).doCastAnimation = true
      exact e1
    · show (updateMonster u i).castX = ((updateMonster u i).slots i).monsterX
      rw [e2, e5]
    · show (updateMonster u i).castY = ((updateMonster u i).slots i).monsterY
      rw [e3, e6]
    · show ((updateMonster u i).slots i).monsterX = (s.slots i).monsterX
      exact e5
    · show ((updateMonster u i).slots i).monsterY = (s.slots i).monsterY
      exact e6
    · show (updateMonster u i).castTimer = s.castTimer
      rw [e4, g1]

/-- Witness of the amended C16: the activation in `recastState`. -/
theorem overlay_activation_witness :
    ((recastState.slots 0).monsterApproach = true ∧
      (recastState.slots 0).monsterCast = true ∧
      (recastState.slots 0).monsterMoveFrame = 10) ∧
    ((updateMonster recastState 0).doCastAnimation = true ∧
      (updateMonster recastState 0).castX = ((updateMonster recastState 0).slots 0).monsterX ∧
      (updateMonster recastState 0).castY = ((updateMonster recastState 0).slots 0).monsterY ∧
      ((updateMonster recastState 0).slots 0).monsterX = (recastState.slots 0).monsterX ∧
      ((updateMonster recastState 0).slots 0).monsterY = (recastState.slots 0).monsterY ∧
      (updateMonster recastState 0).castTimer = recastState.castTimer) :=
  ⟨⟨rfl, rfl, rfl⟩, (overlay_activation recastState 0 rfl rfl rfl).1⟩

/-! ### C17: what the battle reset leaves alone -/

/-- C17 as stated fails: the battle ends while the overlay is active at
`castTimer = 40` and the frame clock is 7; the reset runs (the flag is
cleared, slot 0 is back to its defaults) and leaves all three as they are. -/
theorem reset_keeps_overlay_counterexample :
    recastState.resetTable = true ∧
      (onFrame recastState Scene.SCENE_MAP).resetTable = false ∧
      ((onFrame recastState Scene.SCENE_MAP).slots 0).monsterApproach = false ∧
      (onFrame recastState Scene.SCENE_MAP).doCastAnimation = true ∧
      (onFrame recastState Scene.SCENE_MAP).castTimer = 40 ∧
      (onFrame recastState Scene.SCENE_MAP).frameTimer = 7 := by
  decide

/-- C17, amended.  The battle reset, `initializeBattle` as run by `onFrame`
outside the battle, writes the per-slot arrays and the reset flag only: the
overlay state (active flag, `castTimer`, anchor, cached frames), the frame
clock and the jump counter are the same before and after, whatever the state
in which it runs. -/
theorem reset_leaves_overlay_and_clock (s : State) (scene : Scene)
    (hsc : scene ≠ Scene.SCENE_BATTLE) :
    (onFrame s scene).doCastAnimation = s.doCastAnimation ∧
      (onFrame s scene).castTimer = s.castTimer ∧
      (onFrame s scene).castX = s.castX ∧ (onFrame s scene).castY = s.castY ∧
      (onFrame s scene).castAnimation = s.castAnimation ∧
      (onFrame s scene).frameTimer = s.frameTimer ∧
      (onFrame s scene).jumpTick = s.jumpTick ∧
      (initializeBattle s).doCastAnimation = s.doCastAnimation ∧
      (initializeBattle s).castTimer = s.castTimer ∧
      (initializeBattle s).frameTimer = s.frameTimer := by
  unfold onFrame
  rw [if_neg hsc]
  by_cases hr : s.resetTable = true
  · rw [if_pos hr]
    exact ⟨rfl, rfl, rfl, rfl, rfl, rfl, rfl, rfl, rfl, rfl⟩
  · rw [if_neg hr]
    exact ⟨rfl, rfl, rfl, rfl, rfl, rfl, rfl, rfl, rfl, rfl⟩

/-- Witness of the amended C17: the reset of `recastState`. -/
theorem reset_leaves_overlay_and_clock_witness :
    Scene.SCENE_MAP ≠ Scene.SCENE_BATTLE ∧
    (onFrame recastState Scene.SCENE_MAP).doCastAnimation = recastState.doCastAnimation ∧
    (onFrame recastState Scene.SCENE_MAP).castTimer = recastState.castTimer :=
  ⟨by decide,
   (reset_leaves_overlay_and_clock recastState Scene.SCENE_MAP (by decide)).1,
   (reset_leaves_overlay_and_clock recastState Scene.SCENE_MAP (by decide)).2.1⟩

/-! ### C18: the hurt pose after the countdown -/

/-- The pose chosen by `drawTimers` for a living monster: the hurt pose when
the hurt timer is positive at the test of line 154, the pose it found
otherwise.  The tested value is 30 when the call has just seen the HP drop. -/
theorem drawTimers_alive_pose (ft : Int) (b : Battler) (sl : Slot) (hpos : 0 < b.hp) :
    (drawTimers ft b sl).poseIndex =
      (if (if b.hp < sl.oldHP then 30 else sl.hurtTimer) > 0 then 5 + (ft - 1).tdiv 5
       else sl.poseIndex) := by
  rcases lt_trichotomy b.hp sl.oldHP with h | h | h
  · rw [(drawTimers_hurt ft b sl hpos h).2.2, if_pos h]
    simp
  · have hn : ¬ b.hp < sl.oldHP := by omega
    rw [(drawTimers_steady ft b sl hpos h).2.2, if_neg hn]
  · have hn : ¬ b.hp < sl.oldHP := by omega
    have hd : ¬ b.hp ≤ 0 := by omega
    rw [(drawTimers_heal ft b sl h).2.2, if_neg hd, if_neg hn]


/-- C18 as stated fails.  The run of C1 continued: the monster of slot 0 has
recorded HP 50 and is drawn with HP 40.  After 30 draws the hurt timer is 0,
the recorded HP is 40 and the slot is not approaching; the 31st draw tests a
timer of 0 and the pose index it shows is the hurt pose 5, not an idle pose. -/
theorem hurt_pose_lingers_counterexample :
    (drawRun hurtState 0 (List.replicate 30 (monsterAt 200 100 40))).map
        (fun s => ((s.slots 0).hurtTimer, (s.slots 0).oldHP, (s.slots 0).poseIndex,
          (s.slots 0).monsterApproach)) = some (0, 40, 5, false) ∧
      (drawRun hurtState 0 (List.replicate 31 (monsterAt 200 100 40))).map
        (fun s => ((s.slots 0).hurtTimer, (s.slots 0).poseIndex)) = some (0, 5) := by
  decide


/-- C18, amended.  For a living monster a draw call selects the hurt pose
`5 + (frameTimer - 1) / 5`, which is 5 or 6, whenever the hurt timer is
positive at the test (it is 30 when the call has just seen the HP drop).  When
the timer is 0 at the test the call leaves `poseIndex` as it found it, so the
last hurt pose stays after the countdown; it is the idle advance of `onFrame`
that takes it to an idle index, 5 to 2 and 6 to 3. -/
theorem hurt_pose_selection (s : State) (i : Fin MAX_MONSTERS) (b : Battler)
    (hft0 : 0 ≤ s.frameTimer) (hft1 : s.frameTimer ≤ 10)
    (hp0 : 0 ≤ (s.slots i).poseIndex) (hp1 : (s.slots i).poseIndex ≤ 11)
    (hpos : 0 < b.hp) :
    ∃ r, onDrawBattler s b true (i.val : Int) = some r ∧
      ((if b.hp < (s.slots i).oldHP then 30 else (s.slots i).hurtTimer) > 0 →
        (r.1.slots i).poseIndex = 5 + (s.frameTimer - 1).tdiv 5 ∧
        ((r.1.slots i).poseIndex = 5 ∨ (r.1.slots i).poseIndex = 6)) ∧
      (¬ (if b.hp < (s.slots i).oldHP then 30 else (s.slots i).hurtTimer) > 0 →
        (r.1.slots i).poseIndex = (s.slots i).poseIndex) ∧
      (∀ sl : Slot, sl.hurtTimer = 0 → sl.monsterApproach = false →
        (sl.poseIndex = 5 → (idleAdvance sl).poseIndex = 2) ∧
        (sl.poseIndex = 6 → (idleAdvance sl).poseIndex = 3)) := by
  have e := drawTimers_alive_pose s.frameTimer b (s.slots i) hpos
  obtain ⟨q0, q1⟩ := hurt_pose_range s.frameTimer hft0 hft1
  have b0 : 0 ≤ (drawTimers s.frameTimer b (s.slots i)).poseIndex := by
    rw [e]; split <;> omega
  have b1 : (drawTimers s.frameTimer b (s.slots i)).poseIndex ≤ 11 := by
    rw [e]; split <;> omega
  obtain ⟨r, hr, hsl, _, _⟩ := onDrawBattler_slot s b i b0 b1
  have hpose : (r.1.slots i).poseIndex = (drawTimers s.frameTimer b (s.slots i)).poseIndex := by
    rw [hsl]
  refine ⟨r, hr, ?_, ?_, ?_⟩
  · intro ht
    rw [hpose, e, if_pos ht]
    refine ⟨rfl, ?_⟩
    omega
  · intro ht
    rw [hpose, e, if_neg ht]
  · intro sl hh ha
    constructor
    · intro h5
      simp [idleAdvance, hh, ha, h5]
      decide
    · intro h6
      simp [idleAdvance, hh, ha, h6]
      decide

/-- Witness of the amended C18: the first draw of the run of C1. -/
theorem hurt_pose_selection_witness :
    (0 ≤ hurtState.frameTimer ∧ hurtState.frameTimer ≤ 10 ∧
      0 ≤ (hurtState.slots 0).poseIndex ∧ (hurtState.slots 0).poseIndex ≤ 11 ∧
      0 < (monsterAt 200 100 40).hp) ∧
    ∃ r, onDrawBattler hurtState (monsterAt 200 100 40) true ((0 : Fin MAX_MONSTERS).val : Int)
        = some r ∧
      ((if (monsterAt 200 100 40).hp < (hurtState.slots 0).oldHP then 30
          else (hurtState.slots 0).hurtTimer) > 0 →
        (r.1.slots 0).poseIndex = 5 + (hurtState.frameTimer - 1).tdiv 5 ∧
        ((r.1.slots 0).poseIndex = 5 ∨ (r.1.slots 0).poseIndex = 6)) :=
  ⟨by decide,
   by
    obtain ⟨r, h1, h2, _⟩ := hurt_pose_selection hurtState 0 (monsterAt 200 100 40)
      (by decide) (by decide) (by decide) (by decide) (by decide)
    exact ⟨r, h1, h2⟩⟩

/-! ### C19: a melee sequence that never completes -/

/-- From `monsterMoveFrame = 20` on, a melee slot at distance exactly 3 from
its source is left where it is: the return update needs a distance above 3 and
the completion a distance below 3. -/
theorem meleeUpdate_stuck (sl : Slot) (jt : Nat) (hm : 20 ≤ sl.monsterMoveFrame)
    (hd : distFromSource sl = 3) :
    (meleeUpdate sl jt).1 = { sl with poseIndex := (meleeUpdate sl jt).1.poseIndex } := by
  have n1 : ¬ distFromSource sl > 3 := by omega
  have n2 : ¬ distFromSource sl < 3 := by omega
  by_cases h2 : sl.monsterMoveFrame ≤ 50
  · rw [(meleeUpdate_wait sl jt hm h2).1]
  · by_cases h3 : sl.monsterMoveFrame < 71
    · rw [(meleeUpdate_back sl jt (by omega) h3).1, if_neg n1]
    · rw [(meleeUpdate_last sl jt (by omega)).1, if_neg n1, if_neg n2]

/-- A melee slot that has reached `monsterMoveFrame ≥ 20` at distance exactly 3
from its source stays there, approaching, through every further battle tick. -/
theorem stuck_forever (s : State) (i : Fin MAX_MONSTERS)
    (ha : (s.slots i).monsterApproach = true) (hc : (s.slots i).monsterCast = false)
    (hm : 20 ≤ (s.slots i).monsterMoveFrame) (hd : distFromSource (s.slots i) = 3) (n : Nat) :
    ((battleTicks n s).slots i).monsterApproach = true ∧
      ((battleTicks n s).slots i).monsterCast = false ∧
      ((battleTicks n s).slots i).monsterMoveFrame = (s.slots i).monsterMoveFrame + n ∧
      ((battleTicks n s).slots i).monsterX = (s.slots i).monsterX ∧
      ((battleTicks n s).slots i).monsterY = (s.slots i).monsterY ∧
      ((battleTicks n s).slots i).monsterSrcX = (s.slots i).monsterSrcX ∧
      ((battleTicks n s).slots i).monsterSrcY = (s.slots i).monsterSrcY := by
  induction n with
  | zero => exact ⟨ha, hc, by simp [battleTicks], rfl, rfl, rfl, rfl⟩
  | succ n ih =>
    obtain ⟨a1, a2, a3, a4, a5, a6, a7⟩ := ih
    have hd2 : distFromSource ((battleTicks n s).slots i) = 3 := by
      unfold distFromSource at hd ⊢
      rw [a4, a5, a6, a7]
      exact hd
    obtain ⟨jt, h⟩ := onFrame_melee_slot (battleTicks n s) i a1 a2
    rw [battleTicks_succ, h, meleeUpdate_stuck _ jt (by rw [a3]; omega) hd2]
    refine ⟨a1, a2, ?_, a4, a5, a6, a7⟩
    show ((battleTicks n s).slots i).monsterMoveFrame + 1 = _
    rw [a3]
    push_cast
    ring

/-- C19 (every melee approach completes), the code on source `(100, 100)` and
destination `(104, 100)`.  The approach ends at `(103, 100)`, at distance
exactly 3 from the source; after 20 battle ticks and after every further
number `n` of ticks, so also after 72 ticks, the slot is still approaching and
still at `(103, 100)`. -/
theorem melee_never_completes (n : Nat) :
    ((battleTicks (20 + n) stuckState).slots 0).monsterApproach = true ∧
      ((battleTicks (20 + n) stuckState).slots 0).monsterX = 103 ∧
      ((battleTicks (20 + n) stuckState).slots 0).monsterY = 100 ∧
      ((battleTicks (20 + n) stuckState).slots 0).monsterSrcX = 100 ∧
      ((battleTicks (20 + n) stuckState).slots 0).monsterSrcY = 100 := by
  have h20 := approach_phase stuckState 0 rfl rfl rfl 19 (by decide)
  have e : (battleTicks 20 stuckState).slots 0 =
      ⟨7, 0, 30, 100, 100, 104, 100, 103, 100, 20, true, false, true, false,
        fun _ => none⟩ := by
    rw [h20]
    rfl
  obtain ⟨a1, _, _, a4, a5, a6, a7⟩ := stuck_forever (battleTicks 20 stuckState) 0
    (by rw [e]) (by rw [e]) (by rw [e]) (by rw [e]; rfl) n
  rw [battleTicks_add 20 n stuckState]
  rw [e] at a4 a5 a6 a7
  exact ⟨a1, a4, a5, a6, a7⟩

/-! ### C20: the shared jump counter -/

/-- C20 as stated fails.  The states `jumpStateA` and `jumpStateB` agree on slot
1, on the frame clock and on the jump counter and differ in slot 0 only.  One
battle tick puts slot 1 at height 86 in the first and at height 100 in the
second: the melee sequence of slot 0 has reset the jump counter before slot 1
used it. -/
theorem shared_jump_counter_counterexample :
    jumpStateA.slots 1 = jumpStateB.slots 1 ∧ jumpStateA.frameTimer = jumpStateB.frameTimer ∧
      jumpStateA.jumpTick = jumpStateB.jumpTick ∧
      ((onFrame jumpStateA Scene.SCENE_BATTLE).slots 1).monsterY = 86 ∧
      ((onFrame jumpStateB Scene.SCENE_BATTLE).slots 1).monsterY = 100 :=
  ⟨rfl, rfl, rfl, by decide, by decide⟩


/-- The loop iteration for slot `i` reads and writes slot `i` and the jump
counter as `slotStep` does. -/
theorem updateMonster_view (s : State) (i : Fin MAX_MONSTERS) :
    ((updateMonster s i).slots i, (updateMonster s i).jumpTick) =
      slotStep (s.slots i, s.jumpTick) := by
  unfold slotStep
  cases ha : (s.slots i).monsterApproach
  · rw [updateMonster_rest s i ha]
    simp [ha]
  · cases hc : (s.slots i).monsterCast
    · obtain ⟨e1, e2⟩ := updateMonster_melee s i ha hc
      rw [e1, e2]
      simp [ha, hc, meleeStep]
    · rw [updateMonster_cast s i ha hc, (updateMonster_cast_eq s i ha hc).2.2]
      simp [ha, hc]

/-- The loop iteration for a slot that is not in a melee sequence leaves the
jump counter alone. -/
theorem updateMonster_jumpTick (s : State) (j : Fin MAX_MONSTERS)
    (h : (s.slots j).monsterApproach = true → (s.slots j).monsterCast = true) :
    (updateMonster s j).jumpTick = s.jumpTick := by
  cases ha : (s.slots j).monsterApproach
  · rw [updateMonster_rest s j ha]
  · exact (updateMonster_cast_eq s j ha (h ha)).2.2

/-- The movement loop seen from slot `i` when no other slot is in a melee
sequence. -/
theorem moveLoop_view (l : List (Fin MAX_MONSTERS)) (s : State) (i : Fin MAX_MONSTERS)
    (hn : l.Nodup)
    (h : ∀ j, j ∈ l → j ≠ i → (s.slots j).monsterApproach = true →
      (s.slots j).monsterCast = true) :
    ((l.foldl updateMonster s).slots i, (l.foldl updateMonster s).jumpTick) =
      (if i ∈ l then slotStep (s.slots i, s.jumpTick) else (s.slots i, s.jumpTick)) := by
  induction l generalizing s with
  | nil => simp
  | cons a l ih =>
    rw [List.foldl_cons]
    have hnd := List.nodup_cons.mp hn
    have hrest : ∀ j, j ∈ l → j ≠ i → ((updateMonster s a).slots j).monsterApproach = true →
        ((updateMonster s a).slots j).monsterCast = true := by
      intro j hj hji
      have hja : j ≠ a := fun x => hnd.1 (x ▸ hj)
      rw [updateMonster_other s a j hja]
      exact h j (List.mem_cons_of_mem _ hj) hji
    rw [ih (updateMonster s a) hnd.2 hrest]
    by_cases e : a = i
    · subst e
      rw [if_neg hnd.1, if_pos (List.mem_cons_self _ _)]
      exact updateMonster_view s a
    · have hs : (updateMonster s a).slots i = s.slots i :=
        updateMonster_other s a i (fun x => e x.symm)
      have hj : (updateMonster s a).jumpTick = s.jumpTick :=
        updateMonster_jumpTick s a (h a (List.mem_cons_self _ _) e)
      rw [hs, hj]
      by_cases hi : i ∈ l
      · rw [if_pos hi, if_pos (List.mem_cons_of_mem _ hi)]
      · have hi2 : i ∉ a :: l := by
          intro hm
          rcases List.mem_cons.mp hm with x | x
          · exact e x.symm
          · exact hi x
        rw [if_neg hi, if_neg hi2]

theorem frameClock_view (s : State) (i : Fin MAX_MONSTERS) :
    (frameClock s).slots i =
        (if s.frameTimer + 1 > 10 then idleAdvance (s.slots i) else s.slots i) ∧
      (frameClock s).frameTimer = (if s.frameTimer + 1 > 10 then 0 else s.frameTimer + 1) := by
  unfold frameClock
  by_cases hc : s.frameTimer + 1 > 10
  · simp only [hc, if_true, and_self]
  · simp only [hc, if_false, and_self]

/-- A battle tick seen from slot `i` when no other slot is in a melee
sequence: slot `i`, the jump counter and the frame clock after the tick are
functions of their values before it. -/
theorem onFrame_view (s : State) (i : Fin MAX_MONSTERS) (h : NoOtherMelee s i) :
    ((onFrame s Scene.SCENE_BATTLE).slots i, (onFrame s Scene.SCENE_BATTLE).jumpTick) =
        slotStep ((if s.frameTimer + 1 > 10 then idleAdvance (s.slots i) else s.slots i),
          s.jumpTick) ∧
      (onFrame s Scene.SCENE_BATTLE).frameTimer =
        (if s.frameTimer + 1 > 10 then 0 else s.frameTimer + 1) := by
  have h2 : ∀ j, j ∈ List.finRange MAX_MONSTERS → j ≠ i →
      ((frameClock s).slots j).monsterApproach = true →
      ((frameClock s).slots j).monsterCast = true := by
    intro j _ hji hja
    rw [frameClock_approach] at hja
    have hc := h j hji hja
    have hfix : (frameClock s).slots j = s.slots j := frameClock_approaching s j hja
    rw [hfix]
    exact hc
  have hv := moveLoop_view (List.finRange MAX_MONSTERS) (frameClock s) i
    (List.nodup_finRange _) h2
  rw [if_pos (List.mem_finRange i), (frameClock_view s i).1, frameClock_jumpTick] at hv
  rw [onFrame_battle]
  refine ⟨hv, ?_⟩
  show ((List.finRange MAX_MONSTERS).foldl updateMonster (frameClock s)).frameTimer = _
  rw [moveLoop_frameTimer, (frameClock_view s i).2]

/-- The casting branch keeps a slot casting as long as it keeps it
approaching. -/
theorem castStep_casting (sl : Slot) (hc : sl.monsterCast = true)
    (h : (castStep sl).monsterApproach = true) : (castStep sl).monsterCast = true := by
  have h2 : (castUpdate sl).1.monsterApproach = true := h
  show (castUpdate sl).1.monsterCast = true
  by_cases h1 : sl.monsterMoveFrame < 5
  · rw [castUpdate_forward sl h1]; exact hc
  · by_cases h3 : sl.monsterMoveFrame ≤ 70
    · rw [castUpdate_wait sl (by omega) h3]; exact hc
    · by_cases h4 : sl.monsterMoveFrame ≤ 75
      · rw [castUpdate_back sl (by omega) h4]
        split <;> exact hc
      · rw [castUpdate_last sl (by omega)] at h2 ⊢
        split_ifs at h2 ⊢
        · exact hc
        · exact absurd h2 (by simp [finishSlot])
        · exact hc

/-- A battle tick keeps every slot other than `i` out of a melee sequence. -/
theorem onFrame_noOtherMelee (s : State) (i : Fin MAX_MONSTERS) (h : NoOtherMelee s i) :
    NoOtherMelee (onFrame s Scene.SCENE_BATTLE) i := by
  intro j hji hja
  cases ha : (s.slots j).monsterApproach
  · rw [onFrame_rest_approach s j ha] at hja
    exact absurd hja (by decide)
  · have hc := h j hji ha
    rw [onFrame_cast_slot s j ha hc] at hja ⊢
    exact castStep_casting _ hc hja


/-- Two runs of battle ticks from states that agree on slot `i`, the frame
clock and the jump counter, with no other slot in a melee sequence, agree on
slot `i` and the jump counter. -/
theorem battleTicks_agree (n : Nat) (s1 s2 : State) (i : Fin MAX_MONSTERS)
    (hs : s1.slots i = s2.slots i) (hf : s1.frameTimer = s2.frameTimer)
    (hj : s1.jumpTick = s2.jumpTick) (h1 : NoOtherMelee s1 i) (h2 : NoOtherMelee s2 i) :
    (battleTicks n s1).slots i = (battleTicks n s2).slots i ∧
      (battleTicks n s1).jumpTick = (battleTicks n s2).jumpTick := by
  induction n generalizing s1 s2 with
  | zero => exact ⟨hs, hj⟩
  | succ n ih =>
    obtain ⟨a1, a2⟩ := onFrame_view s1 i h1
    obtain ⟨b1, b2⟩ := onFrame_view s2 i h2
    rw [hs, hf, hj, ← b1] at a1
    rw [hf, ← b2] at a2
    obtain ⟨e1, e2⟩ := Prod.mk.inj a1
    exact ih (onFrame s1 Scene.SCENE_BATTLE) (onFrame s2 Scene.SCENE_BATTLE) e1 a2 e2
      (onFrame_noOtherMelee s1 i h1) (onFrame_noOtherMelee s2 i h2)

/-- C20, amended.  The jump counter is one global for all slots.  For every
slot `i` and every pair of states that agree on the fields of slot `i`, on the
frame clock and on the jump counter, and in which no slot other than `i` is in
a melee sequence (approaching with `monsterCast = false`), any number of battle
ticks leaves slot `i` the same in both runs, in particular its current
position and `poseIndex`. -/
theorem slot_independence (n : Nat) (s1 s2 : State) (i : Fin MAX_MONSTERS)
    (hs : s1.slots i = s2.slots i) (hf : s1.frameTimer = s2.frameTimer)
    (hj : s1.jumpTick = s2.jumpTick) (h1 : NoOtherMelee s1 i) (h2 : NoOtherMelee s2 i) :
    (battleTicks n s1).slots i = (battleTicks n s2).slots i ∧
      ((battleTicks n s1).slots i).monsterX = ((battleTicks n s2).slots i).monsterX ∧
      ((battleTicks n s1).slots i).monsterY = ((battleTicks n s2).slots i).monsterY ∧
      ((battleTicks n s1).slots i).poseIndex = ((battleTicks n s2).slots i).poseIndex ∧
      (battleTicks n s1).jumpTick = (battleTicks n s2).jumpTick := by
  obtain ⟨e, ej⟩ := battleTicks_agree n s1 s2 i hs hf hj h1 h2
  exact ⟨e, congrArg Slot.monsterX e, congrArg Slot.monsterY e, congrArg Slot.poseIndex e, ej⟩

/-- Witness of the amended C20: `jumpStateA` and `jumpStateC` differ in slots 0
and 5, where a cast sequence runs and a monster is hurt; slot 1 moves the same
way in both for 12 battle ticks. -/
theorem slot_independence_witness :
    (jumpStateA.slots 1 = jumpStateC.slots 1 ∧ jumpStateA.frameTimer = jumpStateC.frameTimer ∧
      jumpStateA.jumpTick = jumpStateC.jumpTick ∧ NoOtherMelee jumpStateA 1 ∧
      NoOtherMelee jumpStateC 1) ∧
    ((battleTicks 12 jumpStateA).slots 1).monsterX =
        ((battleTicks 12 jumpStateC).slots 1).monsterX ∧
    ((battleTicks 12 jumpStateA).slots 1).monsterY =
        ((battleTicks 12 jumpStateC).slots 1).monsterY ∧
    ((battleTicks 12 jumpStateA).slots 1).poseIndex =
        ((battleTicks 12 jumpStateC).slots 1).poseIndex :=
  have hA : NoOtherMelee jumpStateA 1 := by unfold NoOtherMelee; decide
  have hC : NoOtherMelee jumpStateC 1 := by unfold NoOtherMelee; decide
  ⟨⟨rfl, rfl, rfl, hA, hC⟩,
   (slot_independence 12 jumpStateA jumpStateC 1 rfl rfl rfl hA hC).2.1,
   (slot_independence 12 jumpStateA jumpStateC 1 rfl rfl rfl hA hC).2.2.1,
   (slot_independence 12 jumpStateA jumpStateC 1 rfl rfl rfl hA hC).2.2.2.1⟩

end AnimatedMonsters
